import Mathlib

/-!
# Form solver: answer matching, reconciliation and form filling

A shallow embedding of `src/front-backend.js` (the content script of the
extension): `matchExactOption`, the `matchAnswerToOptions` helper, the
reconciliation block of `scrapeGoogleForm` / `scrapeMSForm`, the option-marking
steps that follow it, the extraction of the questions, the two functions as a
whole, and the provider layer (`getAvailableModels`,
`getAvailableOpenAIModels`, `callGeminiAPI`, `callOpenAIAPI`,
`imageUrlToBase64`).

Conventions of the embedding

* A JavaScript string is a `Str`, a list of Unicode characters.  JavaScript
  strings are sequences of UTF-16 code units; on well-formed strings the
  operations used here (`===`, `trim`, `includes`, `split`, `join`) give the
  same result on both views, and the default order of `Array.prototype.sort`
  is modelled on the code units themselves (`utf16`).
* `String.prototype.toLowerCase` is a parameter `toLowerCase : Str → Str` of
  every definition that calls it, so that every theorem holds for the real
  Unicode lower-casing.  `toLowerCaseAscii` is the instance used to evaluate
  the definitions on ASCII inputs, where it agrees with JavaScript.
* JavaScript truthiness is explicit: `null`, `undefined` and the empty string
  are falsy; objects and arrays are truthy.
* In the per-question loops the two provider calls of one question are inputs:
  `none` is the `null` that the `.catch` handler of the call produces.
* In the provider layer the network is an input (the response to each attempt,
  the outcome of each listing query, the outcome of fetching each image), and
  the module-level caches are an explicit state.
-/

namespace FormSolver

/-! ## Strings -/

/-- A JavaScript string. -/
abbrev Str := List Char

/-- White space and line terminators of ECMAScript, the characters removed by
`String.prototype.trim`. -/
def isWhiteSpace (c : Char) : Bool :=
  let n := c.toNat
  n == 0x09 || n == 0x0A || n == 0x0B || n == 0x0C || n == 0x0D || n == 0x20 ||
  n == 0xA0 || n == 0x1680 || (0x2000 ≤ n && n ≤ 0x200A) || n == 0x2028 ||
  n == 0x2029 || n == 0x202F || n == 0x205F || n == 0x3000 || n == 0xFEFF

/-- The `String.prototype.trimStart` of JavaScript. -/
def trimStart : Str → Str
  | [] => []
  | c :: cs => if isWhiteSpace c then trimStart cs else c :: cs

/-- The `String.prototype.trim` of JavaScript. -/
def trim (s : Str) : Str :=
  (trimStart (trimStart s).reverse).reverse

/-- Whether `needle` starts `hay`. -/
def startsWith : Str → Str → Bool
  | _, [] => true
  | [], _ :: _ => false
  | h :: hs, n :: ns => h == n && startsWith hs ns

/-- The `hay.includes(needle)` of JavaScript: `needle` occurs in `hay` as a
contiguous run. -/
def includes : Str → Str → Bool
  | [], needle => startsWith [] needle
  | h :: hs, needle => startsWith (h :: hs) needle || includes hs needle

/-- The `s.split(",")` of JavaScript: always at least one part. -/
def splitComma : Str → List Str
  | [] => [[]]
  | c :: cs =>
    if c = ',' then [] :: splitComma cs
    else
      match splitComma cs with
      | [] => [[c]]
      | p :: ps => (c :: p) :: ps

/-- The `parts.join(sep)` of JavaScript on an array of strings. -/
def join (sep : Str) : List Str → Str
  | [] => []
  | [x] => x
  | x :: y :: rest => x ++ sep ++ join sep (y :: rest)

/-- ASCII lower-casing: `String.prototype.toLowerCase` on ASCII strings. -/
def toLowerCaseAscii (s : Str) : Str :=
  s.map fun c => if 65 ≤ c.toNat ∧ c.toNat ≤ 90 then Char.ofNat (c.toNat + 32) else c

/-! ## `matchExactOption` (front-backend.js, lines 361-385) -/

/-- The function `matchExactOption(answer, options)`.  `options.find` gives
`undefined` (`none`) or the first option satisfying the test; the two `if`
tests on the found value are truthiness tests, so a found empty string counts
as not found. -/
def matchExactOption (toLowerCase : Str → Str) (answer : Str) (options : List Str) : Str :=
  if options.length = 0 then answer
  else
    match options.find? (fun opt => decide (trim (toLowerCase opt) = trim (toLowerCase answer))) with
    | some (c :: cs) => c :: cs
    | _ =>
      match options.find? (fun opt =>
          includes (toLowerCase opt) (toLowerCase answer) ||
          includes (toLowerCase answer) (toLowerCase opt)) with
      | some (c :: cs) => c :: cs
      | _ => answer

/-! ## The default order of `Array.prototype.sort` -/

/-- UTF-16 code units of one character. -/
def codeUnits (c : Char) : List Nat :=
  if c.toNat < 0x10000 then [c.toNat]
  else [0xD800 + (c.toNat - 0x10000) / 0x400, 0xDC00 + (c.toNat - 0x10000) % 0x400]

/-- UTF-16 code units of a string. -/
def utf16 : Str → List Nat
  | [] => []
  | c :: cs => codeUnits c ++ utf16 cs

/-- Lexicographic `≤` on sequences of code units. -/
def unitsLE : List Nat → List Nat → Bool
  | [], _ => true
  | _ :: _, [] => false
  | a :: as, b :: bs => decide (a < b) || (a == b && unitsLE as bs)

/-- The order `sort()` uses without a comparator: strings by code units. -/
def strLE (a b : Str) : Prop := unitsLE (utf16 a) (utf16 b) = true

instance strLE.decidable : DecidableRel strLE :=
  fun a b => inferInstanceAs (Decidable (unitsLE (utf16 a) (utf16 b) = true))

/-- The `arr.sort()` of JavaScript on an array of strings.  The order is
linear, so every correct sorting algorithm gives this list. -/
def sortStrings (l : List Str) : List Str := l.insertionSort strLE

/-! ## Options and answers as JavaScript values -/

/-- An element of `questionData.options`: a bare label string, or an object
`{ text, image: { url } }`.  The same type serves for the entries of a matched
answer, which are option elements or plain strings. -/
inductive FormOption
  | str (s : Str)
  | obj (text : Str) (imageUrl : Str)
  deriving DecidableEq, Repr

/-- A raw, matched or final answer: `null`, a single value, or an array. -/
inductive Answer
  | null
  | one (v : FormOption)
  | arr (items : List FormOption)
  deriving DecidableEq, Repr

/-- Truthiness of a string-or-object value. -/
def FormOption.truthy : FormOption → Bool
  | .str s => !s.isEmpty
  | .obj _ _ => true

/-- Truthiness of an answer value. -/
def Answer.truthy : Answer → Bool
  | .null => false
  | .one v => v.truthy
  | .arr _ => true

/-- The expression `a || b` on answers. -/
def Answer.orElse (a b : Answer) : Answer := if a.truthy then a else b

/-- The lambda `opt => typeof opt === 'string' ? opt : opt.text`. -/
def optionText : FormOption → Str
  | .str s => s
  | .obj text _ => text

/-- The lambda `a => typeof a === 'string' ? a : (a.text || a)`. -/
def textOrSelf : FormOption → FormOption
  | .str s => .str s
  | .obj text url => if text.isEmpty then .obj text url else .str text

/-- The `ToString` conversion of a string-or-object value. -/
def jsToString : FormOption → Str
  | .str s => s
  | .obj _ _ => "[object Object]".toList

/-- The `texts.indexOf(x)` of JavaScript; `none` is `-1`. -/
def indexOf (x : Str) : List Str → Option Nat
  | [] => none
  | y :: ys => if y = x then some 0 else (indexOf x ys).map (· + 1)

/-- Kinds of question, the values of `questionData.type`. -/
inductive QType
  | single_ans | multi_ans | dropdown | short_answer | long_answer | unknown
  deriving DecidableEq, Repr

/-- The fields of `questionData` read after extraction. -/
structure QuestionData where
  question : Str
  type : QType
  options : List FormOption
  deriving Repr

/-- Exceptions the modelled code can raise, all of them `TypeError`s: reading
`.text` of a `null` response, calling `.focus()` on a missing control, calling
`.toLowerCase()` on a normalised answer that is an object, calling
`.includes` on a response text that is an object, and setting `.disabled` on a
missing solve button. -/
inductive JSError
  | nullText
  | nullFocus
  | gptToLowerCase
  | geminiToLowerCase
  | rtIncludes
  | nullDisabled
  deriving DecidableEq, Repr

/-- The `error.message` of an exception, as the V8 engine words it. -/
def JSError.message : JSError → String
  | .nullText => "Cannot read properties of null (reading 'text')"
  | .nullFocus => "Cannot read properties of null (reading 'focus')"
  | .gptToLowerCase => "gptNormalized.toLowerCase is not a function"
  | .geminiToLowerCase => "geminiNormalized.toLowerCase is not a function"
  | .rtIncludes => "rt.includes is not a function"
  | .nullDisabled => "Cannot set properties of null (setting 'disabled')"

/-! ## `matchAnswerToOptions` (lines 612-634 and 1044-1066) -/

/-- The expression `questionData.options[idx] || matchedText`. -/
def optionOrText (o : Option FormOption) (matchedText : Str) : FormOption :=
  match o with
  | some v => if v.truthy then v else .str matchedText
  | none => .str matchedText

/-- The helper `matchAnswerToOptions(answer, isMulti)` of one question with
options `options`. -/
def matchAnswerToOptions (toLowerCase : Str → Str) (options : List FormOption)
    (answer : Str) (isMulti : Bool) : Answer :=
  if answer.isEmpty || options.isEmpty then .one (.str answer)
  else
    let optionTexts := options.map optionText
    if isMulti then
      let answerParts := (splitComma answer).map trim
      let matched := (answerParts.map fun part =>
        matchExactOption toLowerCase part optionTexts).filter fun m => !m.isEmpty
      .arr (matched.map fun matchedText =>
        optionOrText ((indexOf matchedText optionTexts).bind fun idx => options[idx]?) matchedText)
    else
      let matchedText := matchExactOption toLowerCase answer optionTexts
      let result :=
        match indexOf matchedText optionTexts with
        | some idx => optionOrText options[idx]? matchedText
        | none => .str matchedText
      match result with
      | .obj text url => if text.isEmpty then .one (.obj text url) else .one (.str text)
      | .str s => .one (.str s)

/-- The entry of the matched answer for one trimmed part, in the words of the
specification: the option that `matchExactOption` binds to the part, that is
the first option whose text is the matched text, or the part itself when the
matched text is no option text. -/
def boundEntry (toLowerCase : Str → Str) (options : List FormOption) (part : Str) : FormOption :=
  match options.find? (fun o =>
      decide (optionText o = matchExactOption toLowerCase part (options.map optionText))) with
  | some o => o
  | none => .str part

/-! ## Reconciliation (lines 636-675 and 1068-1107) -/

/-- The result of the reconciliation block for one question. -/
structure Reconciliation where
  finalAnswer : Answer
  gptMatchedAnswer : Answer
  geminiMatchedAnswer : Answer
  answersMatch : Bool
  deriving DecidableEq, Repr

/-- A provider's raw answer as a value: `null` or a string. -/
def rawAnswer : Option Str → Answer
  | none => .null
  | some s => .one (.str s)

/-- The expression `gptAnswer ? matchAnswerToOptions(gptAnswer, isMulti) : null`. -/
def matchedAnswer (toLowerCase : Str → Str) (q : QuestionData) (raw : Option Str) : Answer :=
  match raw with
  | none => .null
  | some s =>
    if s.isEmpty then .null
    else matchAnswerToOptions toLowerCase q.options s (decide (q.type = .multi_ans))

/-- The local function `normalizeForComparison(ans)`.  On an array, `sort()`
compares the `ToString` of the elements and `join` concatenates them. -/
def normalizeForComparison : Answer → FormOption
  | .null => .str []
  | .one v => if v.truthy then textOrSelf v else .str []
  | .arr items => .str (join ",".toList (sortStrings ((items.map textOrSelf).map jsToString)))

/-- The expression `x.toLowerCase().trim()`; an object has no `toLowerCase`,
and the call throws `e`. -/
def lowerTrim (toLowerCase : Str → Str) (e : JSError) : FormOption → Except JSError Str
  | .str s => .ok (trim (toLowerCase s))
  | .obj _ _ => .error e

/-- The reconciliation block: from the two raw answers of a question to the
final answer, both matched answers and `answersMatch`. -/
def reconcile (toLowerCase : Str → Str) (q : QuestionData)
    (gptAnswer geminiAnswer : Option Str) : Except JSError Reconciliation :=
  if q.options.length > 0 then
    let gptMatchedAnswer := matchedAnswer toLowerCase q gptAnswer
    let geminiMatchedAnswer := matchedAnswer toLowerCase q geminiAnswer
    match lowerTrim toLowerCase .gptToLowerCase (normalizeForComparison gptMatchedAnswer) with
    | .error e => .error e
    | .ok gptNormalized =>
      match lowerTrim toLowerCase .geminiToLowerCase (normalizeForComparison geminiMatchedAnswer) with
      | .error e => .error e
      | .ok geminiNormalized =>
        let answersMatch := decide (gptNormalized = geminiNormalized)
        if answersMatch && gptMatchedAnswer.truthy then
          .ok { finalAnswer := geminiMatchedAnswer, gptMatchedAnswer, geminiMatchedAnswer,
                answersMatch }
        else
          .ok { finalAnswer := geminiMatchedAnswer.orElse gptMatchedAnswer, gptMatchedAnswer,
                geminiMatchedAnswer, answersMatch }
  else
    .ok { finalAnswer := (rawAnswer geminiAnswer).orElse (rawAnswer gptAnswer),
          gptMatchedAnswer := .null, geminiMatchedAnswer := .null, answersMatch := false }

/-! ## Option marking in `scrapeGoogleForm` (lines 682-736)

The step run for a question whose type is single_ans or multi_ans.  The page
is read through the checked state of each `label` of the question. -/

/-- The local function `getResponseTexts(matchedAnswer)`. -/
def getResponseTexts (matchedAnswer : Answer) : List FormOption :=
  if matchedAnswer.truthy then
    match matchedAnswer with
    | .arr items => items.map textOrSelf
    | .one v => [textOrSelf v]
    | .null => []
  else []

/-- The call `texts.includes(optionText)`, where `optionText = optionTexts[idx]`
is a string, or `undefined` (`none`) past the end of `optionTexts`. -/
def includesText (texts : List FormOption) (optionText : Option Str) : Bool :=
  match optionText with
  | some t => decide (FormOption.str t ∈ texts)
  | none => false

/-- The body of `questionLabels.forEach((label, idx) => ...)`: whether
`label.click()` is called, given whether the label holds a checked control. -/
def labelClicked (r : Reconciliation) (optionTexts : List Str) (idx : Nat) (checked : Bool) :
    Bool :=
  let responseTexts := getResponseTexts r.finalAnswer
  let gptResponseTexts := getResponseTexts r.gptMatchedAnswer
  let geminiResponseTexts := getResponseTexts r.geminiMatchedAnswer
  let optionText := optionTexts[idx]?
  let isGptAnswer := includesText gptResponseTexts optionText
  let isGeminiAnswer := includesText geminiResponseTexts optionText
  if r.answersMatch && r.finalAnswer.truthy then
    if includesText responseTexts optionText then
      if !checked then true else false
    else
      if checked && !includesText responseTexts optionText then true else false
  else
    if isGptAnswer || isGeminiAnswer then
      if !checked then true else false
    else
      if checked then true else false

/-- Checked state of every label of a question, and the labels clicked so far. -/
structure LabelsState where
  checked : List Bool
  clicks : List Nat
  deriving DecidableEq, Repr

/-- One iteration of the `forEach` over the labels.  The parameter `click` is
the page's reaction to `label.click()` on the checked states. -/
def markLabelStep (click : Nat → List Bool → List Bool) (r : Reconciliation)
    (optionTexts : List Str) (st : LabelsState) (idx : Nat) : LabelsState :=
  if labelClicked r optionTexts idx (st.checked.getD idx false) then
    { checked := click idx st.checked, clicks := st.clicks ++ [idx] }
  else st

/-- The marking step of a single_ans or multi_ans question: the `forEach` over
the labels found in the question when the step starts. -/
def markLabels (click : Nat → List Bool → List Bool) (r : Reconciliation)
    (options : List FormOption) (checked : List Bool) : LabelsState :=
  (List.range checked.length).foldl (markLabelStep click r (options.map optionText))
    { checked := checked, clicks := [] }

/-- The page reaction assumed where a claim says that a click toggles an
option: the checked state of the clicked label flips, the others stay. -/
def toggleClick : Nat → List Bool → List Bool
  | _, [] => []
  | 0, b :: bs => (!b) :: bs
  | n + 1, b :: bs => b :: toggleClick n bs

/-- The target state of the label at `idx`, in the words of the specification:
in the agree case (`answersMatch` and a truthy final answer) the option text is
one of the final answer's labels, otherwise it is in either provider's matched
answer. -/
def targetState (r : Reconciliation) (optionTexts : List Str) (idx : Nat) : Bool :=
  if r.answersMatch && r.finalAnswer.truthy then
    includesText (getResponseTexts r.finalAnswer) optionTexts[idx]?
  else
    includesText (getResponseTexts r.gptMatchedAnswer) optionTexts[idx]? ||
    includesText (getResponseTexts r.geminiMatchedAnswer) optionTexts[idx]?

/-! ## The per-question loop of `scrapeMSForm` (lines 982-1305)

The page is read through the values the code reads from it: for each radio or
checkbox element the text content and checked state of its parent element, and
the value of the text controls.  The answer annotation inserted at the end of
an iteration (lines 1251-1289) is not modelled. -/

/-- The parent element of a radio or checkbox: `new_op[j]`, with its
`textContent` and the `checked` flag of the `input` inside it. -/
structure ChoiceNode where
  textContent : Str
  checked : Bool
  deriving DecidableEq, Repr

/-- What the apply step of `scrapeMSForm` reads from a question container. -/
structure MSQuestionDom where
  radios : List ChoiceNode
  checkboxes : List ChoiceNode
  input : Option Str
  textarea : Option Str
  deriving DecidableEq, Repr

/-- Effects of the apply step on the page, in order. -/
inductive DomEvent
  | click (idx : Nat)
  | focus
  | setValue (value : Str)
  | inputEvent
  | blur
  | openDropdown (delayMs : Nat) (response : Answer)
  deriving DecidableEq, Repr

/-- The `ToString` conversion of an answer value. -/
def Answer.toStr : Answer → Str
  | .null => "null".toList
  | .one v => jsToString v
  | .arr items => join ",".toList (items.map jsToString)

/-- The expression `typeof response === 'string' ? response : (response.text || response)`
of line 1111; reading `.text` of `null` throws. -/
def responseTextOf : Answer → Except JSError Answer
  | .null => .error .nullText
  | .one v => .ok (.one (textOrSelf v))
  | .arr items => .ok (.arr items)

/-- The `responseTexts` of lines 1112-1114. -/
def responseTextsOf (response responseText : Answer) : List Answer :=
  match response with
  | .arr items => items.map fun r => .one (textOrSelf r)
  | _ => [responseText]

/-- The call `texts.some(rt => text.includes(rt) || rt.includes(optionText))`
of lines 1141-1142, with `text = new_op[j].textContent.trim()`.  An `undefined`
option text is searched as the string "undefined"; an object has no `includes`. -/
def someIncludes (text : Str) (optionText : Option Str) : List FormOption → Except JSError Bool
  | [] => .ok false
  | rt :: rest =>
    if includes text (jsToString rt) then .ok true
    else
      match rt with
      | .str s =>
        if includes s (optionText.getD "undefined".toList) then .ok true
        else someIncludes text optionText rest
      | .obj _ _ => .error .rtIncludes

/-- Choices of a question during marking, and the effects so far. -/
structure ChoicesState where
  nodes : List ChoiceNode
  events : List DomEvent
  deriving DecidableEq, Repr

/-- The call `new_op[j].click()`. -/
def ChoicesState.click (click : Nat → List ChoiceNode → List ChoiceNode) (st : ChoicesState)
    (j : Nat) : ChoicesState :=
  { nodes := click j st.nodes, events := st.events ++ [.click j] }

/-- The node `new_op[j]` as the code reads it. -/
def ChoicesState.node (st : ChoicesState) (j : Nat) : ChoiceNode :=
  st.nodes.getD j { textContent := [], checked := false }

/-- One iteration of the `for` loop over the radios (lines 1139-1163). -/
def markRadioStep (click : Nat → List ChoiceNode → List ChoiceNode) (r : Reconciliation)
    (responseText : Answer) (optionTexts : List Str) (st : ChoicesState) (j : Nat) :
    Except JSError ChoicesState :=
  let optionText := optionTexts[j]?
  let text := trim (st.node j).textContent
  match someIncludes text optionText (getResponseTexts r.gptMatchedAnswer) with
  | .error e => .error e
  | .ok isGptAnswer =>
    match someIncludes text optionText (getResponseTexts r.geminiMatchedAnswer) with
    | .error e => .error e
    | .ok isGeminiAnswer =>
      if r.answersMatch && r.finalAnswer.truthy then
        if includes text responseText.toStr then .ok (st.click click j) else .ok st
      else
        if isGptAnswer || isGeminiAnswer then
          if !(st.node j).checked then .ok (st.click click j) else .ok st
        else
          if (st.node j).checked then .ok (st.click click j) else .ok st

/-- A loop over indices whose body may throw. -/
def forIndices (body : ChoicesState → Nat → Except JSError ChoicesState) :
    List Nat → ChoicesState → Except JSError ChoicesState
  | [], st => .ok st
  | j :: js, st =>
    match body st j with
    | .error e => .error e
    | .ok st1 => forIndices body js st1

/-- The inner body of the agree branch for checkboxes (lines 1191-1202). -/
def markCheckboxAgreeStep (click : Nat → List ChoiceNode → List ChoiceNode)
    (responseTexts : List Answer) (resp : Answer) (st : ChoicesState) (j : Nat) : ChoicesState :=
  let checked := (st.node j).checked
  let text : Answer := .one (.str (trim (st.node j).textContent))
  if text = resp then
    if !checked then st.click click j else st
  else
    if checked && !decide (text ∈ responseTexts) then st.click click j else st

/-- The body of the disagree branch for checkboxes (lines 1206-1223). -/
def markCheckboxUnionStep (click : Nat → List ChoiceNode → List ChoiceNode) (r : Reconciliation)
    (optionTexts : List Str) (st : ChoicesState) (idx : Nat) : ChoicesState :=
  let optionText := optionTexts[idx]?
  let isGptAnswer := includesText (getResponseTexts r.gptMatchedAnswer) optionText
  let isGeminiAnswer := includesText (getResponseTexts r.geminiMatchedAnswer) optionText
  let checked := (st.node idx).checked
  if isGptAnswer || isGeminiAnswer then
    if !checked then st.click click idx else st
  else
    if checked then st.click click idx else st

/-- The value a single-line text field (`input` of type text) holds after
`input.value = s`: the value sanitization of that field removes every line
feed (U+000A) and carriage return (U+000D). -/
def stripNewlines (s : Str) : Str :=
  s.filter fun c => !(c.toNat == 10 || c.toNat == 13)

/-- The value a `textarea` gives back after `textarea.value = s`: line breaks
are normalised, a carriage return followed by a line feed and a lone carriage
return both become one line feed. -/
def normalizeNewlines : Str → Str
  | [] => []
  | c :: rest =>
    if c.toNat = 13 then
      match rest with
      | [] => [Char.ofNat 10]
      | d :: _ =>
        if d.toNat = 10 then normalizeNewlines rest
        else Char.ofNat 10 :: normalizeNewlines rest
    else c :: normalizeNewlines rest

/-- The text-control branches (lines 765-786 and 1228-1249): `control` is the
value of the element found by `querySelector`, `none` when there is no such
element, and `sanitize` is what the element makes of an assigned value
(`stripNewlines` for a single-line text field, `normalizeNewlines` for a
`textarea`).  The event `setValue` records the string that is assigned. -/
def fillTextControl (sanitize : Str → Str) (response : Answer) (control : Option Str) :
    Except JSError (Option Str × List DomEvent) :=
  if response.truthy then
    match control with
    | none => .error .nullFocus
    | some _ =>
      let responseText : Answer :=
        match response with
        | .one v => .one (textOrSelf v)
        | other => other
      .ok (some (sanitize responseText.toStr),
        [.focus, .setValue responseText.toStr, .inputEvent, .blur])
  else .ok (control, [])

/-- Lines 1109-1249: from the reconciliation result to the page effects of one
question.  The element that `querySelector("input")` finds for a short_answer
question is the single-line text field of the question. -/
def msApplyAnswer (click : Nat → List ChoiceNode → List ChoiceNode) (q : QuestionData)
    (r : Reconciliation) (dom : MSQuestionDom) : Except JSError (MSQuestionDom × List DomEvent) :=
  let response := r.finalAnswer
  match responseTextOf response with
  | .error e => .error e
  | .ok responseText =>
    let responseTexts := responseTextsOf response responseText
    let optionTexts := q.options.map optionText
    match q.type with
    | .single_ans =>
      match forIndices (markRadioStep click r responseText optionTexts)
          (List.range dom.radios.length) { nodes := dom.radios, events := [] } with
      | .error e => .error e
      | .ok st => .ok ({ dom with radios := st.nodes }, st.events)
    | .multi_ans =>
      let start : ChoicesState := { nodes := dom.checkboxes, events := [] }
      let st :=
        if r.answersMatch && response.truthy then
          responseTexts.foldl (fun s resp =>
            (List.range dom.checkboxes.length).foldl
              (markCheckboxAgreeStep click responseTexts resp) s) start
        else
          (List.range dom.checkboxes.length).foldl (markCheckboxUnionStep click r optionTexts) start
      .ok ({ dom with checkboxes := st.nodes }, st.events)
    | .short_answer =>
      match fillTextControl stripNewlines response dom.input with
      | .error e => .error e
      | .ok (value, events) => .ok ({ dom with input := value }, events)
    | .long_answer =>
      match fillTextControl normalizeNewlines response dom.textarea with
      | .error e => .error e
      | .ok (value, events) => .ok ({ dom with textarea := value }, events)
    | _ => .ok (dom, [])

/-- A question of the second form as the loop meets it: the extracted data,
the page state, and the outcome of the two provider calls (`none` when the
call threw and its `.catch` handler returned `null`). -/
structure MSQuestion where
  data : QuestionData
  dom : MSQuestionDom
  gptAnswer : Option Str
  geminiAnswer : Option Str
  deriving Repr

/-- One iteration of the loop of `scrapeMSForm`. -/
def msQuestionStep (toLowerCase : Str → Str) (click : Nat → List ChoiceNode → List ChoiceNode)
    (q : MSQuestion) : Except JSError (MSQuestionDom × List DomEvent) :=
  match reconcile toLowerCase q.data q.gptAnswer q.geminiAnswer with
  | .error e => .error e
  | .ok r => msApplyAnswer click q.data r q.dom

/-- The outcome of a run: the status string returned, and the page effects of
the questions whose iteration completed, in order. -/
structure RunResult where
  status : String
  processed : List (MSQuestionDom × List DomEvent)
  deriving DecidableEq, Repr

/-- The `try { for ... } catch (error) { return error.message }` of
`scrapeMSForm`, once both keys were found. -/
def scrapeMSFormLoop (toLowerCase : Str → Str) (click : Nat → List ChoiceNode → List ChoiceNode) :
    List MSQuestion → List (MSQuestionDom × List DomEvent) → RunResult
  | [], done => { status := "Script executed", processed := done }
  | q :: rest, done =>
    match msQuestionStep toLowerCase click q with
    | .error e => { status := e.message, processed := done }
    | .ok outcome => scrapeMSFormLoop toLowerCase click rest (done ++ [outcome])

/-- A click that toggles the checked state of the clicked choice only. -/
def toggleChoice : Nat → List ChoiceNode → List ChoiceNode
  | _, [] => []
  | 0, n :: ns => { n with checked := !n.checked } :: ns
  | j + 1, n :: ns => n :: toggleChoice j ns

/-! ## Question extraction in `scrapeGoogleForm` (lines 427-544)

A question container `.Qr7Oae` is read through what the extraction queries in
it.  The collection of the question's images (lines 441-452) fills a field that
only the prompt and the provider calls read, and is not modelled. -/

/-- A `label` element of a question: its text content, the `src` of the `img`
inside it (`none` when there is no `img`, the empty string when the `img` has
no source), and whether it holds a `div[aria-checked=true]`. -/
structure LabelNode where
  textContent : Str
  img : Option Str
  checked : Bool
  deriving DecidableEq, Repr

/-- What `scrapeGoogleForm` reads from a question container: the text of
`span.M7eMe`, the presence of `div.oyXaNc`, `div.Y6Myld`, `div.ry3kXd`, the
`label` elements, the text content of every `span`, and the values of
`input[type="text"]` and `textarea` (`none` when the element is absent). -/
structure GoogleQuestionNode where
  title : Option Str
  radioGroup : Bool
  checkboxGroup : Bool
  dropdown : Bool
  labels : List LabelNode
  spans : List Str
  textInput : Option Str
  textarea : Option Str
  deriving DecidableEq, Repr

/-- The test `imgSrc && !imgSrc.includes("data:image/svg")`. -/
def usableImage (imgSrc : Str) : Bool :=
  !imgSrc.isEmpty && !includes imgSrc "data:image/svg".toList

/-- The body of `labels.forEach` (lines 459-474 and 484-499): the option pushed
for one label. -/
def labelOption (label : LabelNode) : FormOption :=
  let optionText := trim label.textContent
  match label.img with
  | some imgSrc => if usableImage imgSrc then .obj optionText imgSrc else .str optionText
  | none => .str optionText

/-- The loop over the spans of a dropdown question (lines 507-520): the flag
`add` is raised by a span whose trimmed text is "Choose"; the spans after it
are the options. -/
def dropdownOptions : Bool → List Str → List Str
  | _, [] => []
  | add, span :: rest =>
    if trim span = "Choose".toList then dropdownOptions true rest
    else if !add then dropdownOptions add rest
    else trim span :: dropdownOptions add rest

/-- The body of `questions.forEach` in `scrapeGoogleForm`: the `questionData`
pushed for one container. -/
def extractGoogleQuestion (node : GoogleQuestionNode) : QuestionData :=
  let questionText :=
    match node.title with
    | some text => trim text
    | none => "No question text".toList
  if node.radioGroup then
    { question := questionText, type := .single_ans, options := node.labels.map labelOption }
  else if node.checkboxGroup then
    { question := questionText, type := .multi_ans, options := node.labels.map labelOption }
  else if node.dropdown then
    { question := questionText, type := .dropdown,
      options := (dropdownOptions false node.spans).map FormOption.str }
  else if node.textInput.isSome then
    { question := questionText, type := .short_answer, options := [] }
  else if node.textarea.isSome then
    { question := questionText, type := .long_answer, options := [] }
  else
    { question := questionText, type := .unknown, options := [] }

/-- The kind of the first marker present, in the words of the specification:
the markers are tried in the given order, each with the kind it stands for,
and the kind is `unknown` when none is present. -/
def firstMarkerKind : List (Bool × QType) → QType
  | [] => .unknown
  | (present, kind) :: rest => if present then kind else firstMarkerKind rest

/-! ## Question extraction in `scrapeMSForm` (lines 886-980) -/

/-- A `[data-automation-id="radio"]` or `"checkbox"` element: its
`data-automation-value` attribute (taken to be present, as the code takes it)
and its parent element. -/
structure MSChoiceElement where
  value : Str
  parent : ChoiceNode
  deriving DecidableEq, Repr

/-- What `scrapeMSForm` reads from a question container: the text of the
question title, the `src` of the first `img` of the container (as for
`LabelNode.img`), the radio and checkbox elements, the presence of
`input[aria-label="Single line text"]`, and the values of the first `input`
and of the `textarea` (`none` when absent). -/
structure MSQuestionNode where
  title : Option Str
  firstImg : Option Str
  radios : List MSChoiceElement
  checkboxes : List MSChoiceElement
  singleLineInput : Bool
  input : Option Str
  textarea : Option Str
  deriving DecidableEq, Repr

/-- The body of `radioOptions.forEach` / `checkboxOptions.forEach` (lines
920-935 and 944-959): the option pushed for one element; the image looked up
is the first `img` of the enclosing question container. -/
def msOption (firstImg : Option Str) (element : MSChoiceElement) : FormOption :=
  let optionText := trim element.value
  match firstImg with
  | some imgSrc => if usableImage imgSrc then .obj optionText imgSrc else .str optionText
  | none => .str optionText

/-- The body of `questions.forEach` in `scrapeMSForm`.  While the type is
being determined it is `none` for the empty string the code starts with.  The
radio and checkbox tests form one `if / else if`; the single-line and textarea
tests form a second, separate `if / else if` that runs after it. -/
def extractMSQuestion (node : MSQuestionNode) : QuestionData :=
  let questionText :=
    match node.title with
    | some text => trim text
    | none => []
  let choice : Option QType × List FormOption :=
    if !node.radios.isEmpty then
      (some .single_ans, node.radios.map (msOption node.firstImg))
    else if !node.checkboxes.isEmpty then
      (some .multi_ans, node.checkboxes.map (msOption node.firstImg))
    else (none, [])
  let type : Option QType :=
    if node.singleLineInput then some .short_answer
    else if node.textarea.isSome then some .long_answer
    else choice.1
  { question := questionText, type := type.getD .unknown, options := choice.2 }

/-! ## The per-question loop of `scrapeGoogleForm` (lines 548-845) -/

/-- What the apply step of `scrapeGoogleForm` reads from a question container. -/
structure GoogleQuestionDom where
  labels : List Bool
  textInput : Option Str
  textarea : Option Str
  deriving DecidableEq, Repr

/-- Lines 677-786: from the reconciliation result to the page effects of one
question.  The dropdown branch only schedules the opening of the dropdown,
`500 * drop_down_cntr` milliseconds later, and increments the counter; the text
branches are those of `fillTextControl`. -/
def googleApplyAnswer (click : Nat → List Bool → List Bool) (q : QuestionData)
    (r : Reconciliation) (dom : GoogleQuestionDom) (dropDownCntr : Nat) :
    Except JSError (GoogleQuestionDom × List DomEvent × Nat) :=
  let response := r.finalAnswer
  match q.type with
  | .multi_ans | .single_ans =>
    let st := markLabels click r q.options dom.labels
    .ok ({ dom with labels := st.checked }, st.clicks.map DomEvent.click, dropDownCntr)
  | .dropdown =>
    if response.truthy then
      .ok (dom, [.openDropdown (500 * dropDownCntr) response], dropDownCntr + 1)
    else .ok (dom, [], dropDownCntr)
  | .short_answer =>
    match fillTextControl stripNewlines response dom.textInput with
    | .error e => .error e
    | .ok (value, events) => .ok ({ dom with textInput := value }, events, dropDownCntr)
  | .long_answer =>
    match fillTextControl normalizeNewlines response dom.textarea with
    | .error e => .error e
    | .ok (value, events) => .ok ({ dom with textarea := value }, events, dropDownCntr)
  | .unknown => .ok (dom, [], dropDownCntr)

/-- A question of the first form as the run meets it: the container, and the
outcome of the two provider calls (`none` when the call threw and its `.catch`
handler returned `null`). -/
structure GooglePageQuestion where
  node : GoogleQuestionNode
  gptAnswer : Option Str
  geminiAnswer : Option Str
  deriving Repr

/-- The page state the apply step reads from a container. -/
def GoogleQuestionNode.dom (node : GoogleQuestionNode) : GoogleQuestionDom :=
  { labels := node.labels.map fun label => label.checked,
    textInput := node.textInput, textarea := node.textarea }

/-- One iteration of the loop of `scrapeGoogleForm`. -/
def googleQuestionStep (toLowerCase : Str → Str) (click : Nat → List Bool → List Bool)
    (q : GooglePageQuestion) (dropDownCntr : Nat) :
    Except JSError (GoogleQuestionDom × List DomEvent × Nat) :=
  match reconcile toLowerCase (extractGoogleQuestion q.node) q.gptAnswer q.geminiAnswer with
  | .error e => .error e
  | .ok r => googleApplyAnswer click (extractGoogleQuestion q.node) r q.node.dom dropDownCntr

/-- The outcome of the loop of `scrapeGoogleForm`: the status string, and the
page effects of the questions whose iteration completed, in order. -/
structure GoogleRunResult where
  status : String
  processed : List (GoogleQuestionDom × List DomEvent)
  deriving DecidableEq, Repr

/-- The `try { for ... } catch (error) { return error.message }` of
`scrapeGoogleForm`, once both keys were found. -/
def scrapeGoogleFormLoop (toLowerCase : Str → Str) (click : Nat → List Bool → List Bool) :
    List GooglePageQuestion → Nat → List (GoogleQuestionDom × List DomEvent) → GoogleRunResult
  | [], _, done => { status := "Script executed", processed := done }
  | q :: rest, dropDownCntr, done =>
    match googleQuestionStep toLowerCase click q dropDownCntr with
    | .error e => { status := e.message, processed := done }
    | .ok (dom, events, cntr) =>
      scrapeGoogleFormLoop toLowerCase click rest cntr (done ++ [(dom, events)])

/-! ## `scrapeGoogleForm` and `scrapeMSForm` as a whole

The settings store is read through its two keys, the page through the solve
button `.AI-Solve-Form-Button` (`none` when the page has none) and the question
containers. -/

/-- The two keys read from `chrome.storage.local`; `none` is `undefined`. -/
structure Settings where
  openaiApiKey : Option Str
  geminiApiKey : Option Str
  deriving DecidableEq, Repr

/-- The fields of the solve button the code writes. -/
structure SolveButton where
  disabled : Bool
  textContent : String
  deriving DecidableEq, Repr

/-- The test `!key` on a stored key. -/
def keyMissing : Option Str → Bool
  | none => true
  | some key => key.isEmpty

/-- The string returned when a key is missing (lines 416-419 and 874-877). -/
def missingKeysMessage (settings : Settings) : String :=
  let missing : List String :=
    (if keyMissing settings.openaiApiKey then ["OpenAI"] else []) ++
    (if keyMissing settings.geminiApiKey then ["Gemini"] else [])
  "Please set your " ++ " and ".intercalate missing ++
    " API key(s) in the extension popup first!"

/-- The outcome of `scrapeGoogleForm` or `scrapeMSForm`: the string returned,
the solve button at the end, the extracted questions (`none` when the
extraction did not run) and the outcome of the per-question loop (`none` when
the loop, where the providers are called, did not run). -/
structure ScrapeOutcome (ρ : Type) where
  status : String
  solveButton : Option SolveButton
  formElements : Option (List QuestionData)
  run : Option ρ

/-- The function `scrapeGoogleForm`.  After the loop, whether it ended or
threw, the code sets `.disabled` on the result of `querySelector`, which throws
when the page has no solve button. -/
def scrapeGoogleForm (toLowerCase : Str → Str) (click : Nat → List Bool → List Bool)
    (settings : Settings) (solveButton : Option SolveButton)
    (questions : List GooglePageQuestion) : Except JSError (ScrapeOutcome GoogleRunResult) :=
  let solving : Option SolveButton :=
    solveButton.map fun _ => { disabled := true, textContent := "Solving..." }
  if keyMissing settings.openaiApiKey || keyMissing settings.geminiApiKey then
    .ok { status := missingKeysMessage settings,
          solveButton := solving.map fun _ => { disabled := false, textContent := "AI Solve" },
          formElements := none, run := none }
  else
    let formElements := questions.map fun q => extractGoogleQuestion q.node
    let run := scrapeGoogleFormLoop toLowerCase click questions 0 []
    match solving with
    | none => .error .nullDisabled
    | some _ =>
      .ok { status := run.status,
            solveButton := some { disabled := false, textContent := "AI Solve" },
            formElements := some formElements, run := some run }

/-- A question of the second form as the run meets it. -/
structure MSPageQuestion where
  node : MSQuestionNode
  gptAnswer : Option Str
  geminiAnswer : Option Str
  deriving Repr

/-- The extracted data and page state of a container, for the loop. -/
def MSPageQuestion.toQuestion (q : MSPageQuestion) : MSQuestion :=
  { data := extractMSQuestion q.node,
    dom := { radios := q.node.radios.map fun e => e.parent,
             checkboxes := q.node.checkboxes.map fun e => e.parent,
             input := q.node.input, textarea := q.node.textarea },
    gptAnswer := q.gptAnswer, geminiAnswer := q.geminiAnswer }

/-- The function `scrapeMSForm`. -/
def scrapeMSForm (toLowerCase : Str → Str) (click : Nat → List ChoiceNode → List ChoiceNode)
    (settings : Settings) (solveButton : Option SolveButton)
    (questions : List MSPageQuestion) : Except JSError (ScrapeOutcome RunResult) :=
  let solving : Option SolveButton :=
    solveButton.map fun _ => { disabled := true, textContent := "Solving..." }
  if keyMissing settings.openaiApiKey || keyMissing settings.geminiApiKey then
    .ok { status := missingKeysMessage settings,
          solveButton := solving.map fun _ => { disabled := false, textContent := "AI Solve" },
          formElements := none, run := none }
  else
    let formElements := questions.map fun q => extractMSQuestion q.node
    let run := scrapeMSFormLoop toLowerCase click (questions.map MSPageQuestion.toQuestion) []
    match solving with
    | none => .error .nullDisabled
    | some _ =>
      .ok { status := run.status,
            solveButton := some { disabled := false, textContent := "AI Solve" },
            formElements := some formElements, run := some run }

/-! ## Model discovery and provider calls (lines 1-349)

The network is an input.  A request to a model is answered by a `Response`;
the responses of one call are given by `respond n model`, the response to the
attempt number `n` of the call (counted from 0) when it is made to `model`.  A
query of a models-listing endpoint either gives a well-formed list of models or
it does not (a response that is not ok, or an exception that the code
catches); a missing list is `none`.  The three module-level variables
`cachedWorkingModel`, `availableModels` and `cachedOpenAIModel` are the fields
of `ProviderState`, passed explicitly. -/

/-- The `s.split(sep)` of JavaScript for a one-character separator. -/
def splitOnChar (sep : Char) : Str → List Str
  | [] => [[]]
  | c :: cs =>
    if c = sep then [] :: splitOnChar sep cs
    else
      match splitOnChar sep cs with
      | [] => [[c]]
      | p :: ps => (c :: p) :: ps

/-- An optional string as a truthy value: present and not empty. -/
def truthyStr : Option Str → Bool
  | some s => !s.isEmpty
  | none => false

/-- The expression `a || b` on optional strings. -/
def orStr (a b : Option Str) : Option Str := if truthyStr a then a else b

/-- A Gemini model as the code holds it: `{ name, version, fullName }`; the
fallback models have no `fullName`. -/
structure ModelConfig where
  name : Str
  version : Str
  fullName : Option Str
  deriving DecidableEq, Repr

/-- The module-level variables of the provider layer. -/
structure ProviderState where
  cachedWorkingModel : Option ModelConfig
  availableModels : Option (List ModelConfig)
  cachedOpenAIModel : Option Str
  deriving DecidableEq, Repr

/-- An entry of the `models` array of the Gemini listing. -/
structure ListedModel where
  name : Str
  supportedGenerationMethods : Option (List Str)
  deriving DecidableEq, Repr

/-- Lines 27-36: the models that support `generateContent`, with the last
segment of their name. -/
def supportedModels (version : Str) (models : List ListedModel) : List ModelConfig :=
  (models.filter fun model =>
      match model.supportedGenerationMethods with
      | some methods => decide ("generateContent".toList ∈ methods)
      | none => false).map fun model =>
    { name := ((splitOnChar '/' model.name).getLast?).getD [], version := version,
      fullName := some model.name }

/-- The list returned when no listing succeeds (lines 49-52). -/
def fallbackModels : List ModelConfig :=
  [{ name := "gemini-1.5-flash".toList, version := "v1".toList, fullName := none },
   { name := "gemini-1.5-pro".toList, version := "v1".toList, fullName := none }]

/-- The loop `for (const version of versions)` of `getAvailableModels`, with
the versions queried so far. -/
def listModelsFrom (listing : Str → Option (List ListedModel)) :
    List Str → ProviderState → List Str → List ModelConfig × ProviderState × List Str
  | [], st, queried => (fallbackModels, st, queried)
  | version :: rest, st, queried =>
    match listing version with
    | some models =>
      (supportedModels version models,
        { st with availableModels := some (supportedModels version models) },
        queried ++ [version])
    | none => listModelsFrom listing rest st (queried ++ [version])

/-- The function `getAvailableModels`: the list returned, the state after the
call, and the versions whose listing endpoint was queried. -/
def getAvailableModels (listing : Str → Option (List ListedModel)) (st : ProviderState) :
    List ModelConfig × ProviderState × List Str :=
  match st.availableModels with
  | some models => (models, st, [])
  | none => listModelsFrom listing ["v1".toList, "v1beta".toList] st []

/-- The six model names of `getAvailableOpenAIModels`. -/
def openAIModelsToTry : List Str :=
  ["gpt-4o".toList, "gpt-4o-mini".toList, "gpt-4-turbo".toList, "gpt-4".toList,
   "gpt-3.5-turbo".toList, "gpt-3.5-turbo-16k".toList]

/-- The elements of `new Set(xs)` in iteration order: the first occurrence of
every element, in order. -/
def setOrder : List Str → List Str
  | [] => []
  | x :: xs => x :: (setOrder xs).filter fun y => decide (y ≠ x)

/-- The function `getAvailableOpenAIModels`; `listing` is the list of the ids
of `data.data` when the listing call succeeded. -/
def getAvailableOpenAIModels (listing : Option (List Str)) : List Str :=
  match listing with
  | some ids =>
    setOrder (sortStrings (ids.filter fun id => startsWith id "gpt-".toList) ++ openAIModelsToTry)
  | none => openAIModelsToTry

/-- The body of a response, as the code reads it after `response.json()`: not
JSON at all, the JSON value `null`, or a value with the text of
`error?.message` (when there is one) and the string at the path of the answer,
`candidates[0].content.parts[0].text` or `choices[0].message.content` (when
the path can be read and holds a string). -/
inductive Body
  | notJson
  | jsonNull
  | value (errorMessage : Option Str) (answerText : Option Str)
  deriving DecidableEq, Repr

/-- The outcome of `fetch`: a rejection, or a response with its `ok` flag. -/
inductive Response
  | rejected
  | http (ok : Bool) (body : Body)
  deriving DecidableEq, Repr

/-- Exceptions of the provider layer: a rejected `fetch`, a rejected
`response.json()`, a `TypeError` on reading the body, and `new Error(message)`. -/
inductive ApiError
  | transport
  | invalidJson
  | typeError
  | error (message : Str)
  deriving DecidableEq, Repr

/-- The value `tryModel` returns: `{ success: true, answer }` or
`{ success: false, error }`. -/
inductive TryResult
  | success (answer : Str)
  | failure (error : Str)
  deriving DecidableEq, Repr

/-- Lines 98-134 and 253-293: what `tryModel` does with the response.  The
parameter `cache` is the assignment to the provider's cache variable, made
after the body of an ok response was parsed and before the answer is read. -/
def tryModelWith (cache : ProviderState → ProviderState) (response : Response)
    (st : ProviderState) : ProviderState × Except ApiError TryResult :=
  match response with
  | .rejected => (st, .error .transport)
  | .http false body =>
    match body with
    | .notJson => (st, .error .invalidJson)
    | .jsonNull => (st, .error .typeError)
    | .value errorMessage _ =>
      (st, .ok (.failure ((orStr errorMessage (some "API request failed".toList)).getD [])))
  | .http true body =>
    match body with
    | .notJson => (st, .error .invalidJson)
    | .jsonNull => (cache st, .error .typeError)
    | .value _ answerText =>
      match answerText with
      | some text => (cache st, .ok (.success (trim text)))
      | none => (cache st, .error .typeError)

/-- Lines 124-128: the assignment to `cachedWorkingModel`. -/
def cacheGeminiModel (modelConfig : ModelConfig) (st : ProviderState) : ProviderState :=
  match st.cachedWorkingModel with
  | none => { st with cachedWorkingModel := some modelConfig }
  | some cached =>
    if cached.name ≠ modelConfig.name ∨ cached.version ≠ modelConfig.version then
      { st with cachedWorkingModel := some modelConfig }
    else st

/-- Lines 283-287: the assignment to `cachedOpenAIModel`. -/
def cacheOpenAIModel (modelName : Str) (st : ProviderState) : ProviderState :=
  if !truthyStr st.cachedOpenAIModel || decide (st.cachedOpenAIModel ≠ some modelName) then
    { st with cachedOpenAIModel := some modelName }
  else st

/-- The `tryModel` of `callGeminiAPI`, from the response on. -/
def geminiTryModel (response : Response) (modelConfig : ModelConfig) (st : ProviderState) :
    ProviderState × Except ApiError TryResult :=
  tryModelWith (cacheGeminiModel modelConfig) response st

/-- The `tryModel` of `callOpenAIAPI`, from the response on. -/
def openAITryModel (response : Response) (modelName : Str) (st : ProviderState) :
    ProviderState × Except ApiError TryResult :=
  tryModelWith (cacheOpenAIModel modelName) response st

/-- How the loop over the candidates ends. -/
inductive LoopEnd
  | returned (answer : Str)
  | exhausted (lastError : Option Str)
  | thrown (e : ApiError)
  deriving DecidableEq, Repr

/-- The loop `for (const model of modelsToTry)` of both calls (lines 154-160
and 313-319): `n` is the number of the next attempt, `attempts` the models
tried so far in the call. -/
def tryCandidates {μ : Type} (tryModel : Response → μ → ProviderState →
      ProviderState × Except ApiError TryResult) (respond : Nat → μ → Response) :
    List μ → Nat → ProviderState → Option Str → List μ → ProviderState × List μ × LoopEnd
  | [], _, st, lastError, attempts => (st, attempts, .exhausted lastError)
  | model :: rest, n, st, _, attempts =>
    match tryModel (respond n model) model st with
    | (st1, .error e) => (st1, attempts ++ [model], .thrown e)
    | (st1, .ok (.success answer)) => (st1, attempts ++ [model], .returned answer)
    | (st1, .ok (.failure error)) =>
      tryCandidates tryModel respond rest (n + 1) st1 (some error) (attempts ++ [model])

/-- The outcome of a provider call: the state after it, the models attempted
in order, the listing versions queried, and the answer or the exception. -/
structure CallOutcome (μ : Type) where
  state : ProviderState
  attempts : List μ
  listingQueries : List Str
  result : Except ApiError Str

/-- The text of `lastError` in a template string. -/
def lastErrorText : Option Str → Str
  | some error => error
  | none => "null".toList

/-- Lines 148-166 of `callGeminiAPI`: the candidate list and the loop over it. -/
def geminiFallback (respond : Nat → ModelConfig → Response)
    (listing : Str → Option (List ListedModel)) (st : ProviderState) (n : Nat)
    (attempts : List ModelConfig) : CallOutcome ModelConfig :=
  match getAvailableModels listing st with
  | (modelsToTry, st1, queried) =>
    match tryCandidates geminiTryModel respond modelsToTry n st1 none attempts with
    | (st2, tried, .returned answer) =>
      { state := st2, attempts := tried, listingQueries := queried, result := .ok answer }
    | (st2, tried, .thrown e) =>
      { state := st2, attempts := tried, listingQueries := queried, result := .error e }
    | (st2, tried, .exhausted lastError) =>
      { state := { st2 with cachedWorkingModel := none, availableModels := none },
        attempts := tried, listingQueries := queried,
        result := .error (.error
          ("All Gemini models failed. Last error: ".toList ++ lastErrorText lastError)) }

/-- The function `callGeminiAPI`, from the first request on. -/
def callGeminiAPI (respond : Nat → ModelConfig → Response)
    (listing : Str → Option (List ListedModel)) (st : ProviderState) :
    CallOutcome ModelConfig :=
  match st.cachedWorkingModel with
  | some cached =>
    match geminiTryModel (respond 0 cached) cached st with
    | (st1, .error e) =>
      { state := st1, attempts := [cached], listingQueries := [], result := .error e }
    | (st1, .ok (.success answer)) =>
      { state := st1, attempts := [cached], listingQueries := [], result := .ok answer }
    | (st1, .ok (.failure _)) =>
      geminiFallback respond listing { st1 with cachedWorkingModel := none } 1 [cached]
  | none => geminiFallback respond listing st 0 []

/-- Lines 307-324 of `callOpenAIAPI`: the candidate list and the loop over it. -/
def openAIFallback (respond : Nat → Str → Response) (listing : Option (List Str))
    (st : ProviderState) (n : Nat) (attempts : List Str) : CallOutcome Str :=
  match tryCandidates openAITryModel respond (getAvailableOpenAIModels listing) n st none
      attempts with
  | (st2, tried, .returned answer) =>
    { state := st2, attempts := tried, listingQueries := [], result := .ok answer }
  | (st2, tried, .thrown e) =>
    { state := st2, attempts := tried, listingQueries := [], result := .error e }
  | (st2, tried, .exhausted lastError) =>
    { state := { st2 with cachedOpenAIModel := none }, attempts := tried, listingQueries := [],
      result := .error (.error
        ("All OpenAI models failed. Last error: ".toList ++ lastErrorText lastError)) }

/-- The function `callOpenAIAPI`, from the first request on. -/
def callOpenAIAPI (respond : Nat → Str → Response) (listing : Option (List Str))
    (st : ProviderState) : CallOutcome Str :=
  if truthyStr st.cachedOpenAIModel then
    match st.cachedOpenAIModel with
    | some cached =>
      match openAITryModel (respond 0 cached) cached st with
      | (st1, .error e) =>
        { state := st1, attempts := [cached], listingQueries := [], result := .error e }
      | (st1, .ok (.success answer)) =>
        { state := st1, attempts := [cached], listingQueries := [], result := .ok answer }
      | (st1, .ok (.failure _)) =>
        openAIFallback respond listing { st1 with cachedOpenAIModel := none } 1 [cached]
    | none => openAIFallback respond listing st 0 []
  else openAIFallback respond listing st 0 []

/-! ## Request parts (lines 66-96, 223-251 and 328-349) -/

/-- An image of a question: `{ url }`, or `{ mimeType, data }`. -/
inductive ImageRef
  | url (u : Str)
  | inline (mimeType : Str) (data : Str)
  deriving DecidableEq, Repr

/-- What fetching and reading an image gives: `fetch` or `blob()` rejects, or
there is a blob with its `type` and the data URL the reader produces (`none`
when the reader fails). -/
inductive ImageFetch
  | failed
  | blob (type : Str) (dataUrl : Option Str)
  deriving DecidableEq, Repr

/-- The object `imageUrlToBase64` resolves to. -/
structure Base64Data where
  mimeType : Option Str
  data : Option Str
  url : Option Str
  deriving DecidableEq, Repr

/-- The function `imageUrlToBase64`: `none` when the returned promise rejects
(the reader fails, outside the `try`), the object `{ url }` when `fetch` or
`blob()` fails inside the `try`. -/
def imageUrlToBase64 (fetchImage : Str → ImageFetch) (imageUrl : Str) : Option Base64Data :=
  match fetchImage imageUrl with
  | .failed => some { mimeType := none, data := none, url := some imageUrl }
  | .blob _ none => none
  | .blob type (some dataUrl) =>
    some { mimeType := orStr (some type) (some "image/jpeg".toList),
           data := (splitComma dataUrl)[1]?, url := none }

/-- A part of a Gemini request: `{ text }` or `{ inline_data: { mime_type, data } }`;
a `data` that is `undefined` is `none`. -/
inductive Part
  | text (text : Str)
  | inlineData (mimeType : Str) (data : Option Str)
  deriving DecidableEq, Repr

/-- The body of the loop over the images in the `tryModel` of `callGeminiAPI`
(lines 73-94): the parts pushed for one image; an exception is caught and
nothing is pushed. -/
def geminiImageParts (fetchImage : Str → ImageFetch) : ImageRef → List Part
  | .url u =>
    if u.isEmpty then []
    else
      match imageUrlToBase64 fetchImage u with
      | none => []
      | some base64Data =>
        [.inlineData ((orStr base64Data.mimeType (some "image/jpeg".toList)).getD [])
          (orStr base64Data.data base64Data.url)]
  | .inline mimeType data =>
    if !mimeType.isEmpty && !data.isEmpty then [.inlineData mimeType (some data)] else []

/-- The `parts` array of a Gemini request (lines 66-96). -/
def geminiParts (fetchImage : Str → ImageFetch) (prompt : Str) (images : List ImageRef) :
    List Part :=
  images.foldl (fun parts img => parts ++ geminiImageParts fetchImage img) [.text prompt]

/-- An entry of the `content` array of an OpenAI request. -/
inductive ContentItem
  | text (text : Str)
  | imageUrl (url : Str)
  deriving DecidableEq, Repr

/-- The body of the loop over the images in the `tryModel` of `callOpenAIAPI`
(lines 230-249); an `undefined` inside the template string reads "undefined". -/
def openAIImageItems (fetchImage : Str → ImageFetch) : ImageRef → List ContentItem
  | .url u =>
    if u.isEmpty then []
    else
      match imageUrlToBase64 fetchImage u with
      | none => []
      | some base64Data =>
        [.imageUrl ("data:".toList ++
          (orStr base64Data.mimeType (some "image/jpeg".toList)).getD [] ++ ";base64,".toList ++
          (orStr base64Data.data base64Data.url).getD "undefined".toList)]
  | .inline mimeType data =>
    if !mimeType.isEmpty && !data.isEmpty then
      [.imageUrl ("data:".toList ++ mimeType ++ ";base64,".toList ++ data)]
    else []

/-- The `content` array of an OpenAI request (lines 223-251). -/
def openAIContent (fetchImage : Str → ImageFetch) (prompt : Str) (images : List ImageRef) :
    List ContentItem :=
  images.foldl (fun content img => content ++ openAIImageItems fetchImage img) [.text prompt]

/-! ## Words of the claims about provider calls -/

/-- What `tryModel` gives for a response, apart from the state: the value it
returns, or the exception it throws. -/
def attemptResult (response : Response) : Except ApiError TryResult :=
  (tryModelWith id response
    { cachedWorkingModel := none, availableModels := none, cachedOpenAIModel := none }).2

/-- The candidate list that `callGeminiAPI` iterates from the state `st`: the
list `getAvailableModels` returns once the cached model, if any, was cleared. -/
def geminiCandidates (listing : Str → Option (List ListedModel)) (st : ProviderState) :
    List ModelConfig :=
  (getAvailableModels listing { st with cachedWorkingModel := none }).1

/-- The number of the first attempt of the candidate list: 1 when a cached
model was attempted before it, 0 otherwise. -/
def firstListAttempt (cachedAttempted : Bool) : Nat := if cachedAttempted then 1 else 0

/-! ## The message listener (lines 1437-1505) -/

/-- Lines 1447-1456 and 1465-1474: the `status` the listener sends for the
actions runScript-gform and runScript-msform.  The function returned `result`
(`.ok result`, sent as `result || "Script executed"`) or rejected with an error
of message `message` (`.error message`, sent as
`error.message || "Error occurred"`). -/
def deliveredStatus (outcome : Except String String) : String :=
  match outcome with
  | .ok result => if result = "" then "Script executed" else result
  | .error message => if message = "" then "Error occurred" else message

/-- The status delivered for the action runScript-gform. -/
def runScriptGform (toLowerCase : Str → Str) (click : Nat → List Bool → List Bool)
    (settings : Settings) (solveButton : Option SolveButton)
    (questions : List GooglePageQuestion) : String :=
  deliveredStatus
    (match scrapeGoogleForm toLowerCase click settings solveButton questions with
     | .ok outcome => .ok outcome.status
     | .error e => .error e.message)

/-- The status delivered for the action runScript-msform. -/
def runScriptMsform (toLowerCase : Str → Str) (click : Nat → List ChoiceNode → List ChoiceNode)
    (settings : Settings) (solveButton : Option SolveButton)
    (questions : List MSPageQuestion) : String :=
  deliveredStatus
    (match scrapeMSForm toLowerCase click settings solveButton questions with
     | .ok outcome => .ok outcome.status
     | .error e => .error e.message)

/-! ## Words of the claims about option marking -/

/-- The labels of an answer: none for `null`, the text of a single answer, the
texts of the entries of an array. -/
def answerLabels : Answer → List FormOption
  | .null => []
  | .one v => [textOrSelf v]
  | .arr items => items.map textOrSelf

/-- The target state of the label at `idx` as the claim words it: in the agree
case (`answersMatch` and a final answer that is not `null`) the option text is
one of the final answer's labels; otherwise the option text is in either
provider's matched answer.  A label past the end of the options has no option
text and is not selected. -/
def claimedTarget (r : Reconciliation) (optionTexts : List Str) (idx : Nat) : Bool :=
  match optionTexts[idx]? with
  | none => false
  | some text =>
    if r.answersMatch && decide (r.finalAnswer ≠ .null) then
      decide (FormOption.str text ∈ answerLabels r.finalAnswer)
    else
      decide (FormOption.str text ∈ answerLabels r.gptMatchedAnswer) ||
      decide (FormOption.str text ∈ answerLabels r.geminiMatchedAnswer)

/-! ## Theorems: `matchExactOption` -/

theorem matchExactOption_mem_or_eq (toLowerCase : Str → Str) (answer : Str) (options : List Str) :
    matchExactOption toLowerCase answer options ∈ options ∨
      matchExactOption toLowerCase answer options = answer := by
  unfold matchExactOption
  split
  · exact Or.inr rfl
  · split
    · next c cs h => exact Or.inl (List.mem_of_find?_eq_some h)
    · split
      · next c cs h => exact Or.inl (List.mem_of_find?_eq_some h)
      · exact Or.inr rfl

theorem matchExactOption_ne_nil (toLowerCase : Str → Str) (answer : Str) (options : List Str)
    (h : answer ≠ []) : matchExactOption toLowerCase answer options ≠ [] := by
  unfold matchExactOption
  split
  · exact h
  · split
    · simp
    · split
      · simp
      · exact h

/-- C2: when no option equals the answer after lower-casing and trimming and
no option contains or is contained in the answer after lower-casing (the empty
option list included), `matchExactOption` returns the answer unchanged. -/
theorem matchExactOption_no_match (toLowerCase : Str → Str) (answer : Str) (options : List Str)
    (hexact : ∀ opt ∈ options, trim (toLowerCase opt) ≠ trim (toLowerCase answer))
    (hsub : ∀ opt ∈ options,
      includes (toLowerCase opt) (toLowerCase answer) = false ∧
      includes (toLowerCase answer) (toLowerCase opt) = false) :
    matchExactOption toLowerCase answer options = answer := by
  have h1 : options.find? (fun opt =>
      decide (trim (toLowerCase opt) = trim (toLowerCase answer))) = none := by
    rw [List.find?_eq_none]
    intro x hx
    simpa using hexact x hx
  have h2 : options.find? (fun opt =>
      includes (toLowerCase opt) (toLowerCase answer) ||
      includes (toLowerCase answer) (toLowerCase opt)) = none := by
    rw [List.find?_eq_none]
    intro x hx
    simp [(hsub x hx).1, (hsub x hx).2]
  unfold matchExactOption
  rw [h1, h2]
  simp

theorem matchExactOption_no_match_witness :
    matchExactOption toLowerCaseAscii "Rome".toList ["Paris".toList, "London".toList]
      = "Rome".toList :=
  matchExactOption_no_match toLowerCaseAscii "Rome".toList ["Paris".toList, "London".toList]
    (by decide) (by decide)

/-- When the first option equal to the answer after lower-casing and trimming
is a non-empty string, `matchExactOption` returns it. -/
theorem matchExactOption_exact (toLowerCase : Str → Str) (answer : Str) (options : List Str)
    (found : Str) (hne : found ≠ [])
    (h : options.find? (fun opt =>
      decide (trim (toLowerCase opt) = trim (toLowerCase answer))) = some found) :
    matchExactOption toLowerCase answer options = found := by
  have hlen : options.length ≠ 0 := by
    intro h0
    rw [List.length_eq_zero] at h0
    subst h0
    simp at h
  unfold matchExactOption
  rw [if_neg hlen, h]
  cases found with
  | nil => exact absurd rfl hne
  | cons c cs => rfl

/-- When no option equals the answer after lower-casing and trimming and the
first option that contains or is contained in the answer, after lower-casing,
is a non-empty string, `matchExactOption` returns that option. -/
theorem matchExactOption_substring (toLowerCase : Str → Str) (answer : Str)
    (options : List Str) (found : Str) (hne : found ≠ [])
    (h1 : options.find? (fun opt =>
      decide (trim (toLowerCase opt) = trim (toLowerCase answer))) = none)
    (h2 : options.find? (fun opt =>
      includes (toLowerCase opt) (toLowerCase answer) ||
      includes (toLowerCase answer) (toLowerCase opt)) = some found) :
    matchExactOption toLowerCase answer options = found := by
  have hlen : options.length ≠ 0 := by
    intro h0
    rw [List.length_eq_zero] at h0
    subst h0
    simp at h2
  unfold matchExactOption
  rw [if_neg hlen, h1, h2]
  cases found with
  | nil => exact absurd rfl hne
  | cons c cs => rfl

/-- On option lists without an empty string, `matchExactOption` returns an
option whenever some option equals the answer after lower-casing and trimming,
or contains or is contained in the answer after lower-casing. -/
theorem matchExactOption_mem_of_nonempty (toLowerCase : Str → Str) (answer : Str)
    (options : List Str) (hopts : ∀ opt ∈ options, opt ≠ [])
    (h : ∃ opt ∈ options, trim (toLowerCase opt) = trim (toLowerCase answer) ∨
      includes (toLowerCase opt) (toLowerCase answer) = true ∨
      includes (toLowerCase answer) (toLowerCase opt) = true) :
    matchExactOption toLowerCase answer options ∈ options := by
  obtain ⟨opt, hmem, hcase⟩ := h
  cases h1 : options.find? (fun opt =>
      decide (trim (toLowerCase opt) = trim (toLowerCase answer))) with
  | some found =>
    have hfm := List.mem_of_find?_eq_some h1
    rw [matchExactOption_exact toLowerCase answer options found (hopts found hfm) h1]
    exact hfm
  | none =>
    cases h2 : options.find? (fun opt =>
        includes (toLowerCase opt) (toLowerCase answer) ||
        includes (toLowerCase answer) (toLowerCase opt)) with
    | some found =>
      have hfm := List.mem_of_find?_eq_some h2
      rw [matchExactOption_substring toLowerCase answer options found (hopts found hfm) h1 h2]
      exact hfm
    | none =>
      exfalso
      rw [List.find?_eq_none] at h1 h2
      have e1 := h1 opt hmem
      have e2 := h2 opt hmem
      simp at e1 e2
      rcases hcase with hc | hc | hc
      · exact e1 hc
      · rw [e2.1] at hc; exact Bool.noConfusion hc
      · rw [e2.2] at hc; exact Bool.noConfusion hc

/-- C1 (defect of the code): with the options `["", "Paris"]` and the answer
`"Par"`, the option `"Paris"` contains the answer, yet `matchExactOption`
returns `"Par"`, which is not an option: the empty option is the first one
found by the substring test, and `if (partialMatch)` takes the found empty
string for "not found". -/
theorem matchExactOption_empty_option_shadows :
    includes (toLowerCaseAscii "Paris".toList) (toLowerCaseAscii "Par".toList) = true ∧
    matchExactOption toLowerCaseAscii "Par".toList ["".toList, "Paris".toList] = "Par".toList ∧
    "Par".toList ∉ ["".toList, "Paris".toList] := by
  decide

/-- C3 (defect of the code): with the options `["London", "", "Paris"]` and the
answer `"Par"`, no option equals the answer and the first option that contains
or is contained in the answer is the empty string at index 1; the result of
`matchExactOption` is not that option but the answer itself. -/
theorem matchExactOption_first_substring_not_returned :
    ["London".toList, "".toList, "Paris".toList].find? (fun opt =>
      decide (trim (toLowerCaseAscii opt) = trim (toLowerCaseAscii "Par".toList))) = none ∧
    ["London".toList, "".toList, "Paris".toList].find? (fun opt =>
      includes (toLowerCaseAscii opt) (toLowerCaseAscii "Par".toList) ||
      includes (toLowerCaseAscii "Par".toList) (toLowerCaseAscii opt)) = some "".toList ∧
    matchExactOption toLowerCaseAscii "Par".toList ["London".toList, "".toList, "Paris".toList]
      = "Par".toList ∧
    "Par".toList ≠ "".toList := by
  decide

/-! ## Theorems: `matchAnswerToOptions` -/

/-- The option at the index `indexOf` finds in the option texts is the first
option with that text. -/
theorem indexOf_optionTexts (x : Str) (options : List FormOption) :
    ((indexOf x (options.map optionText)).bind fun idx => options[idx]?) =
      options.find? (fun o => decide (optionText o = x)) := by
  induction options with
  | nil => rfl
  | cons o rest ih =>
    simp only [List.map_cons, indexOf, List.find?_cons]
    by_cases h : optionText o = x
    · simp [h]
    · simp only [h, if_false, decide_False]
      rw [← ih]
      cases indexOf x (List.map optionText rest) <;> simp

theorem optionText_of_find (x : Str) (options : List FormOption) (o : FormOption)
    (h : options.find? (fun o => decide (optionText o = x)) = some o) : optionText o = x := by
  have := List.find?_some h
  simpa using this

theorem truthy_of_optionText_ne_nil (o : FormOption) (h : optionText o ≠ []) :
    o.truthy = true := by
  cases o with
  | str s =>
    cases s with
    | nil => exact absurd rfl h
    | cons c cs => rfl
  | obj text url => rfl

/-- The entry the multi-choice branch builds from a matched text. -/
theorem optionOrText_find (x : Str) (options : List FormOption) (hx : x ≠ []) :
    optionOrText ((indexOf x (options.map optionText)).bind fun idx => options[idx]?) x =
      match options.find? (fun o => decide (optionText o = x)) with
      | some o => o
      | none => .str x := by
  rw [indexOf_optionTexts]
  cases h : options.find? (fun o => decide (optionText o = x)) with
  | none => rfl
  | some o =>
    have ht : o.truthy = true :=
      truthy_of_optionText_ne_nil o (by rw [optionText_of_find x options o h]; exact hx)
    simp [optionOrText, ht]

theorem splitComma_ne_nil (s : Str) : splitComma s ≠ [] := by
  cases s with
  | nil => simp [splitComma]
  | cons c cs =>
    unfold splitComma
    split
    · simp
    · split <;> simp

theorem entry_eq_boundEntry (toLowerCase : Str → Str) (options : List FormOption) (part : Str)
    (hpart : part ≠ []) :
    optionOrText ((indexOf (matchExactOption toLowerCase part (options.map optionText))
        (options.map optionText)).bind fun idx => options[idx]?)
      (matchExactOption toLowerCase part (options.map optionText)) =
    boundEntry toLowerCase options part := by
  rw [optionOrText_find _ _ (matchExactOption_ne_nil toLowerCase part _ hpart)]
  unfold boundEntry
  cases h : options.find? (fun o =>
      decide (optionText o = matchExactOption toLowerCase part (options.map optionText))) with
  | some o => rfl
  | none =>
    rcases matchExactOption_mem_or_eq toLowerCase part (options.map optionText) with hm | he
    · exfalso
      rw [List.find?_eq_none] at h
      rw [List.mem_map] at hm
      obtain ⟨o, ho, hot⟩ := hm
      have := h o ho
      simp [hot] at this
    · simp [he]

/-- C4: for a non-empty option list and an answer whose comma-separated parts
are all non-empty after trimming, the multi-choice branch of
`matchAnswerToOptions` returns one entry per part, in order, none dropped and
none merged: the entry of a part is the option bound to it by
`matchExactOption`, or the part itself when it is bound to no option. -/
theorem matchAnswerToOptions_multi (toLowerCase : Str → Str) (options : List FormOption)
    (answer : Str) (hopts : options ≠ [])
    (hparts : ∀ part ∈ (splitComma answer).map trim, part ≠ []) :
    matchAnswerToOptions toLowerCase options answer true =
      .arr (((splitComma answer).map trim).map (boundEntry toLowerCase options)) ∧
    (((splitComma answer).map trim).map (boundEntry toLowerCase options)).length =
      (splitComma answer).length := by
  refine ⟨?_, by simp⟩
  have hans : answer ≠ [] := by
    intro h
    subst h
    exact hparts [] (by decide) rfl
  have hcond : (answer.isEmpty || options.isEmpty) = false := by
    cases answer with
    | nil => exact absurd rfl hans
    | cons c cs =>
      cases options with
      | nil => exact absurd rfl hopts
      | cons o os => rfl
  unfold matchAnswerToOptions
  simp only [hcond, Bool.false_eq_true, if_false, if_true]
  congr 1
  have hfilter : List.filter (fun m => !m.isEmpty)
      (List.map (fun part => matchExactOption toLowerCase part (List.map optionText options))
        (List.map trim (splitComma answer))) =
      List.map (fun part => matchExactOption toLowerCase part (List.map optionText options))
        (List.map trim (splitComma answer)) := by
    rw [List.filter_eq_self]
    intro m hm
    rw [List.mem_map] at hm
    obtain ⟨part, hp, rfl⟩ := hm
    have := matchExactOption_ne_nil toLowerCase part (List.map optionText options)
      (hparts part hp)
    cases hm : matchExactOption toLowerCase part (List.map optionText options) with
    | nil => exact absurd hm this
    | cons c cs => rfl
  rw [hfilter, List.map_map]
  apply List.map_congr_left
  intro part hp
  exact entry_eq_boundEntry toLowerCase options part (hparts part hp)

theorem matchAnswerToOptions_multi_witness :
    matchAnswerToOptions toLowerCaseAscii
        [.str "Alpha".toList, .obj "Beta".toList "https://x/b.png".toList, .str "Gamma".toList]
        "alpha, bet , delta, ALPHA".toList true =
      .arr [.str "Alpha".toList, .obj "Beta".toList "https://x/b.png".toList,
        .str "delta".toList, .str "Alpha".toList] :=
  (matchAnswerToOptions_multi toLowerCaseAscii
    [.str "Alpha".toList, .obj "Beta".toList "https://x/b.png".toList, .str "Gamma".toList]
    "alpha, bet , delta, ALPHA".toList (by decide) (by decide)).1.trans (by decide)

/-! ## Theorems: reconciliation -/

/-- C5 (as stated, refuted): for a question without options whose two
providers answer "4" (OpenAI) and "5" (Gemini), the final answer is Gemini's
"5", not the raw answer "4" of the OpenAI call. -/
theorem nonChoice_final_is_gemini_not_openai :
    ∃ r, reconcile toLowerCaseAscii
        { question := "2 + 3 = ?".toList, type := .short_answer, options := [] }
        (some "4".toList) (some "5".toList) = .ok r ∧
      r.finalAnswer = .one (.str "5".toList) ∧
      r.finalAnswer ≠ rawAnswer (some "4".toList) :=
  ⟨_, rfl, by decide, by decide⟩

/-- C5 (amended): for a question without options, the final answer is the raw
answer of the Gemini call whenever that answer is a non-empty string, and the
raw answer of the OpenAI call when Gemini's is `null` or empty; no option
matching is applied (both matched answers stay `null`, `answersMatch` stays
false). -/
theorem nonChoice_final_prefers_gemini (toLowerCase : Str → Str) (q : QuestionData)
    (gptAnswer geminiAnswer : Option Str) (hq : q.options = []) :
    ∃ r, reconcile toLowerCase q gptAnswer geminiAnswer = .ok r ∧
      (∀ s, geminiAnswer = some s → s ≠ [] → r.finalAnswer = .one (.str s)) ∧
      (geminiAnswer = none ∨ geminiAnswer = some [] → r.finalAnswer = rawAnswer gptAnswer) ∧
      r.gptMatchedAnswer = .null ∧ r.geminiMatchedAnswer = .null ∧ r.answersMatch = false := by
  refine ⟨{ finalAnswer := (rawAnswer geminiAnswer).orElse (rawAnswer gptAnswer),
             gptMatchedAnswer := .null, geminiMatchedAnswer := .null, answersMatch := false },
    by simp [reconcile, hq], ?_, ?_, rfl, rfl, rfl⟩
  · intro s hs hne
    subst hs
    cases s with
    | nil => exact absurd rfl hne
    | cons c cs => rfl
  · intro h
    rcases h with h | h <;> subst h <;> rfl

theorem nonChoice_final_prefers_gemini_witness :
    ∃ r, reconcile toLowerCaseAscii
        { question := "Largest planet?".toList, type := .long_answer, options := [] }
        (some "Saturn".toList) (some "Jupiter".toList) = .ok r ∧
      r.finalAnswer = .one (.str "Jupiter".toList) := by
  obtain ⟨r, hr, hgemini, _⟩ := nonChoice_final_prefers_gemini toLowerCaseAscii
    { question := "Largest planet?".toList, type := .long_answer, options := [] }
    (some "Saturn".toList) (some "Jupiter".toList) rfl
  exact ⟨r, hr, hgemini _ rfl (by decide)⟩

/-! ## Theorems: the order of `sort()` and `normalizeForComparison` -/

theorem unitsLE_total : ∀ a b : List Nat, unitsLE a b = true ∨ unitsLE b a = true
  | [], _ => Or.inl rfl
  | _ :: _, [] => Or.inr rfl
  | a :: as, b :: bs => by
    simp only [unitsLE, Bool.or_eq_true, Bool.and_eq_true, decide_eq_true_eq, beq_iff_eq]
    rcases Nat.lt_trichotomy a b with h | h | h
    · exact Or.inl (Or.inl h)
    · rcases unitsLE_total as bs with ht | ht
      · exact Or.inl (Or.inr ⟨h, ht⟩)
      · exact Or.inr (Or.inr ⟨h.symm, ht⟩)
    · exact Or.inr (Or.inl h)

theorem unitsLE_trans : ∀ a b c : List Nat,
    unitsLE a b = true → unitsLE b c = true → unitsLE a c = true
  | [], _, _ => fun _ _ => rfl
  | _ :: _, [], _ => fun h _ => by simp [unitsLE] at h
  | _ :: _, _ :: _, [] => fun _ h => by simp [unitsLE] at h
  | a :: as, b :: bs, c :: cs => by
    simp only [unitsLE, Bool.or_eq_true, Bool.and_eq_true, decide_eq_true_eq, beq_iff_eq]
    intro h1 h2
    rcases h1 with h1 | ⟨h1, t1⟩
    · rcases h2 with h2 | ⟨h2, _⟩
      · exact Or.inl (Nat.lt_trans h1 h2)
      · exact Or.inl (h2 ▸ h1)
    · rcases h2 with h2 | ⟨h2, t2⟩
      · exact Or.inl (h1 ▸ h2)
      · exact Or.inr ⟨h1.trans h2, unitsLE_trans as bs cs t1 t2⟩

theorem unitsLE_antisymm : ∀ a b : List Nat,
    unitsLE a b = true → unitsLE b a = true → a = b
  | [], [] => fun _ _ => rfl
  | [], _ :: _ => fun _ h => by simp [unitsLE] at h
  | _ :: _, [] => fun h _ => by simp [unitsLE] at h
  | a :: as, b :: bs => by
    simp only [unitsLE, Bool.or_eq_true, Bool.and_eq_true, decide_eq_true_eq, beq_iff_eq]
    intro h1 h2
    rcases h1 with h1 | ⟨h1, t1⟩
    · rcases h2 with h2 | ⟨h2, _⟩
      · exact absurd h1 (Nat.lt_asymm h2)
      · exact absurd h1 (by omega)
    · rcases h2 with h2 | ⟨_, t2⟩
      · exact absurd h2 (by omega)
      · rw [h1, unitsLE_antisymm as bs t1 t2]

theorem codeUnits_cons_inj (c d : Char) (s t : List Nat)
    (h : codeUnits c ++ s = codeUnits d ++ t) : c = d ∧ s = t := by
  have hc : c.toNat < 0xd800 ∨ (0xdfff < c.toNat ∧ c.toNat < 0x110000) := c.valid
  have hd : d.toNat < 0xd800 ∨ (0xdfff < d.toNat ∧ d.toNat < 0x110000) := d.valid
  have key : c.toNat = d.toNat ∧ s = t := by
    unfold codeUnits at h
    by_cases h1 : c.toNat < 0x10000 <;> by_cases h2 : d.toNat < 0x10000
    · simp only [h1, h2, if_true, List.cons_append, List.nil_append, List.cons.injEq] at h
      exact h
    · simp only [h1, h2, if_true, if_false, List.cons_append, List.nil_append,
        List.cons.injEq] at h
      omega
    · simp only [h1, h2, if_true, if_false, List.cons_append, List.nil_append,
        List.cons.injEq] at h
      omega
    · simp only [h1, h2, if_false, List.cons_append, List.nil_append, List.cons.injEq] at h
      refine ⟨?_, h.2.2⟩
      omega
  refine ⟨?_, key.2⟩
  rw [← Char.ofNat_toNat c, ← Char.ofNat_toNat d, key.1]

theorem utf16_injective : ∀ s t : Str, utf16 s = utf16 t → s = t
  | [], [] => fun _ => rfl
  | [], d :: ds => fun h => by
    exfalso
    simp only [utf16, codeUnits] at h
    split at h <;> simp at h
  | c :: cs, [] => fun h => by
    exfalso
    simp only [utf16, codeUnits] at h
    split at h <;> simp at h
  | c :: cs, d :: ds => fun h => by
    have := codeUnits_cons_inj c d (utf16 cs) (utf16 ds) h
    rw [this.1, utf16_injective cs ds this.2]

instance strLE.isTotal : IsTotal Str strLE :=
  ⟨fun a b => unitsLE_total (utf16 a) (utf16 b)⟩

instance strLE.isTrans : IsTrans Str strLE :=
  ⟨fun a b c => unitsLE_trans (utf16 a) (utf16 b) (utf16 c)⟩

instance strLE.isAntisymm : IsAntisymm Str strLE :=
  ⟨fun a b h1 h2 => utf16_injective a b (unitsLE_antisymm (utf16 a) (utf16 b) h1 h2)⟩

theorem sortStrings_perm (l1 l2 : List Str) (h : l1.Perm l2) :
    sortStrings l1 = sortStrings l2 :=
  List.eq_of_perm_of_sorted
    (((List.perm_insertionSort strLE l1).trans h).trans (List.perm_insertionSort strLE l2).symm)
    (List.sorted_insertionSort strLE l1) (List.sorted_insertionSort strLE l2)

/-- C8: `normalizeForComparison` gives the same string on an array of labels
(strings or option objects) and on every reordering of it, so two matched
answers that hold the same labels in different orders compare equal in the
test that computes `answersMatch`. -/
theorem normalizeForComparison_perm (toLowerCase : Str → Str)
    (items reordered : List FormOption) (h : reordered.Perm items) :
    normalizeForComparison (.arr reordered) = normalizeForComparison (.arr items) ∧
    lowerTrim toLowerCase .gptToLowerCase (normalizeForComparison (.arr reordered)) =
      lowerTrim toLowerCase .geminiToLowerCase (normalizeForComparison (.arr items)) := by
  simp only [normalizeForComparison]
  rw [sortStrings_perm _ _ ((h.map textOrSelf).map jsToString)]
  exact ⟨rfl, rfl⟩

theorem normalizeForComparison_perm_witness :
    normalizeForComparison (.arr [.str "y".toList, .obj "z".toList "u".toList, .str "x".toList]) =
      normalizeForComparison
        (.arr [.str "x".toList, .str "y".toList, .obj "z".toList "u".toList]) :=
  (normalizeForComparison_perm toLowerCaseAscii
    [.str "x".toList, .str "y".toList, .obj "z".toList "u".toList]
    [.str "y".toList, .obj "z".toList "u".toList, .str "x".toList]
    (by decide)).1

/-! ## Theorems: option marking in `scrapeGoogleForm` -/

/-- A label is clicked exactly when its checked state differs from its target
state. -/
theorem labelClicked_eq (r : Reconciliation) (optionTexts : List Str) (idx : Nat)
    (checked : Bool) :
    labelClicked r optionTexts idx checked = xor checked (targetState r optionTexts idx) := by
  unfold labelClicked targetState
  dsimp only
  generalize (r.answersMatch && r.finalAnswer.truthy) = agree
  generalize includesText (getResponseTexts r.finalAnswer) optionTexts[idx]? = inFinal
  generalize includesText (getResponseTexts r.gptMatchedAnswer) optionTexts[idx]? = inGpt
  generalize includesText (getResponseTexts r.geminiMatchedAnswer) optionTexts[idx]? = inGemini
  cases agree <;> cases inFinal <;> cases inGpt <;> cases inGemini <;> cases checked <;> rfl

theorem length_toggleClick : ∀ (n : Nat) (l : List Bool), (toggleClick n l).length = l.length
  | n, [] => by cases n <;> rfl
  | 0, _ :: _ => rfl
  | n + 1, _ :: bs => by simp [toggleClick, length_toggleClick n bs]

theorem getElem?_toggleClick : ∀ (n : Nat) (l : List Bool) (i : Nat),
    (toggleClick n l)[i]? = if i = n then l[i]?.map not else l[i]?
  | n, [], i => by cases n <;> simp [toggleClick]
  | 0, b :: bs, i => by
    cases i with
    | zero => simp [toggleClick]
    | succ i => simp [toggleClick]
  | n + 1, b :: bs, i => by
    cases i with
    | zero => simp [toggleClick]
    | succ i => simp [toggleClick, getElem?_toggleClick n bs i]

/-- The state of the marking loop after the first `n` labels, when a click
toggles the clicked label only. -/
theorem markLabels_prefix (r : Reconciliation) (optionTexts : List Str) (checked : List Bool) :
    ∀ n, n ≤ checked.length →
      ((List.range n).foldl (markLabelStep toggleClick r optionTexts)
          { checked := checked, clicks := [] }).checked.length = checked.length ∧
      (∀ i, ((List.range n).foldl (markLabelStep toggleClick r optionTexts)
          { checked := checked, clicks := [] }).checked[i]? =
        if i < n then checked[i]?.map (fun _ => targetState r optionTexts i) else checked[i]?) ∧
      ((List.range n).foldl (markLabelStep toggleClick r optionTexts)
          { checked := checked, clicks := [] }).clicks =
        (List.range n).filter
          (fun i => xor (checked.getD i false) (targetState r optionTexts i)) := by
  intro n
  induction n with
  | zero => intro _; simp
  | succ n ih =>
    intro hn
    obtain ⟨hlen, hget, hclicks⟩ := ih (Nat.le_of_succ_le hn)
    have hn' : n < checked.length := hn
    rw [List.range_succ, List.foldl_append, List.filter_append]
    generalize (List.range n).foldl (markLabelStep toggleClick r optionTexts)
      { checked := checked, clicks := [] } = st at hlen hget hclicks
    have hcur : st.checked.getD n false = checked.getD n false := by
      have := hget n
      simp only [Nat.lt_irrefl, if_false] at this
      simp [List.getD, this]
    have hcn : checked[n]? = some (checked.getD n false) := by
      simp [List.getD, List.getElem?_eq_getElem hn']
    simp only [List.foldl_cons, List.foldl_nil, markLabelStep, hcur, labelClicked_eq]
    cases hx : xor (checked.getD n false) (targetState r optionTexts n) with
    | true =>
      simp only [if_true, length_toggleClick, hlen, true_and, getElem?_toggleClick, hclicks,
        List.filter_cons, List.filter_nil, hx]
      refine ⟨?_, trivial⟩
      intro i
      rw [hget i]
      by_cases hi : i = n
      · subst hi
        simp only [Nat.lt_irrefl, if_false, if_true, Nat.lt_succ_self, hcn, Option.map_some',
          Option.some.injEq]
        revert hx
        cases checked.getD i false <;> cases targetState r optionTexts i <;> simp
      · have : (i < n + 1) = (i < n) := by
          apply propext
          omega
        simp only [hi, if_false, this]
    | false =>
      simp only [Bool.false_eq_true, if_false, hlen, true_and, hclicks, List.filter_cons,
        List.filter_nil, hx, List.append_nil]
      refine ⟨?_, trivial⟩
      intro i
      rw [hget i]
      by_cases hi : i = n
      · subst hi
        simp only [Nat.lt_irrefl, if_false, if_true, Nat.lt_succ_self, hcn, Option.map_some',
          Option.some.injEq]
        revert hx
        cases checked.getD i false <;> cases targetState r optionTexts i <;> simp
      · have : (i < n + 1) = (i < n) := by
          apply propext
          omega
        simp only [this]

/-- When a click toggles the clicked label only, the marking step leaves every
label in its target state, and clicks exactly the labels whose checked state
differed from their target state, each once, in order. -/
theorem markLabels_toggle (r : Reconciliation) (options : List FormOption)
    (checked : List Bool) :
    (markLabels toggleClick r options checked).checked =
      (List.range checked.length).map (targetState r (options.map optionText)) ∧
    (markLabels toggleClick r options checked).clicks =
      (List.range checked.length).filter
        (fun i => xor (checked.getD i false) (targetState r (options.map optionText) i)) := by
  obtain ⟨_, hget, hclicks⟩ :=
    markLabels_prefix r (options.map optionText) checked checked.length (Nat.le_refl _)
  refine ⟨?_, hclicks⟩
  unfold markLabels
  apply List.ext_getElem?
  intro i
  rw [hget i, List.getElem?_map]
  by_cases hi : i < checked.length
  · simp [hi, List.getElem?_eq_getElem hi, List.getElem?_range hi]
  · have h1 : checked[i]? = none := List.getElem?_eq_none (by omega)
    have h2 : (List.range checked.length)[i]? = none :=
      List.getElem?_eq_none (by simp; omega)
    simp [hi, h1, h2]

/-! ## Theorems: reconciliation of choice questions -/

theorem indexOf_optionTexts_some (x : Str) (options : List FormOption) (idx : Nat)
    (h : indexOf x (options.map optionText) = some idx) :
    ∃ o, options[idx]? = some o ∧ optionText o = x := by
  have hb := indexOf_optionTexts x options
  rw [h] at hb
  simp only [Option.some_bind] at hb
  cases hf : options.find? (fun o => decide (optionText o = x)) with
  | none =>
    rw [hf] at hb
    rcases matchCase : options[idx]? with _ | o
    · clear hb hf
      exfalso
      induction options generalizing idx with
      | nil => simp [indexOf] at h
      | cons o rest ih =>
        simp only [List.map_cons, indexOf] at h
        by_cases hox : optionText o = x
        · simp only [hox, if_true, Option.some.injEq] at h
          subst h
          simp at matchCase
        · simp only [hox, if_false, Option.map_eq_some'] at h
          obtain ⟨j, hj, rfl⟩ := h
          exact ih j hj (by simpa using matchCase)
    · rw [matchCase] at hb
      exact Option.noConfusion hb
  | some o =>
    rw [hf] at hb
    exact ⟨o, hb, optionText_of_find x options o hf⟩

/-- The single-choice branch of `matchAnswerToOptions` returns the text that
`matchExactOption` returns, as a string. -/
theorem matchAnswerToOptions_single (toLowerCase : Str → Str) (options : List FormOption)
    (answer : Str) (hans : answer ≠ []) (hopts : options ≠ []) :
    matchAnswerToOptions toLowerCase options answer false =
      .one (.str (matchExactOption toLowerCase answer (options.map optionText))) := by
  have hcond : (answer.isEmpty || options.isEmpty) = false := by
    cases answer with
    | nil => exact absurd rfl hans
    | cons c cs =>
      cases options with
      | nil => exact absurd rfl hopts
      | cons o os => rfl
  have hne := matchExactOption_ne_nil toLowerCase answer (options.map optionText) hans
  unfold matchAnswerToOptions
  simp only [hcond, Bool.false_eq_true, if_false]
  generalize matchExactOption toLowerCase answer (options.map optionText) = matched at hne
  cases hi : indexOf matched (options.map optionText) with
  | none => rfl
  | some idx =>
    obtain ⟨o, ho, hot⟩ := indexOf_optionTexts_some matched options idx hi
    have ht : o.truthy = true := truthy_of_optionText_ne_nil o (by rw [hot]; exact hne)
    simp only [ho, optionOrText, ht, if_true]
    cases o with
    | str s =>
      simp only [optionText] at hot
      rw [hot]
    | obj text url =>
      simp only [optionText] at hot
      subst hot
      cases text with
      | nil => exact absurd rfl hne
      | cons c cs => rfl

theorem reconcile_both_null (toLowerCase : Str → Str) (q : QuestionData) :
    ∃ m, reconcile toLowerCase q none none =
      .ok { finalAnswer := .null, gptMatchedAnswer := .null, geminiMatchedAnswer := .null,
            answersMatch := m } := by
  unfold reconcile
  by_cases h : q.options.length > 0
  · exact ⟨true, by simp [h, matchedAnswer, normalizeForComparison, lowerTrim, Answer.truthy,
      Answer.orElse]⟩
  · exact ⟨false, by simp [h, rawAnswer, Answer.truthy, Answer.orElse]⟩

/-- C9 (as stated, refuted): a single_ans question with options A and B, both
provider answers `null`, and option A checked beforehand: the final answer is
`null`, yet the label of A is clicked. -/
theorem both_null_clicks_a_checked_label :
    ∃ r, reconcile toLowerCaseAscii
        { question := "Pick one".toList, type := .single_ans,
          options := [.str "A".toList, .str "B".toList] } none none = .ok r ∧
      r.finalAnswer = .null ∧
      (markLabels toggleClick r [.str "A".toList, .str "B".toList] [true, false]).clicks = [0] :=
  ⟨_, rfl, by decide, by decide⟩

/-- C9 (amended): when both raw answers are `null`, the final answer is `null`
and a label is clicked exactly when it is checked at that moment; with clicks
that toggle, the labels clicked are those checked beforehand (so none when
none was checked) and every label ends unchecked. -/
theorem both_null_unchecks_labels (toLowerCase : Str → Str) (q : QuestionData) :
    ∃ r, reconcile toLowerCase q none none = .ok r ∧ r.finalAnswer = .null ∧
      (∀ idx checked, labelClicked r (q.options.map optionText) idx checked = checked) ∧
      ∀ checked : List Bool,
        (markLabels toggleClick r q.options checked).clicks =
          (List.range checked.length).filter (fun i => checked.getD i false) ∧
        (markLabels toggleClick r q.options checked).checked =
          (List.range checked.length).map (fun _ => false) := by
  obtain ⟨m, hm⟩ := reconcile_both_null toLowerCase q
  refine ⟨_, hm, rfl, ?_, ?_⟩
  · intro idx checked
    rw [labelClicked_eq]
    simp [targetState, getResponseTexts, Answer.truthy, includesText]
    cases q.options[idx]? <;> simp
  · intro checked
    have h := markLabels_toggle
      { finalAnswer := .null, gptMatchedAnswer := .null, geminiMatchedAnswer := .null,
        answersMatch := m } q.options checked
    have ht : ∀ i, targetState
        { finalAnswer := .null, gptMatchedAnswer := .null, geminiMatchedAnswer := .null,
          answersMatch := m } (q.options.map optionText) i = false := by
      intro i
      simp [targetState, getResponseTexts, Answer.truthy, includesText]
      cases q.options[i]? <;> simp
    rw [h.1, h.2]
    constructor
    · apply List.filter_congr
      intro i _
      rw [ht i, Bool.xor_false]
    · apply List.map_congr_left
      intro i _
      exact ht i

/-- The matched answer of a multi_ans question with options is `null` or an
array, so its normalised form is a string. -/
theorem normalize_matchedAnswer_multi (toLowerCase : Str → Str) (q : QuestionData)
    (raw : Option Str) (hmulti : q.type = .multi_ans) (hopts : q.options ≠ []) :
    ∃ s, normalizeForComparison (matchedAnswer toLowerCase q raw) = .str s := by
  obtain ⟨question, type, options⟩ := q
  simp only at hmulti hopts
  subst hmulti
  cases options with
  | nil => exact absurd rfl hopts
  | cons o os =>
    cases raw with
    | none => exact ⟨_, rfl⟩
    | some s =>
      cases s with
      | nil => exact ⟨_, rfl⟩
      | cons c cs => exact ⟨_, rfl⟩

/-- C7: for a multi_ans question with options whose two matched answers differ
after normalisation (sorted, joined, lower-cased, trimmed), `answersMatch` is
false and, when a click toggles the clicked label only, after the marking step
the checked labels are exactly those whose option text is in the matched answer
of either provider, whatever was checked before. -/
theorem multi_disagree_marks_union (toLowerCase : Str → Str) (q : QuestionData)
    (gptAnswer geminiAnswer : Option Str)
    (hmulti : q.type = .multi_ans) (hopts : q.options ≠ [])
    (hdiff :
      trim (toLowerCase (jsToString
        (normalizeForComparison (matchedAnswer toLowerCase q gptAnswer)))) ≠
      trim (toLowerCase (jsToString
        (normalizeForComparison (matchedAnswer toLowerCase q geminiAnswer))))) :
    ∃ r, reconcile toLowerCase q gptAnswer geminiAnswer = .ok r ∧
      r.answersMatch = false ∧
      r.gptMatchedAnswer = matchedAnswer toLowerCase q gptAnswer ∧
      r.geminiMatchedAnswer = matchedAnswer toLowerCase q geminiAnswer ∧
      ∀ checked : List Bool,
        (markLabels toggleClick r q.options checked).checked =
          (List.range checked.length).map fun i =>
            includesText (getResponseTexts (matchedAnswer toLowerCase q gptAnswer))
              (q.options.map optionText)[i]? ||
            includesText (getResponseTexts (matchedAnswer toLowerCase q geminiAnswer))
              (q.options.map optionText)[i]? := by
  have hlen : q.options.length > 0 := List.length_pos.mpr hopts
  refine ⟨{ finalAnswer := (matchedAnswer toLowerCase q geminiAnswer).orElse
              (matchedAnswer toLowerCase q gptAnswer),
            gptMatchedAnswer := matchedAnswer toLowerCase q gptAnswer,
            geminiMatchedAnswer := matchedAnswer toLowerCase q geminiAnswer,
            answersMatch := false }, ?_, rfl, rfl, rfl, ?_⟩
  · obtain ⟨a, ha⟩ := normalize_matchedAnswer_multi toLowerCase q gptAnswer hmulti hopts
    obtain ⟨b, hb⟩ := normalize_matchedAnswer_multi toLowerCase q geminiAnswer hmulti hopts
    rw [ha, hb] at hdiff
    simp only [jsToString] at hdiff
    unfold reconcile
    rw [if_pos hlen]
    dsimp only
    rw [ha, hb]
    simp only [lowerTrim, hdiff, decide_False, Bool.false_and, Bool.false_eq_true, if_false]
  · intro checked
    rw [(markLabels_toggle _ q.options checked).1]
    apply List.map_congr_left
    intro i _
    simp [targetState]

theorem multi_disagree_marks_union_witness :
    ∃ r, reconcile toLowerCaseAscii
        { question := "Colours".toList, type := .multi_ans,
          options := [.str "Red".toList, .str "Green".toList, .str "Blue".toList,
            .str "Pink".toList] }
        (some "Green".toList) (some "Red, Blue".toList) = .ok r ∧
      r.answersMatch = false ∧
      (markLabels toggleClick r
        [.str "Red".toList, .str "Green".toList, .str "Blue".toList, .str "Pink".toList]
        [false, true, false, true]).checked = [true, true, true, false] := by
  obtain ⟨r, hr, hm, _, _, hmark⟩ := multi_disagree_marks_union toLowerCaseAscii
    { question := "Colours".toList, type := .multi_ans,
      options := [.str "Red".toList, .str "Green".toList, .str "Blue".toList,
        .str "Pink".toList] }
    (some "Green".toList) (some "Red, Blue".toList) rfl (by decide) (by decide)
  exact ⟨r, hr, hm, (hmark [false, true, false, true]).trans (by decide)⟩

/-- C6 (as stated, refuted): a single_ans question with the plain options `""`
and `"Yes"` and two raw answers that are both the empty string: both answers
equal the first option's label, `answersMatch` is true, but the final answer is
`null`, not that option. -/
theorem agree_on_empty_label_final_null :
    ∃ r, reconcile toLowerCaseAscii
        { question := "Agree?".toList, type := .single_ans,
          options := [.str "".toList, .str "Yes".toList] }
        (some "".toList) (some "".toList) = .ok r ∧
      trim (toLowerCaseAscii "".toList) = trim (toLowerCaseAscii "".toList) ∧
      r.answersMatch = true ∧
      r.finalAnswer = .null ∧
      r.finalAnswer ≠ .one (.str "".toList) :=
  ⟨_, rfl, by decide, by decide, by decide, by decide⟩

theorem matchedAnswer_single_exact (toLowerCase : Str → Str) (q : QuestionData)
    (texts : List Str) (answer first : Str)
    (hsingle : q.type = .single_ans) (hplain : q.options = texts.map FormOption.str)
    (hans : answer ≠ []) (hne : first ≠ [])
    (hfirst : texts.find? (fun opt =>
      decide (trim (toLowerCase opt) = trim (toLowerCase answer))) = some first) :
    matchedAnswer toLowerCase q (some answer) = .one (.str first) := by
  have htexts : q.options.map optionText = texts := by
    rw [hplain, List.map_map]
    exact List.map_id texts
  have hopts : q.options ≠ [] := by
    intro h
    rw [h] at htexts
    rw [← htexts] at hfirst
    simp at hfirst
  have hcond : answer.isEmpty = false := by
    cases answer with
    | nil => exact absurd rfl hans
    | cons c cs => rfl
  simp only [matchedAnswer, hcond, Bool.false_eq_true, if_false, hsingle]
  rw [show decide (QType.single_ans = QType.multi_ans) = false from rfl,
    matchAnswerToOptions_single toLowerCase q.options answer hans hopts, htexts,
    matchExactOption_exact toLowerCase answer texts first hne hfirst]

/-- C6 (amended): for a single_ans question with plain-string options and two
non-empty raw answers that are equal after lower-casing and trimming, if the
first option equal to them after lower-casing and trimming is a non-empty
string, then `answersMatch` is true, the final answer is that option, the
target state of a label is selected exactly when its option text is that
option, and with clicks that toggle the marking step leaves exactly those
labels checked. -/
theorem single_agree_marks_first_option (toLowerCase : Str → Str) (q : QuestionData)
    (texts : List Str) (gptAnswer geminiAnswer first : Str)
    (hsingle : q.type = .single_ans) (hplain : q.options = texts.map FormOption.str)
    (hgpt : gptAnswer ≠ []) (hgemini : geminiAnswer ≠ []) (hne : first ≠ [])
    (hfirst : texts.find? (fun opt =>
      decide (trim (toLowerCase opt) = trim (toLowerCase gptAnswer))) = some first)
    (hsame : trim (toLowerCase geminiAnswer) = trim (toLowerCase gptAnswer)) :
    ∃ r, reconcile toLowerCase q (some gptAnswer) (some geminiAnswer) = .ok r ∧
      r.answersMatch = true ∧
      r.finalAnswer = .one (.str first) ∧
      (∀ idx, targetState r (q.options.map optionText) idx = decide (texts[idx]? = some first)) ∧
      ∀ checked : List Bool,
        (markLabels toggleClick r q.options checked).checked =
          (List.range checked.length).map fun i => decide (texts[i]? = some first) := by
  have hg := matchedAnswer_single_exact toLowerCase q texts gptAnswer first hsingle hplain
    hgpt hne hfirst
  have hm := matchedAnswer_single_exact toLowerCase q texts geminiAnswer first hsingle hplain
    hgemini hne (by rw [hsame]; exact hfirst)
  have htexts : q.options.map optionText = texts := by
    rw [hplain, List.map_map]
    exact List.map_id texts
  have hlen : q.options.length > 0 := by
    apply List.length_pos.mpr
    intro h
    rw [h] at htexts
    rw [← htexts] at hfirst
    simp at hfirst
  have htruthy : (FormOption.str first).truthy = true := by
    cases first with
    | nil => exact absurd rfl hne
    | cons c cs => rfl
  have htarget : ∀ idx, targetState
      { finalAnswer := .one (.str first), gptMatchedAnswer := .one (.str first),
        geminiMatchedAnswer := .one (.str first), answersMatch := true }
      (q.options.map optionText) idx = decide (texts[idx]? = some first) := by
    intro idx
    rw [htexts]
    simp only [targetState, Bool.true_and, Answer.truthy, htruthy, if_true, getResponseTexts,
      textOrSelf, includesText]
    cases texts[idx]? with
    | none => simp
    | some t => simp
  refine ⟨{ finalAnswer := .one (.str first), gptMatchedAnswer := .one (.str first),
            geminiMatchedAnswer := .one (.str first), answersMatch := true },
    ?_, rfl, rfl, htarget, ?_⟩
  · unfold reconcile
    rw [if_pos hlen]
    dsimp only
    rw [hg, hm]
    simp [normalizeForComparison, htruthy, textOrSelf, lowerTrim, Answer.truthy]
  · intro checked
    rw [(markLabels_toggle _ q.options checked).1]
    apply List.map_congr_left
    intro i _
    exact htarget i

theorem single_agree_marks_first_option_witness :
    ∃ r, reconcile toLowerCaseAscii
        { question := "Capital of France?".toList, type := .single_ans,
          options := [.str "Paris".toList, .str "London".toList, .str "Berlin".toList] }
        (some "paris".toList) (some "Paris".toList) = .ok r ∧
      r.answersMatch = true ∧
      r.finalAnswer = .one (.str "Paris".toList) ∧
      (markLabels toggleClick r
        [.str "Paris".toList, .str "London".toList, .str "Berlin".toList]
        [false, true, false]).checked = [true, false, false] := by
  obtain ⟨r, hr, hm, hf, _, hmark⟩ := single_agree_marks_first_option toLowerCaseAscii
    { question := "Capital of France?".toList, type := .single_ans,
      options := [.str "Paris".toList, .str "London".toList, .str "Berlin".toList] }
    ["Paris".toList, "London".toList, "Berlin".toList] "paris".toList "Paris".toList
    "Paris".toList rfl rfl (by decide) (by decide) (by decide) (by decide) (by decide)
  exact ⟨r, hr, hm, hf, (hmark [false, true, false]).trans (by decide)⟩

/-! ## Theorems: the loop of `scrapeMSForm` -/

/-- An iteration with two `null` answers throws at line 1111, before any
option is marked. -/
theorem msQuestionStep_both_null (toLowerCase : Str → Str)
    (click : Nat → List ChoiceNode → List ChoiceNode) (q : MSQuestion)
    (hgpt : q.gptAnswer = none) (hgemini : q.geminiAnswer = none) :
    msQuestionStep toLowerCase click q = .error .nullText := by
  obtain ⟨m, hm⟩ := reconcile_both_null toLowerCase q.data
  simp [msQuestionStep, hgpt, hgemini, hm, msApplyAnswer, responseTextOf]

theorem message_ne_success (e : JSError) : e.message ≠ "Script executed" := by
  cases e <;> decide

/-- Whenever both provider calls fail for some question of the form, the run
of `scrapeMSForm` ends with an error message, and the questions from that one
on are not processed. -/
theorem scrapeMSFormLoop_both_null (toLowerCase : Str → Str)
    (click : Nat → List ChoiceNode → List ChoiceNode) :
    ∀ (before : List MSQuestion) (q : MSQuestion) (after : List MSQuestion)
      (done : List (MSQuestionDom × List DomEvent)),
      q.gptAnswer = none → q.geminiAnswer = none →
      (scrapeMSFormLoop toLowerCase click (before ++ q :: after) done).status ≠
          "Script executed" ∧
        (scrapeMSFormLoop toLowerCase click (before ++ q :: after) done).processed.length ≤
          done.length + before.length
  | [], q, after, done, hgpt, hgemini => by
    simp only [List.nil_append, scrapeMSFormLoop,
      msQuestionStep_both_null toLowerCase click q hgpt hgemini]
    exact ⟨message_ne_success _, Nat.le_refl _⟩
  | b :: before, q, after, done, hgpt, hgemini => by
    rw [List.cons_append]
    simp only [scrapeMSFormLoop]
    cases hb : msQuestionStep toLowerCase click b with
    | error e =>
      exact ⟨message_ne_success _, by simp⟩
    | ok outcome =>
      have ih := scrapeMSFormLoop_both_null toLowerCase click before q after (done ++ [outcome])
        hgpt hgemini
      have hlen : (done ++ [outcome]).length = done.length + 1 := by simp
      rw [hlen] at ih
      refine ⟨ih.1, ?_⟩
      have := ih.2
      simp only [List.length_cons]
      omega

/-- C10 (defect of the code): a form of the second kind with two questions,
where both provider calls fail for the first and both succeed for the second.
The run ends with the message of the `TypeError` raised by `response.text` on
the `null` response, not with "Script executed", and no question is processed,
the second one included. -/
theorem scrapeMSForm_aborts_when_both_providers_fail :
    scrapeMSFormLoop toLowerCaseAscii toggleChoice
      [{ data := { question := "Capital of France?".toList, type := .single_ans,
                   options := [.str "Paris".toList, .str "London".toList] },
         dom := { radios := [{ textContent := "Paris".toList, checked := false },
                             { textContent := "London".toList, checked := false }],
                  checkboxes := [], input := none, textarea := none },
         gptAnswer := none, geminiAnswer := none },
       { data := { question := "Your name".toList, type := .short_answer, options := [] },
         dom := { radios := [], checkboxes := [], input := some [], textarea := none },
         gptAnswer := some "Ada".toList, geminiAnswer := some "Ada".toList }] [] =
      { status := "Cannot read properties of null (reading 'text')", processed := [] } ∧
    "Cannot read properties of null (reading 'text')" ≠ "Script executed" := by
  decide

/-! ## Theorems: missing keys -/

/-- C11: when the OpenAI key or the Gemini key is missing (absent or empty),
`scrapeGoogleForm` and `scrapeMSForm` return "Please set your <names> API
key(s) in the extension popup first!", where <names> is "OpenAI", "Gemini" or
"OpenAI and Gemini" according to the keys that are missing; the extraction and
the per-question loop, where the providers are called, do not run; and the
solve button of the page ends enabled with the text "AI Solve". -/
theorem missing_key_returns_message (toLowerCase : Str → Str)
    (clickLabel : Nat → List Bool → List Bool)
    (clickChoice : Nat → List ChoiceNode → List ChoiceNode)
    (settings : Settings) (solveButton : Option SolveButton)
    (googleQuestions : List GooglePageQuestion) (msQuestions : List MSPageQuestion)
    (hmissing : keyMissing settings.openaiApiKey = true ∨
      keyMissing settings.geminiApiKey = true) :
    scrapeGoogleForm toLowerCase clickLabel settings solveButton googleQuestions =
      .ok { status := missingKeysMessage settings,
            solveButton := solveButton.map fun _ =>
              { disabled := false, textContent := "AI Solve" },
            formElements := none, run := none } ∧
    scrapeMSForm toLowerCase clickChoice settings solveButton msQuestions =
      .ok { status := missingKeysMessage settings,
            solveButton := solveButton.map fun _ =>
              { disabled := false, textContent := "AI Solve" },
            formElements := none, run := none } ∧
    missingKeysMessage settings =
      "Please set your " ++
        (if keyMissing settings.openaiApiKey && keyMissing settings.geminiApiKey then
          "OpenAI and Gemini"
        else if keyMissing settings.openaiApiKey then "OpenAI" else "Gemini") ++
        " API key(s) in the extension popup first!" := by
  have hcond : (keyMissing settings.openaiApiKey || keyMissing settings.geminiApiKey) = true := by
    rcases hmissing with h | h <;> simp [h]
  refine ⟨?_, ?_, ?_⟩
  · simp only [scrapeGoogleForm, hcond, if_true]
    cases solveButton <;> rfl
  · simp only [scrapeMSForm, hcond, if_true]
    cases solveButton <;> rfl
  · unfold missingKeysMessage
    cases ho : keyMissing settings.openaiApiKey <;>
      cases hg : keyMissing settings.geminiApiKey
    · rw [ho, hg] at hcond
      exact absurd hcond (by decide)
    · rfl
    · rfl
    · rfl

theorem missing_key_returns_message_witness :
    scrapeGoogleForm toLowerCaseAscii toggleClick
        { openaiApiKey := none, geminiApiKey := some "AIza-key".toList }
        (some { disabled := false, textContent := "AI Solve" })
        [{ node := { title := some "Capital of France?".toList, radioGroup := true,
                     checkboxGroup := false, dropdown := false,
                     labels := [{ textContent := "Paris".toList, img := none, checked := false }],
                     spans := [], textInput := none, textarea := none },
           gptAnswer := some "Paris".toList, geminiAnswer := some "Paris".toList }] =
      .ok { status := "Please set your OpenAI API key(s) in the extension popup first!",
            solveButton := some { disabled := false, textContent := "AI Solve" },
            formElements := none, run := none } :=
  (missing_key_returns_message toLowerCaseAscii toggleClick toggleChoice
    { openaiApiKey := none, geminiApiKey := some "AIza-key".toList }
    (some { disabled := false, textContent := "AI Solve" })
    [{ node := { title := some "Capital of France?".toList, radioGroup := true,
                 checkboxGroup := false, dropdown := false,
                 labels := [{ textContent := "Paris".toList, img := none, checked := false }],
                 spans := [], textInput := none, textarea := none },
       gptAnswer := some "Paris".toList, geminiAnswer := some "Paris".toList }]
    [] (Or.inl rfl)).1

/-! ## Theorems: question extraction -/

/-- C18: in the extraction of `scrapeGoogleForm` the kind of a question is
that of the first marker present in the order radio group (`div.oyXaNc`),
checkbox group (`div.Y6Myld`), dropdown (`div.ry3kXd`), text input, textarea,
and `unknown` when none is present. -/
theorem google_kind_is_first_marker (node : GoogleQuestionNode) :
    (extractGoogleQuestion node).type =
      firstMarkerKind
        [(node.radioGroup, .single_ans), (node.checkboxGroup, .multi_ans),
         (node.dropdown, .dropdown), (node.textInput.isSome, .short_answer),
         (node.textarea.isSome, .long_answer)] := by
  unfold extractGoogleQuestion firstMarkerKind firstMarkerKind firstMarkerKind firstMarkerKind
    firstMarkerKind firstMarkerKind
  cases node.radioGroup <;> cases node.checkboxGroup <;> cases node.dropdown <;>
    cases node.textInput.isSome <;> cases node.textarea.isSome <;> rfl

/-- The kind the extraction of `scrapeMSForm` gives: the single-line input and
the textarea come before the radio and checkbox elements. -/
theorem ms_kind_actual_order (node : MSQuestionNode) :
    (extractMSQuestion node).type =
      firstMarkerKind
        [(node.singleLineInput, .short_answer), (node.textarea.isSome, .long_answer),
         (!node.radios.isEmpty, .single_ans), (!node.checkboxes.isEmpty, .multi_ans)] := by
  unfold extractMSQuestion firstMarkerKind firstMarkerKind firstMarkerKind firstMarkerKind
    firstMarkerKind
  cases node.singleLineInput <;> cases node.textarea.isSome <;> cases node.radios.isEmpty <;>
    cases node.checkboxes.isEmpty <;> rfl

/-- C19 (defect of the code): a container of the second form that holds two
radio elements and a textarea.  The first marker present in the order radio,
checkbox, single-line input, textarea is the radio, whose kind is single_ans;
the extraction gives long_answer, with the two radio options kept. -/
theorem ms_radio_with_textarea_is_long_answer :
    firstMarkerKind
      [(true, QType.single_ans), (false, QType.multi_ans), (false, QType.short_answer),
       (true, QType.long_answer)] = .single_ans ∧
    (extractMSQuestion
      { title := some "Which one?".toList, firstImg := none,
        radios := [{ value := "Yes".toList,
                     parent := { textContent := "Yes".toList, checked := false } },
                   { value := "Other".toList,
                     parent := { textContent := "Other".toList, checked := false } }],
        checkboxes := [], singleLineInput := false, input := some [],
        textarea := some [] }).type = .long_answer ∧
    (extractMSQuestion
      { title := some "Which one?".toList, firstImg := none,
        radios := [{ value := "Yes".toList,
                     parent := { textContent := "Yes".toList, checked := false } },
                   { value := "Other".toList,
                     parent := { textContent := "Other".toList, checked := false } }],
        checkboxes := [], singleLineInput := false, input := some [],
        textarea := some [] }).options = [.str "Yes".toList, .str "Other".toList] := by
  decide

/-- C20 (as stated, refuted): a dropdown container of the first form whose
spans hold no "Choose" entry gives a question of kind dropdown with an empty
options list. -/
theorem google_dropdown_without_choose_has_no_options :
    (extractGoogleQuestion
      { title := some "Couleur".toList, radioGroup := false, checkboxGroup := false,
        dropdown := true, labels := [],
        spans := ["Couleur".toList, "Rouge".toList, "Bleu".toList],
        textInput := none, textarea := none }).type = .dropdown ∧
    (extractGoogleQuestion
      { title := some "Couleur".toList, radioGroup := false, checkboxGroup := false,
        dropdown := true, labels := [],
        spans := ["Couleur".toList, "Rouge".toList, "Bleu".toList],
        textInput := none, textarea := none }).options = [] := by
  decide

/-- C20 (amended): a question extracted by `scrapeGoogleForm` that has options
is of kind single_ans, multi_ans or dropdown, and a single_ans or multi_ans
question has one option for every label of its container; a question extracted
by `scrapeMSForm` of kind single_ans or multi_ans has options. -/
theorem extraction_options_and_kind (googleNode : GoogleQuestionNode) (msNode : MSQuestionNode) :
    ((extractGoogleQuestion googleNode).options ≠ [] →
      (extractGoogleQuestion googleNode).type = .single_ans ∨
      (extractGoogleQuestion googleNode).type = .multi_ans ∨
      (extractGoogleQuestion googleNode).type = .dropdown) ∧
    ((extractGoogleQuestion googleNode).type = .single_ans ∨
      (extractGoogleQuestion googleNode).type = .multi_ans →
      (extractGoogleQuestion googleNode).options.length = googleNode.labels.length) ∧
    ((extractMSQuestion msNode).type = .single_ans ∨
      (extractMSQuestion msNode).type = .multi_ans →
      (extractMSQuestion msNode).options ≠ []) := by
  refine ⟨?_, ?_, ?_⟩
  · unfold extractGoogleQuestion
    cases googleNode.radioGroup <;> cases googleNode.checkboxGroup <;>
      cases googleNode.dropdown <;> cases googleNode.textInput.isSome <;>
      cases googleNode.textarea.isSome <;> simp
  · unfold extractGoogleQuestion
    cases googleNode.radioGroup <;> cases googleNode.checkboxGroup <;>
      cases googleNode.dropdown <;> cases googleNode.textInput.isSome <;>
      cases googleNode.textarea.isSome <;> simp
  · unfold extractMSQuestion
    cases msNode.singleLineInput <;> cases msNode.textarea.isSome <;>
      cases hr : msNode.radios <;> cases hc : msNode.checkboxes <;> simp

/-! ## Theorems: the OpenAI candidate list -/

theorem mem_setOrder (x : Str) : ∀ l : List Str, x ∈ setOrder l ↔ x ∈ l
  | [] => Iff.rfl
  | y :: ys => by
    simp only [setOrder, List.mem_cons, List.mem_filter, decide_eq_true_eq, mem_setOrder x ys]
    constructor
    · rintro (h | ⟨h, _⟩)
      · exact Or.inl h
      · exact Or.inr h
    · intro h
      by_cases hxy : x = y
      · exact Or.inl hxy
      · rcases h with h | h
        · exact Or.inl h
        · exact Or.inr ⟨h, hxy⟩

theorem nodup_setOrder : ∀ l : List Str, (setOrder l).Nodup
  | [] => List.nodup_nil
  | y :: ys => by
    simp only [setOrder, List.nodup_cons, List.mem_filter, decide_eq_true_eq]
    exact ⟨fun h => h.2 rfl, (nodup_setOrder ys).filter _⟩

theorem setOrder_append : ∀ a b : List Str,
    setOrder (a ++ b) = setOrder a ++ (setOrder b).filter fun y => decide (y ∉ a)
  | [], b => by simp [setOrder]
  | x :: xs, b => by
    have ih := setOrder_append xs b
    rw [List.cons_append]
    simp only [setOrder]
    rw [ih, List.filter_append, List.filter_filter, List.cons_append]
    congr 2
    apply List.filter_congr
    intro y _
    by_cases h1 : y = x <;> by_cases h2 : y ∈ xs <;> simp [h1, h2]

/-- In a list without duplicates a member occurs exactly once. -/
theorem occurrences_eq_one (name : Str) : ∀ l : List Str, l.Nodup → name ∈ l →
    (l.filter fun x => decide (x = name)).length = 1
  | [], _, h => absurd h (List.not_mem_nil _)
  | y :: ys, hnd, h => by
    rw [List.nodup_cons] at hnd
    by_cases hy : y = name
    · subst hy
      have : (ys.filter fun x => decide (x = y)) = [] := by
        rw [List.filter_eq_nil_iff]
        intro a ha
        simp only [decide_eq_true_eq]
        intro hay
        exact hnd.1 (hay ▸ ha)
      simp [List.filter_cons, this]
    · have hmem : name ∈ ys := by
        rcases List.mem_cons.mp h with h | h
        · exact absurd h.symm hy
        · exact h
      simp [List.filter_cons, hy, occurrences_eq_one name ys hnd.2 hmem]

theorem setOrder_of_nodup : ∀ l : List Str, l.Nodup → setOrder l = l
  | [], _ => rfl
  | x :: xs, h => by
    rw [List.nodup_cons] at h
    simp only [setOrder, setOrder_of_nodup xs h.2]
    congr 1
    rw [List.filter_eq_self]
    intro y hy
    simp only [decide_eq_true_eq]
    intro hyx
    exact h.1 (hyx ▸ hy)

theorem mem_sortStrings (x : Str) (l : List Str) : x ∈ sortStrings l ↔ x ∈ l :=
  (List.perm_insertionSort strLE l).mem_iff

/-- C17: whatever the listing call gives, the list that
`getAvailableOpenAIModels` returns has no duplicate and holds each of the six
hardcoded names exactly once; when the listing fails it is the hardcoded list;
when the listing succeeds it is a list of discovered names, each an id of the
listing that starts with "gpt-", followed by the hardcoded names that were not
discovered. -/
theorem openAI_candidates (listing : Option (List Str)) :
    (getAvailableOpenAIModels listing).Nodup ∧
    (∀ name ∈ openAIModelsToTry,
      ((getAvailableOpenAIModels listing).filter fun x => decide (x = name)).length = 1) ∧
    (listing = none → getAvailableOpenAIModels listing = openAIModelsToTry) ∧
    ∀ ids, listing = some ids →
      ∃ discovered others, getAvailableOpenAIModels listing = discovered ++ others ∧
        (∀ name, name ∈ discovered ↔ name ∈ ids ∧ startsWith name "gpt-".toList = true) ∧
        (∀ name, name ∈ others ↔ name ∈ openAIModelsToTry ∧ name ∉ ids) := by
  have hnodup : (getAvailableOpenAIModels listing).Nodup := by
    cases listing with
    | none => decide
    | some ids => exact nodup_setOrder _
  have hmem : ∀ name ∈ openAIModelsToTry, name ∈ getAvailableOpenAIModels listing := by
    intro name hname
    cases listing with
    | none => exact hname
    | some ids =>
      simp only [getAvailableOpenAIModels, mem_setOrder, List.mem_append]
      exact Or.inr hname
  have hgpt : ∀ name ∈ openAIModelsToTry, startsWith name "gpt-".toList = true := by
    decide
  refine ⟨hnodup, fun name hname => occurrences_eq_one name _ hnodup (hmem name hname),
    fun h => by subst h; rfl, ?_⟩
  intro ids hids
  subst hids
  refine ⟨setOrder (sortStrings (ids.filter fun id => startsWith id "gpt-".toList)),
    (setOrder openAIModelsToTry).filter fun y =>
      decide (y ∉ sortStrings (ids.filter fun id => startsWith id "gpt-".toList)),
    setOrder_append _ _, ?_, ?_⟩
  · intro name
    simp [mem_setOrder, mem_sortStrings, List.mem_filter]
  · intro name
    rw [setOrder_of_nodup openAIModelsToTry (by decide)]
    simp only [List.mem_filter, decide_eq_true_eq, mem_sortStrings, not_and]
    constructor
    · rintro ⟨hin, hnot⟩
      exact ⟨hin, fun hids => hnot hids (hgpt name hin)⟩
    · rintro ⟨hin, hnot⟩
      exact ⟨hin, fun hids => absurd hids hnot⟩

/-! ## Theorems: the Gemini candidate list -/

/-- C16 (as stated, refuted): from an empty cache, a first call whose two
listing queries fail returns the hardcoded fallback list and leaves
`availableModels` empty; a second call, whose listing of "v1" succeeds, queries
the endpoint again and returns another list. -/
theorem fallback_list_is_not_cached :
    getAvailableModels (fun _ => none)
        { cachedWorkingModel := none, availableModels := none, cachedOpenAIModel := none } =
      (fallbackModels,
       { cachedWorkingModel := none, availableModels := none, cachedOpenAIModel := none },
       ["v1".toList, "v1beta".toList]) ∧
    getAvailableModels
        (fun _ => some [{ name := "models/gemini-2.0-flash".toList,
                          supportedGenerationMethods := some ["generateContent".toList] }])
        { cachedWorkingModel := none, availableModels := none, cachedOpenAIModel := none } =
      ([{ name := "gemini-2.0-flash".toList, version := "v1".toList,
          fullName := some "models/gemini-2.0-flash".toList }],
       { cachedWorkingModel := none,
         availableModels :=
           some [{ name := "gemini-2.0-flash".toList, version := "v1".toList,
                   fullName := some "models/gemini-2.0-flash".toList }],
         cachedOpenAIModel := none },
       ["v1".toList]) := by
  decide

/-- C16 (amended): once a call of `getAvailableModels` has returned a list
taken from the cache or from a listing query that succeeded, every later call
returns that list and queries no listing endpoint, whatever the endpoints would
answer; a call that finds the cache empty and both listing queries failing
returns the hardcoded fallback list and leaves the cache empty. -/
theorem listed_models_are_cached (listing later : Str → Option (List ListedModel))
    (st : ProviderState) :
    (st.availableModels.isSome ∨ (listing "v1".toList).isSome ∨
        (listing "v1beta".toList).isSome →
      getAvailableModels later (getAvailableModels listing st).2.1 =
        ((getAvailableModels listing st).1, (getAvailableModels listing st).2.1, [])) ∧
    (st.availableModels = none → listing "v1".toList = none → listing "v1beta".toList = none →
      getAvailableModels listing st = (fallbackModels, st, ["v1".toList, "v1beta".toList])) := by
  constructor
  · intro h
    cases hc : st.availableModels with
    | some models => simp only [getAvailableModels, hc]
    | none =>
      cases h1 : listing "v1".toList with
      | some models => simp only [getAvailableModels, hc, listModelsFrom, h1]
      | none =>
        cases h2 : listing "v1beta".toList with
        | some models => simp only [getAvailableModels, hc, listModelsFrom, h1, h2]
        | none =>
          rw [hc, h1, h2] at h
          simp at h
  · intro hc h1 h2
    simp only [getAvailableModels, hc, listModelsFrom, h1, h2, List.nil_append,
      List.cons_append]

/-! ## Theorems: request parts -/

/-- C15 (as stated, refuted): a prompt with one image whose URL cannot be
fetched.  The request parts hold a part for that image, with the raw URL in
place of the base64 data. -/
theorem unfetched_image_is_sent_as_url :
    geminiParts (fun _ => .failed) "What is shown?".toList [.url "https://x.test/a.png".toList] =
      [.text "What is shown?".toList,
       .inlineData "image/jpeg".toList (some "https://x.test/a.png".toList)] := by
  decide

theorem foldl_append_parts {α β : Type} (f : α → List β) :
    ∀ (l : List α) (init : List β),
      l.foldl (fun acc x => acc ++ f x) init = init ++ l.foldr (fun x acc => f x ++ acc) []
  | [], init => by simp
  | x :: xs, init => by
    simp only [List.foldl_cons, List.foldr_cons, foldl_append_parts f xs, List.append_assoc]

/-- C15 (amended): the parts of a Gemini request, and the content of an OpenAI
request, are one text part holding the full prompt followed by the parts of the
images, image by image in order.  An image whose reader fails contributes no
part, the other images keeping theirs; an image whose URL cannot be fetched is
not dropped: it contributes one part that carries the raw URL in place of the
base64 data, with the type image/jpeg. -/
theorem request_parts (fetchImage : Str → ImageFetch) (prompt : Str) (images : List ImageRef) :
    geminiParts fetchImage prompt images =
      .text prompt :: images.foldr (fun img rest => geminiImageParts fetchImage img ++ rest) [] ∧
    openAIContent fetchImage prompt images =
      .text prompt :: images.foldr (fun img rest => openAIImageItems fetchImage img ++ rest) [] ∧
    (∀ u type, fetchImage u = .blob type none →
      geminiImageParts fetchImage (.url u) = [] ∧ openAIImageItems fetchImage (.url u) = []) ∧
    (∀ u, u ≠ [] → fetchImage u = .failed →
      geminiImageParts fetchImage (.url u) = [.inlineData "image/jpeg".toList (some u)] ∧
      openAIImageItems fetchImage (.url u) =
        [.imageUrl ("data:image/jpeg;base64,".toList ++ u)]) := by
  refine ⟨?_, ?_, ?_, ?_⟩
  · unfold geminiParts
    rw [foldl_append_parts]
    rfl
  · unfold openAIContent
    rw [foldl_append_parts]
    rfl
  · intro u type h
    simp only [geminiImageParts, openAIImageItems, imageUrlToBase64, h]
    cases u <;> simp
  · intro u hu h
    cases u with
    | nil => exact absurd rfl hu
    | cons c cs =>
      simp only [geminiImageParts, openAIImageItems, imageUrlToBase64, h, orStr, truthyStr]
      simp

/-! ## Theorems: one model invocation -/

/-- C14 (defect of the code): a response with status 200 whose body has no
candidates (no choices).  Both `tryModel` functions throw a `TypeError` on
reading the answer instead of returning a failure, after they have stored the
model in the cache. -/
theorem tryModel_throws_on_malformed_success :
    geminiTryModel (.http true (.value none none))
        { name := "gemini-1.5-flash".toList, version := "v1".toList, fullName := none }
        { cachedWorkingModel := none, availableModels := none, cachedOpenAIModel := none } =
      ({ cachedWorkingModel :=
           some { name := "gemini-1.5-flash".toList, version := "v1".toList, fullName := none },
         availableModels := none, cachedOpenAIModel := none },
       .error .typeError) ∧
    openAITryModel (.http true (.value none none)) "gpt-4o".toList
        { cachedWorkingModel := none, availableModels := none, cachedOpenAIModel := none } =
      ({ cachedWorkingModel := none, availableModels := none,
         cachedOpenAIModel := some "gpt-4o".toList },
       .error .typeError) :=
  ⟨rfl, rfl⟩

/-- For a response that is not ok and whose body is a JSON value other than
`null`, `tryModel` returns a failure with the reported error text, or with
"API request failed" when there is none, and leaves the state as it was. -/
theorem tryModel_failure_on_error_status (cache : ProviderState → ProviderState)
    (errorMessage answerText : Option Str) (st : ProviderState) :
    tryModelWith cache (.http false (.value errorMessage answerText)) st =
      (st, .ok (.failure
        (match errorMessage with
         | some message => if message.isEmpty then "API request failed".toList else message
         | none => "API request failed".toList))) := by
  cases errorMessage with
  | none => rfl
  | some message =>
    cases message with
    | nil => rfl
    | cons c cs => rfl

/-! ## Theorems: the fallback over candidate models -/

theorem tryModelWith_failure (cache : ProviderState → ProviderState) (response : Response)
    (st : ProviderState) (e : Str) (h : attemptResult response = .ok (.failure e)) :
    tryModelWith cache response st = (st, .ok (.failure e)) := by
  unfold attemptResult at h
  cases response with
  | rejected => simp [tryModelWith] at h
  | http ok body =>
    cases ok with
    | false =>
      cases body with
      | notJson => simp [tryModelWith] at h
      | jsonNull => simp [tryModelWith] at h
      | value errorMessage answerText =>
        simp only [tryModelWith] at h ⊢
        rw [← h]
    | true =>
      cases body with
      | notJson => simp [tryModelWith] at h
      | jsonNull => simp [tryModelWith] at h
      | value errorMessage answerText => cases answerText <;> simp [tryModelWith] at h

theorem tryModelWith_success (cache : ProviderState → ProviderState) (response : Response)
    (st : ProviderState) (a : Str) (h : attemptResult response = .ok (.success a)) :
    tryModelWith cache response st = (cache st, .ok (.success a)) := by
  unfold attemptResult at h
  cases response with
  | rejected => simp [tryModelWith] at h
  | http ok body =>
    cases ok with
    | false =>
      cases body with
      | notJson => simp [tryModelWith] at h
      | jsonNull => simp [tryModelWith] at h
      | value errorMessage answerText => simp [tryModelWith] at h
    | true =>
      cases body with
      | notJson => simp [tryModelWith] at h
      | jsonNull => simp [tryModelWith] at h
      | value errorMessage answerText =>
        cases answerText with
        | none => simp [tryModelWith] at h
        | some text =>
          simp only [tryModelWith, Except.ok.injEq, TryResult.success.injEq] at h ⊢
          rw [h]

/-- The loop over the candidates stops at the first candidate that succeeds:
the candidates before it were attempted, in order, and none after it. -/
theorem tryCandidates_first_success {μ : Type}
    (tryModel : Response → μ → ProviderState → ProviderState × Except ApiError TryResult)
    (cache : μ → ProviderState → ProviderState)
    (htm : ∀ r m s, tryModel r m s = tryModelWith (cache m) r s)
    (respond : Nat → μ → Response) (a : Str) :
    ∀ (pre : List μ) (c : μ) (post : List μ) (n : Nat) (st : ProviderState)
      (last : Option Str) (attempts : List μ),
      (∀ i (h : i < pre.length), ∃ e, attemptResult (respond (n + i) pre[i]) = .ok (.failure e)) →
      attemptResult (respond (n + pre.length) c) = .ok (.success a) →
      tryCandidates tryModel respond (pre ++ c :: post) n st last attempts =
        (cache c st, attempts ++ pre ++ [c], .returned a)
  | [], c, post, n, st, last, attempts, _, hc => by
    simp only [List.length_nil, Nat.add_zero] at hc
    simp only [List.nil_append, tryCandidates, htm, tryModelWith_success _ _ _ a hc,
      List.append_nil]
  | x :: xs, c, post, n, st, last, attempts, hpre, hc => by
    obtain ⟨e, he⟩ := hpre 0 (Nat.zero_lt_succ _)
    simp only [Nat.add_zero, List.getElem_cons_zero] at he
    have ih := tryCandidates_first_success tryModel cache htm respond a xs c post (n + 1) st
      (some e) (attempts ++ [x])
      (fun i h => by
        have := hpre (i + 1) (Nat.succ_lt_succ h)
        simp only [List.getElem_cons_succ] at this
        rw [show n + 1 + i = n + (i + 1) by omega]
        exact this)
      (by
        rw [show n + 1 + xs.length = n + (x :: xs).length by simp; omega]
        exact hc)
    rw [List.cons_append]
    simp only [tryCandidates, htm, tryModelWith_failure _ _ _ e he]
    rw [ih]
    simp

/-- When every candidate returns a failure the loop attempts all of them, in
order, leaves the state as it was, and ends with the error text of the last
one (with the initial `lastError` when there is no candidate). -/
theorem tryCandidates_all_fail {μ : Type}
    (tryModel : Response → μ → ProviderState → ProviderState × Except ApiError TryResult)
    (cache : μ → ProviderState → ProviderState)
    (htm : ∀ r m s, tryModel r m s = tryModelWith (cache m) r s)
    (respond : Nat → μ → Response) :
    ∀ (l : List μ) (n : Nat) (st : ProviderState) (last : Option Str) (attempts : List μ),
      (∀ i (h : i < l.length), ∃ e, attemptResult (respond (n + i) l[i]) = .ok (.failure e)) →
      ∃ final, tryCandidates tryModel respond l n st last attempts =
          (st, attempts ++ l, .exhausted final) ∧
        (l = [] → final = last) ∧
        (∀ init c e, l = init ++ [c] →
          attemptResult (respond (n + init.length) c) = .ok (.failure e) → final = some e)
  | [], n, st, last, attempts, _ => by
    refine ⟨last, by simp [tryCandidates], fun _ => rfl, ?_⟩
    intro init c e h
    exact absurd h (by simp)
  | x :: xs, n, st, last, attempts, hall => by
    obtain ⟨ex, hex⟩ := hall 0 (Nat.zero_lt_succ _)
    simp only [Nat.add_zero, List.getElem_cons_zero] at hex
    obtain ⟨final, hrun, hnil, hlast⟩ := tryCandidates_all_fail tryModel cache htm respond xs
      (n + 1) st (some ex) (attempts ++ [x])
      (fun i h => by
        have := hall (i + 1) (Nat.succ_lt_succ h)
        simp only [List.getElem_cons_succ] at this
        rw [show n + 1 + i = n + (i + 1) by omega]
        exact this)
    refine ⟨final, ?_, fun h => absurd h (by simp), ?_⟩
    · simp only [tryCandidates, htm, tryModelWith_failure _ _ _ ex hex]
      rw [hrun]
      simp
    · intro init c e hl he
      cases init with
      | nil =>
        simp only [List.nil_append, List.cons.injEq] at hl
        obtain ⟨hxc, hxs⟩ := hl
        subst hxc
        simp only [List.length_nil, Nat.add_zero] at he
        rw [hex] at he
        simp only [Except.ok.injEq, TryResult.failure.injEq] at he
        rw [hnil hxs, he]
      | cons y init1 =>
        simp only [List.cons_append, List.cons.injEq] at hl
        apply hlast init1 c e hl.2
        rw [show n + 1 + init1.length = n + (y :: init1).length by simp; omega]
        exact he

theorem getAvailableModels_keeps_caches (listing : Str → Option (List ListedModel))
    (st : ProviderState) :
    (getAvailableModels listing st).2.1.cachedWorkingModel = st.cachedWorkingModel ∧
    (getAvailableModels listing st).2.1.cachedOpenAIModel = st.cachedOpenAIModel := by
  cases hc : st.availableModels with
  | some models => simp only [getAvailableModels, hc, and_self]
  | none =>
    cases h1 : listing "v1".toList with
    | some models => simp only [getAvailableModels, hc, listModelsFrom, h1, and_self]
    | none =>
      cases h2 : listing "v1beta".toList with
      | some models => simp only [getAvailableModels, hc, listModelsFrom, h1, h2, and_self]
      | none => simp only [getAvailableModels, hc, listModelsFrom, h1, h2, and_self]

theorem geminiFallback_first_success (respond : Nat → ModelConfig → Response)
    (listing : Str → Option (List ListedModel)) (s : ProviderState) (n : Nat)
    (attempts pre : List ModelConfig) (c : ModelConfig) (post : List ModelConfig) (a : Str)
    (hs : s.cachedWorkingModel = none)
    (hl : (getAvailableModels listing s).1 = pre ++ c :: post)
    (hpre : ∀ i (h : i < pre.length), ∃ e,
      attemptResult (respond (n + i) pre[i]) = .ok (.failure e))
    (hc : attemptResult (respond (n + pre.length) c) = .ok (.success a)) :
    (geminiFallback respond listing s n attempts).result = .ok a ∧
    (geminiFallback respond listing s n attempts).attempts = attempts ++ pre ++ [c] ∧
    (geminiFallback respond listing s n attempts).state.cachedWorkingModel = some c := by
  have hkeep := (getAvailableModels_keeps_caches listing s).1
  rcases hg : getAvailableModels listing s with ⟨L, s1, q⟩
  rw [hg] at hl hkeep
  simp only at hl hkeep
  subst hl
  rw [hs] at hkeep
  unfold geminiFallback
  rw [hg]
  simp only [tryCandidates_first_success geminiTryModel cacheGeminiModel (fun _ _ _ => rfl)
    respond a pre c post n s1 none attempts hpre hc, true_and]
  simp [cacheGeminiModel, hkeep]

theorem geminiFallback_all_fail (respond : Nat → ModelConfig → Response)
    (listing : Str → Option (List ListedModel)) (s : ProviderState) (n : Nat)
    (attempts : List ModelConfig)
    (hall : ∀ i (h : i < (getAvailableModels listing s).1.length), ∃ e,
      attemptResult (respond (n + i) (getAvailableModels listing s).1[i]) = .ok (.failure e)) :
    (geminiFallback respond listing s n attempts).state.cachedWorkingModel = none ∧
    (geminiFallback respond listing s n attempts).state.availableModels = none ∧
    (geminiFallback respond listing s n attempts).attempts =
      attempts ++ (getAvailableModels listing s).1 ∧
    ∃ text, (geminiFallback respond listing s n attempts).result =
        .error (.error ("All Gemini models failed. Last error: ".toList ++ text)) ∧
      ((getAvailableModels listing s).1 = [] → text = "null".toList) ∧
      (∀ init c e, (getAvailableModels listing s).1 = init ++ [c] →
        attemptResult (respond (n + init.length) c) = .ok (.failure e) → text = e) := by
  rcases hg : getAvailableModels listing s with ⟨L, s1, q⟩
  rw [hg] at hall
  simp only at hall ⊢
  obtain ⟨final, hrun, hnil, hlast⟩ := tryCandidates_all_fail geminiTryModel cacheGeminiModel
    (fun _ _ _ => rfl) respond L n s1 none attempts hall
  unfold geminiFallback
  rw [hg]
  simp only [hrun, true_and]
  refine ⟨lastErrorText final, rfl, ?_, ?_⟩
  · intro h
    rw [hnil h]
    rfl
  · intro init c e h he
    rw [hlast init c e h he]
    rfl

theorem openAIFallback_first_success (respond : Nat → Str → Response)
    (listing : Option (List Str)) (s : ProviderState) (n : Nat)
    (attempts pre : List Str) (c : Str) (post : List Str) (a : Str)
    (hs : s.cachedOpenAIModel = none)
    (hl : getAvailableOpenAIModels listing = pre ++ c :: post)
    (hpre : ∀ i (h : i < pre.length), ∃ e,
      attemptResult (respond (n + i) pre[i]) = .ok (.failure e))
    (hc : attemptResult (respond (n + pre.length) c) = .ok (.success a)) :
    (openAIFallback respond listing s n attempts).result = .ok a ∧
    (openAIFallback respond listing s n attempts).attempts = attempts ++ pre ++ [c] ∧
    (openAIFallback respond listing s n attempts).state.cachedOpenAIModel = some c := by
  unfold openAIFallback
  rw [hl]
  simp only [tryCandidates_first_success openAITryModel cacheOpenAIModel (fun _ _ _ => rfl)
    respond a pre c post n s none attempts hpre hc, true_and]
  simp [cacheOpenAIModel, hs, truthyStr]

theorem openAIFallback_all_fail (respond : Nat → Str → Response)
    (listing : Option (List Str)) (s : ProviderState) (n : Nat) (attempts : List Str)
    (hall : ∀ i (h : i < (getAvailableOpenAIModels listing).length), ∃ e,
      attemptResult (respond (n + i) (getAvailableOpenAIModels listing)[i]) =
        .ok (.failure e)) :
    (openAIFallback respond listing s n attempts).state.cachedOpenAIModel = none ∧
    (openAIFallback respond listing s n attempts).attempts =
      attempts ++ getAvailableOpenAIModels listing ∧
    ∃ text, (openAIFallback respond listing s n attempts).result =
        .error (.error ("All OpenAI models failed. Last error: ".toList ++ text)) ∧
      (∀ init c e, getAvailableOpenAIModels listing = init ++ [c] →
        attemptResult (respond (n + init.length) c) = .ok (.failure e) → text = e) := by
  obtain ⟨final, hrun, _, hlast⟩ := tryCandidates_all_fail openAITryModel cacheOpenAIModel
    (fun _ _ _ => rfl) respond (getAvailableOpenAIModels listing) n s none attempts hall
  unfold openAIFallback
  simp only [hrun, true_and]
  refine ⟨lastErrorText final, rfl, ?_⟩
  intro init c e h he
  rw [hlast init c e h he]
  rfl

theorem callGeminiAPI_cached_failure (respond : Nat → ModelConfig → Response)
    (listing : Str → Option (List ListedModel)) (st : ProviderState) (cached : ModelConfig)
    (e : Str) (hcached : st.cachedWorkingModel = some cached)
    (hfail : attemptResult (respond 0 cached) = .ok (.failure e)) :
    callGeminiAPI respond listing st =
      geminiFallback respond listing { st with cachedWorkingModel := none } 1 [cached] := by
  unfold callGeminiAPI
  rw [hcached]
  simp only [geminiTryModel, tryModelWith_failure _ _ _ e hfail]

theorem callOpenAIAPI_cached_failure (respond : Nat → Str → Response)
    (listing : Option (List Str)) (st : ProviderState) (cached : Str) (e : Str)
    (hcached : st.cachedOpenAIModel = some cached) (hne : cached ≠ [])
    (hfail : attemptResult (respond 0 cached) = .ok (.failure e)) :
    callOpenAIAPI respond listing st =
      openAIFallback respond listing { st with cachedOpenAIModel := none } 1 [cached] := by
  have htruthy : truthyStr (some cached) = true := by
    cases cached with
    | nil => exact absurd rfl hne
    | cons c cs => rfl
  unfold callOpenAIAPI
  rw [hcached]
  simp only [htruthy, if_true, openAITryModel, tryModelWith_failure _ _ _ e hfail]

/-- C12: a call of `callGeminiAPI` (of `callOpenAIAPI`) made with a cached
working model attempts that model first and alone.  If the attempt succeeds,
its answer is returned and nothing else is attempted.  If it returns a failure,
the cached model was attempted once before the candidate list is started, and
it is forgotten: the candidates are attempted in list order, the answer of the
first one that succeeds is returned, no later candidate is attempted, and the
cache then holds that candidate. -/
theorem cached_model_then_candidates (respondG : Nat → ModelConfig → Response)
    (listingG : Str → Option (List ListedModel)) (respondO : Nat → Str → Response)
    (listingO : Option (List Str)) (st : ProviderState) (cachedG : ModelConfig) (cachedO : Str)
    (hG : st.cachedWorkingModel = some cachedG) (hO : st.cachedOpenAIModel = some cachedO)
    (hne : cachedO ≠ []) :
    (∀ a, attemptResult (respondG 0 cachedG) = .ok (.success a) →
      (callGeminiAPI respondG listingG st).result = .ok a ∧
      (callGeminiAPI respondG listingG st).attempts = [cachedG] ∧
      (callGeminiAPI respondG listingG st).state.cachedWorkingModel = some cachedG) ∧
    (∀ e pre c post a, attemptResult (respondG 0 cachedG) = .ok (.failure e) →
      geminiCandidates listingG st = pre ++ c :: post →
      (∀ i (h : i < pre.length), ∃ e1,
        attemptResult (respondG (1 + i) pre[i]) = .ok (.failure e1)) →
      attemptResult (respondG (1 + pre.length) c) = .ok (.success a) →
      (callGeminiAPI respondG listingG st).result = .ok a ∧
      (callGeminiAPI respondG listingG st).attempts = cachedG :: (pre ++ [c]) ∧
      (callGeminiAPI respondG listingG st).state.cachedWorkingModel = some c) ∧
    (∀ a, attemptResult (respondO 0 cachedO) = .ok (.success a) →
      (callOpenAIAPI respondO listingO st).result = .ok a ∧
      (callOpenAIAPI respondO listingO st).attempts = [cachedO] ∧
      (callOpenAIAPI respondO listingO st).state.cachedOpenAIModel = some cachedO) ∧
    (∀ e pre c post a, attemptResult (respondO 0 cachedO) = .ok (.failure e) →
      getAvailableOpenAIModels listingO = pre ++ c :: post →
      (∀ i (h : i < pre.length), ∃ e1,
        attemptResult (respondO (1 + i) pre[i]) = .ok (.failure e1)) →
      attemptResult (respondO (1 + pre.length) c) = .ok (.success a) →
      (callOpenAIAPI respondO listingO st).result = .ok a ∧
      (callOpenAIAPI respondO listingO st).attempts = cachedO :: (pre ++ [c]) ∧
      (callOpenAIAPI respondO listingO st).state.cachedOpenAIModel = some c) := by
  have htruthy : truthyStr (some cachedO) = true := by
    cases cachedO with
    | nil => exact absurd rfl hne
    | cons c cs => rfl
  refine ⟨?_, ?_, ?_, ?_⟩
  · intro a ha
    unfold callGeminiAPI
    rw [hG]
    simp only [geminiTryModel, tryModelWith_success _ _ _ a ha, true_and]
    simp [cacheGeminiModel, hG]
  · intro e pre c post a he hl hpre hc
    rw [callGeminiAPI_cached_failure respondG listingG st cachedG e hG he]
    have := geminiFallback_first_success respondG listingG
      { st with cachedWorkingModel := none } 1 [cachedG] pre c post a rfl hl hpre hc
    simpa using this
  · intro a ha
    unfold callOpenAIAPI
    rw [hO]
    simp only [htruthy, if_true, openAITryModel, tryModelWith_success _ _ _ a ha, true_and]
    simp [cacheOpenAIModel, hO, htruthy]
  · intro e pre c post a he hl hpre hc
    rw [callOpenAIAPI_cached_failure respondO listingO st cachedO e hO hne he]
    have := openAIFallback_first_success respondO listingO
      { st with cachedOpenAIModel := none } 1 [cachedO] pre c post a rfl hl hpre hc
    simpa using this

theorem cached_model_then_candidates_witness :
    (callGeminiAPI
      (fun n _ => if n = 2 then .http true (.value none (some " Paris ".toList))
        else .http false (.value (some "quota".toList) none))
      (fun _ => none)
      { cachedWorkingModel :=
          some { name := "gemini-1.5-pro".toList, version := "v1".toList, fullName := none },
        availableModels := some fallbackModels,
        cachedOpenAIModel := some "gpt-4".toList }).attempts =
      [{ name := "gemini-1.5-pro".toList, version := "v1".toList, fullName := none },
       { name := "gemini-1.5-flash".toList, version := "v1".toList, fullName := none },
       { name := "gemini-1.5-pro".toList, version := "v1".toList, fullName := none }] :=
  ((cached_model_then_candidates
    (fun n _ => if n = 2 then .http true (.value none (some " Paris ".toList))
      else .http false (.value (some "quota".toList) none))
    (fun _ => none) (fun _ _ => .rejected) none
    { cachedWorkingModel :=
        some { name := "gemini-1.5-pro".toList, version := "v1".toList, fullName := none },
      availableModels := some fallbackModels,
      cachedOpenAIModel := some "gpt-4".toList }
    { name := "gemini-1.5-pro".toList, version := "v1".toList, fullName := none }
    "gpt-4".toList rfl rfl (by decide)).2.1
    "quota".toList
    [{ name := "gemini-1.5-flash".toList, version := "v1".toList, fullName := none }]
    { name := "gemini-1.5-pro".toList, version := "v1".toList, fullName := none } []
    "Paris".toList rfl rfl
    (fun i h => match i, h with
      | 0, _ => ⟨"quota".toList, rfl⟩)
    rfl).2.1

theorem callGeminiAPI_without_cache (respond : Nat → ModelConfig → Response)
    (listing : Str → Option (List ListedModel)) (st : ProviderState)
    (h : st.cachedWorkingModel = none) :
    callGeminiAPI respond listing st =
      geminiFallback respond listing { st with cachedWorkingModel := none } 0 [] := by
  obtain ⟨cached, models, openai⟩ := st
  simp only at h
  subst h
  rfl

theorem callOpenAIAPI_without_cache (respond : Nat → Str → Response)
    (listing : Option (List Str)) (st : ProviderState)
    (h : truthyStr st.cachedOpenAIModel = false) :
    callOpenAIAPI respond listing st = openAIFallback respond listing st 0 [] := by
  unfold callOpenAIAPI
  rw [h]
  rfl

/-- C13: if every model attempted by `callGeminiAPI` returns a failure (the
cached model, when there is one, and every candidate of the list), the call
ends with `cachedWorkingModel` and `availableModels` both `null` and throws an
error whose message is "All Gemini models failed. Last error: " followed by the
error text of the last candidate tried ("null" when the candidate list is
empty); likewise `callOpenAIAPI` ends with `cachedOpenAIModel` `null` and throws
"All OpenAI models failed. Last error: " followed by the last error text. -/
theorem all_models_fail (respondG : Nat → ModelConfig → Response)
    (listingG : Str → Option (List ListedModel)) (respondO : Nat → Str → Response)
    (listingO : Option (List Str)) (st : ProviderState)
    (hcachedG : ∀ cached, st.cachedWorkingModel = some cached →
      ∃ e, attemptResult (respondG 0 cached) = .ok (.failure e))
    (hlistG : ∀ i (h : i < (geminiCandidates listingG st).length), ∃ e,
      attemptResult (respondG (firstListAttempt st.cachedWorkingModel.isSome + i)
        (geminiCandidates listingG st)[i]) = .ok (.failure e))
    (hcachedO : ∀ cached, st.cachedOpenAIModel = some cached → cached ≠ [] →
      ∃ e, attemptResult (respondO 0 cached) = .ok (.failure e))
    (hlistO : ∀ i (h : i < (getAvailableOpenAIModels listingO).length), ∃ e,
      attemptResult (respondO (firstListAttempt (truthyStr st.cachedOpenAIModel) + i)
        (getAvailableOpenAIModels listingO)[i]) = .ok (.failure e)) :
    ((callGeminiAPI respondG listingG st).state.cachedWorkingModel = none ∧
      (callGeminiAPI respondG listingG st).state.availableModels = none ∧
      ∃ text, (callGeminiAPI respondG listingG st).result =
          .error (.error ("All Gemini models failed. Last error: ".toList ++ text)) ∧
        (geminiCandidates listingG st = [] → text = "null".toList) ∧
        (∀ init c e, geminiCandidates listingG st = init ++ [c] →
          attemptResult (respondG (firstListAttempt st.cachedWorkingModel.isSome + init.length) c)
            = .ok (.failure e) → text = e)) ∧
    ((callOpenAIAPI respondO listingO st).state.cachedOpenAIModel = none ∧
      ∃ text, (callOpenAIAPI respondO listingO st).result =
          .error (.error ("All OpenAI models failed. Last error: ".toList ++ text)) ∧
        (∀ init c e, getAvailableOpenAIModels listingO = init ++ [c] →
          attemptResult (respondO (firstListAttempt (truthyStr st.cachedOpenAIModel) +
            init.length) c) = .ok (.failure e) → text = e)) := by
  constructor
  · cases hc : st.cachedWorkingModel with
    | some cached =>
      obtain ⟨e, he⟩ := hcachedG cached hc
      rw [hc] at hlistG
      rw [callGeminiAPI_cached_failure respondG listingG st cached e hc he]
      obtain ⟨h1, h2, _, h4⟩ := geminiFallback_all_fail respondG listingG
        { st with cachedWorkingModel := none } 1 [cached] hlistG
      exact ⟨h1, h2, h4⟩
    | none =>
      rw [hc] at hlistG
      rw [callGeminiAPI_without_cache respondG listingG st hc]
      obtain ⟨h1, h2, _, h4⟩ := geminiFallback_all_fail respondG listingG
        { st with cachedWorkingModel := none } 0 [] hlistG
      exact ⟨h1, h2, h4⟩
  · cases ht : truthyStr st.cachedOpenAIModel with
    | true =>
      rw [ht] at hlistO
      cases hc : st.cachedOpenAIModel with
      | none => rw [hc] at ht; exact absurd ht (by decide)
      | some cached =>
        have hne : cached ≠ [] := by
          intro h
          rw [hc, h] at ht
          exact absurd ht (by decide)
        obtain ⟨e, he⟩ := hcachedO cached hc hne
        rw [callOpenAIAPI_cached_failure respondO listingO st cached e hc hne he]
        obtain ⟨h1, _, h3⟩ := openAIFallback_all_fail respondO listingO
          { st with cachedOpenAIModel := none } 1 [cached] hlistO
        exact ⟨h1, h3⟩
    | false =>
      rw [ht] at hlistO
      rw [callOpenAIAPI_without_cache respondO listingO st ht]
      obtain ⟨h1, _, h3⟩ := openAIFallback_all_fail respondO listingO st 0 [] hlistO
      exact ⟨h1, h3⟩

theorem all_models_fail_witness :
    (callGeminiAPI (fun _ _ => .http false (.value (some "quota".toList) none)) (fun _ => none)
      { cachedWorkingModel :=
          some { name := "gemini-1.5-pro".toList, version := "v1".toList, fullName := none },
        availableModels := some fallbackModels, cachedOpenAIModel := none }).state =
      { cachedWorkingModel := none, availableModels := none, cachedOpenAIModel := none } ∧
    (callGeminiAPI (fun _ _ => .http false (.value (some "quota".toList) none)) (fun _ => none)
      { cachedWorkingModel :=
          some { name := "gemini-1.5-pro".toList, version := "v1".toList, fullName := none },
        availableModels := some fallbackModels, cachedOpenAIModel := none }).result =
      .error (.error "All Gemini models failed. Last error: quota".toList) := by
  obtain ⟨⟨_, _, text, hres, _, hlast⟩, _⟩ := all_models_fail
    (fun _ _ => .http false (.value (some "quota".toList) none)) (fun _ => none)
    (fun _ _ => .http false (.value none none)) none
    { cachedWorkingModel :=
        some { name := "gemini-1.5-pro".toList, version := "v1".toList, fullName := none },
      availableModels := some fallbackModels, cachedOpenAIModel := none }
    (fun _ _ => ⟨"quota".toList, rfl⟩) (fun _ _ => ⟨"quota".toList, rfl⟩)
    (fun _ _ _ => ⟨"API request failed".toList, rfl⟩)
    (fun _ _ => ⟨"API request failed".toList, rfl⟩)
  have htext := hlast
    [{ name := "gemini-1.5-flash".toList, version := "v1".toList, fullName := none }]
    { name := "gemini-1.5-pro".toList, version := "v1".toList, fullName := none }
    "quota".toList rfl rfl
  subst htext
  exact ⟨rfl, hres⟩

/-! ## Instances of the amended statements -/

theorem request_parts_witness :
    geminiParts
        (fun u => if u = "https://x.test/b.png".toList then .blob "image/png".toList none
          else .blob "image/png".toList (some "data:image/png;base64,QUJD".toList))
        "What is shown?".toList
        [.url "https://x.test/a.png".toList, .url "https://x.test/b.png".toList,
         .url "https://x.test/c.png".toList] =
      [.text "What is shown?".toList,
       .inlineData "image/png".toList (some "QUJD".toList),
       .inlineData "image/png".toList (some "QUJD".toList)] :=
  (request_parts
    (fun u => if u = "https://x.test/b.png".toList then .blob "image/png".toList none
      else .blob "image/png".toList (some "data:image/png;base64,QUJD".toList))
    "What is shown?".toList
    [.url "https://x.test/a.png".toList, .url "https://x.test/b.png".toList,
     .url "https://x.test/c.png".toList]).1.trans (by decide)

theorem listed_models_are_cached_witness :
    getAvailableModels (fun _ => none)
        (getAvailableModels
          (fun _ => some [{ name := "models/gemini-2.0-flash".toList,
                            supportedGenerationMethods := some ["generateContent".toList] }])
          { cachedWorkingModel := none, availableModels := none,
            cachedOpenAIModel := none }).2.1 =
      ((getAvailableModels
          (fun _ => some [{ name := "models/gemini-2.0-flash".toList,
                            supportedGenerationMethods := some ["generateContent".toList] }])
          { cachedWorkingModel := none, availableModels := none,
            cachedOpenAIModel := none }).1,
       (getAvailableModels
          (fun _ => some [{ name := "models/gemini-2.0-flash".toList,
                            supportedGenerationMethods := some ["generateContent".toList] }])
          { cachedWorkingModel := none, availableModels := none,
            cachedOpenAIModel := none }).2.1,
       []) :=
  (listed_models_are_cached
    (fun _ => some [{ name := "models/gemini-2.0-flash".toList,
                      supportedGenerationMethods := some ["generateContent".toList] }])
    (fun _ => none)
    { cachedWorkingModel := none, availableModels := none, cachedOpenAIModel := none }).1
    (Or.inr (Or.inl rfl))

theorem extraction_options_and_kind_witness :
    (extractMSQuestion
      { title := some "Which one?".toList, firstImg := none,
        radios := [{ value := "Yes".toList,
                     parent := { textContent := "Yes".toList, checked := false } }],
        checkboxes := [], singleLineInput := false, input := some [],
        textarea := none }).options ≠ [] :=
  (extraction_options_and_kind
    { title := none, radioGroup := false, checkboxGroup := false, dropdown := false,
      labels := [], spans := [], textInput := none, textarea := none }
    { title := some "Which one?".toList, firstImg := none,
      radios := [{ value := "Yes".toList,
                   parent := { textContent := "Yes".toList, checked := false } }],
      checkboxes := [], singleLineInput := false, input := some [],
      textarea := none }).2.2 (Or.inl rfl)

/-! ## Theorems: the shape of the reconciliation result -/

/-- A matched answer is `null` or truthy: a non-empty string, or an array. -/
theorem matchedAnswer_null_or_truthy (toLowerCase : Str → Str) (q : QuestionData)
    (raw : Option Str) :
    matchedAnswer toLowerCase q raw = .null ∨
      (matchedAnswer toLowerCase q raw).truthy = true := by
  cases raw with
  | none => exact Or.inl rfl
  | some s =>
    cases s with
    | nil => exact Or.inl rfl
    | cons c cs =>
      right
      simp only [matchedAnswer, List.isEmpty_cons, Bool.false_eq_true, if_false]
      by_cases hopts : q.options = []
      · simp [matchAnswerToOptions, hopts, Answer.truthy, FormOption.truthy]
      · by_cases hm : q.type = .multi_ans
        · have hempty : q.options.isEmpty = false := by
            cases ho : q.options with
            | nil => exact absurd ho hopts
            | cons o os => rfl
          simp [matchAnswerToOptions, hm, hempty, Answer.truthy]
        · have hd : decide (q.type = .multi_ans) = false := by simp [hm]
          rw [hd, matchAnswerToOptions_single toLowerCase q.options (c :: cs) (by simp) hopts]
          have hne := matchExactOption_ne_nil toLowerCase (c :: cs) (q.options.map optionText)
            (by simp)
          cases hmatch : matchExactOption toLowerCase (c :: cs) (q.options.map optionText) with
          | nil => exact absurd hmatch hne
          | cons d ds => rfl

/-- The normal form of the matched answer of a question with options is a
string, so the reconciliation of such a question does not throw. -/
theorem normalize_matchedAnswer_str (toLowerCase : Str → Str) (q : QuestionData)
    (raw : Option Str) (hopts : q.options ≠ []) :
    ∃ s, normalizeForComparison (matchedAnswer toLowerCase q raw) = .str s := by
  by_cases hm : q.type = .multi_ans
  · exact normalize_matchedAnswer_multi toLowerCase q raw hm hopts
  · cases raw with
    | none => exact ⟨_, rfl⟩
    | some s =>
      cases s with
      | nil => exact ⟨_, rfl⟩
      | cons c cs =>
        have hd : decide (q.type = .multi_ans) = false := by simp [hm]
        simp only [matchedAnswer, List.isEmpty_cons, Bool.false_eq_true, if_false, hd]
        rw [matchAnswerToOptions_single toLowerCase q.options (c :: cs) (by simp) hopts]
        simp only [normalizeForComparison, textOrSelf]
        split <;> exact ⟨_, rfl⟩

/-- The reconciliation of a question with options returns: both matched
answers, whether their normal forms agree, and the final answer chosen by
lines 662-670. -/
theorem reconcile_choice (toLowerCase : Str → Str) (q : QuestionData)
    (gptAnswer geminiAnswer : Option Str) (hopts : q.options ≠ []) :
    ∃ agree : Bool, reconcile toLowerCase q gptAnswer geminiAnswer = .ok
      { finalAnswer :=
          if agree && (matchedAnswer toLowerCase q gptAnswer).truthy then
            matchedAnswer toLowerCase q geminiAnswer
          else (matchedAnswer toLowerCase q geminiAnswer).orElse
            (matchedAnswer toLowerCase q gptAnswer),
        gptMatchedAnswer := matchedAnswer toLowerCase q gptAnswer,
        geminiMatchedAnswer := matchedAnswer toLowerCase q geminiAnswer,
        answersMatch := agree } := by
  obtain ⟨s1, h1⟩ := normalize_matchedAnswer_str toLowerCase q gptAnswer hopts
  obtain ⟨s2, h2⟩ := normalize_matchedAnswer_str toLowerCase q geminiAnswer hopts
  have hlen : q.options.length > 0 := List.length_pos.mpr hopts
  refine ⟨decide (trim (toLowerCase s1) = trim (toLowerCase s2)), ?_⟩
  unfold reconcile
  simp only [hlen, if_true, h1, h2, lowerTrim]
  split <;> rfl

/-- The reconciliation of a question without options returns the first truthy
raw answer, Gemini's first, with no matched answers and no agreement. -/
theorem reconcile_nonChoice (toLowerCase : Str → Str) (q : QuestionData)
    (gptAnswer geminiAnswer : Option Str) (hopts : q.options = []) :
    reconcile toLowerCase q gptAnswer geminiAnswer = .ok
      { finalAnswer := (rawAnswer geminiAnswer).orElse (rawAnswer gptAnswer),
        gptMatchedAnswer := .null, geminiMatchedAnswer := .null, answersMatch := false } := by
  unfold reconcile
  simp [hopts]

/-- On an answer that is `null` or truthy, `getResponseTexts` lists the labels
of the answer. -/
theorem getResponseTexts_eq_answerLabels (a : Answer) (h : a = .null ∨ a.truthy = true) :
    getResponseTexts a = answerLabels a := by
  rcases h with h | h
  · subst h
    rfl
  · unfold getResponseTexts
    rw [h]
    cases a <;> rfl

/-- In a reconciliation result both matched answers are `null` or truthy, and
so is the final answer when `answersMatch` holds. -/
theorem reconcile_ok_inv (toLowerCase : Str → Str) (q : QuestionData)
    (gptAnswer geminiAnswer : Option Str) (r : Reconciliation)
    (h : reconcile toLowerCase q gptAnswer geminiAnswer = .ok r) :
    (r.gptMatchedAnswer = .null ∨ r.gptMatchedAnswer.truthy = true) ∧
    (r.geminiMatchedAnswer = .null ∨ r.geminiMatchedAnswer.truthy = true) ∧
    (r.answersMatch = true → r.finalAnswer = .null ∨ r.finalAnswer.truthy = true) := by
  by_cases hopts : q.options = []
  · rw [reconcile_nonChoice toLowerCase q gptAnswer geminiAnswer hopts] at h
    injection h with h
    subst h
    simp
  · obtain ⟨agree, ha⟩ := reconcile_choice toLowerCase q gptAnswer geminiAnswer hopts
    rw [ha] at h
    injection h with h
    subst h
    have hg := matchedAnswer_null_or_truthy toLowerCase q gptAnswer
    have hm := matchedAnswer_null_or_truthy toLowerCase q geminiAnswer
    refine ⟨hg, hm, fun _ => ?_⟩
    dsimp only
    split
    · exact hm
    · unfold Answer.orElse
      split
      · exact hm
      · exact hg

/-- On a reconciliation result, the target state the marking code computes is
the target state as the claim words it. -/
theorem targetState_eq_claimedTarget (toLowerCase : Str → Str) (q : QuestionData)
    (gptAnswer geminiAnswer : Option Str) (r : Reconciliation)
    (h : reconcile toLowerCase q gptAnswer geminiAnswer = .ok r)
    (optionTexts : List Str) (idx : Nat) :
    targetState r optionTexts idx = claimedTarget r optionTexts idx := by
  obtain ⟨h1, h2, h3⟩ := reconcile_ok_inv toLowerCase q gptAnswer geminiAnswer r h
  unfold targetState claimedTarget
  rw [getResponseTexts_eq_answerLabels _ h1, getResponseTexts_eq_answerLabels _ h2]
  cases hm : r.answersMatch with
  | false =>
    cases optionTexts[idx]? <;> simp [includesText]
  | true =>
    have h4 := h3 hm
    rw [getResponseTexts_eq_answerLabels _ h4]
    rcases h4 with h4 | h4
    · rw [h4]
      cases optionTexts[idx]? <;> simp [includesText, Answer.truthy]
    · have hne : r.finalAnswer ≠ .null := by
        intro hnull
        rw [hnull] at h4
        exact absurd h4 (by decide)
      cases optionTexts[idx]? <;> simp [includesText, h4, hne]

/-! ## Theorems: which labels the marking step of `scrapeGoogleForm` clicks -/

/-- C21: in the marking step of `scrapeGoogleForm` for a single_ans or
multi_ans question, on the result `r` of the reconciliation, the label at index
`idx` is clicked exactly when its current checked state differs from its target
state, where the target is: in the agree case (`answersMatch` and a final
answer that is not `null`) the option text is one of the final answer's labels,
otherwise the option text is in either provider's matched answer.  So one
iteration over a label that is already in its target state clicks nothing and
leaves the page as it is, and any other iteration clicks that label once. -/
theorem label_clicked_iff_differs (toLowerCase : Str → Str)
    (click : Nat → List Bool → List Bool) (q : QuestionData)
    (gptAnswer geminiAnswer : Option Str) (r : Reconciliation)
    (h : reconcile toLowerCase q gptAnswer geminiAnswer = .ok r) :
    (∀ idx checked, labelClicked r (q.options.map optionText) idx checked = true ↔
      checked ≠ claimedTarget r (q.options.map optionText) idx) ∧
    (∀ st idx, markLabelStep click r (q.options.map optionText) st idx =
      if st.checked.getD idx false = claimedTarget r (q.options.map optionText) idx then st
      else { checked := click idx st.checked, clicks := st.clicks ++ [idx] }) := by
  have ht := targetState_eq_claimedTarget toLowerCase q gptAnswer geminiAnswer r h
    (q.options.map optionText)
  constructor
  · intro idx checked
    rw [labelClicked_eq, ht idx]
    cases checked <;> cases claimedTarget r (q.options.map optionText) idx <;> decide
  · intro st idx
    unfold markLabelStep
    rw [labelClicked_eq, ht idx]
    cases st.checked.getD idx false <;>
      cases claimedTarget r (q.options.map optionText) idx <;> rfl

theorem label_clicked_iff_differs_witness :
    reconcile toLowerCaseAscii
        { question := "Capital of France?".toList, type := .single_ans,
          options := [.str "Paris".toList, .str "London".toList] }
        (some "Paris".toList) (some "paris".toList) =
      .ok { finalAnswer := .one (.str "Paris".toList),
            gptMatchedAnswer := .one (.str "Paris".toList),
            geminiMatchedAnswer := .one (.str "Paris".toList), answersMatch := true } ∧
    (labelClicked
        { finalAnswer := .one (.str "Paris".toList),
          gptMatchedAnswer := .one (.str "Paris".toList),
          geminiMatchedAnswer := .one (.str "Paris".toList), answersMatch := true }
        ["Paris".toList, "London".toList] 0 true = true ↔
      true ≠ claimedTarget
        { finalAnswer := .one (.str "Paris".toList),
          gptMatchedAnswer := .one (.str "Paris".toList),
          geminiMatchedAnswer := .one (.str "Paris".toList), answersMatch := true }
        ["Paris".toList, "London".toList] 0) ∧
    claimedTarget
        { finalAnswer := .one (.str "Paris".toList),
          gptMatchedAnswer := .one (.str "Paris".toList),
          geminiMatchedAnswer := .one (.str "Paris".toList), answersMatch := true }
        ["Paris".toList, "London".toList] 0 = true :=
  ⟨rfl,
   (label_clicked_iff_differs toLowerCaseAscii toggleClick
      { question := "Capital of France?".toList, type := .single_ans,
        options := [.str "Paris".toList, .str "London".toList] }
      (some "Paris".toList) (some "paris".toList) _ rfl).1 0 true,
   by decide⟩

/-! ## Theorems: the final answer of a question with options -/

/-- C25: for a question with options the reconciliation returns, and in both
the agree and the disagree case the final answer is Gemini's matched answer
whenever that one is not `null`; the final answer differs from Gemini's matched
answer only when Gemini's is `null`, and is then the GPT matched answer; and
whenever `answersMatch` holds the final answer is Gemini's matched answer,
whatever the GPT matched answer looks like. -/
theorem choice_final_prefers_gemini (toLowerCase : Str → Str) (q : QuestionData)
    (gptAnswer geminiAnswer : Option Str) (hopts : q.options ≠ []) :
    ∃ r, reconcile toLowerCase q gptAnswer geminiAnswer = .ok r ∧
      r.gptMatchedAnswer = matchedAnswer toLowerCase q gptAnswer ∧
      r.geminiMatchedAnswer = matchedAnswer toLowerCase q geminiAnswer ∧
      (r.geminiMatchedAnswer ≠ .null → r.finalAnswer = r.geminiMatchedAnswer) ∧
      (r.finalAnswer ≠ r.geminiMatchedAnswer →
        r.geminiMatchedAnswer = .null ∧ r.finalAnswer = r.gptMatchedAnswer) ∧
      (r.answersMatch = true → r.finalAnswer = r.geminiMatchedAnswer) := by
  obtain ⟨agree, ha⟩ := reconcile_choice toLowerCase q gptAnswer geminiAnswer hopts
  have hg := matchedAnswer_null_or_truthy toLowerCase q gptAnswer
  have hm := matchedAnswer_null_or_truthy toLowerCase q geminiAnswer
  refine ⟨_, ha, rfl, rfl, ?_, ?_, ?_⟩
  · intro hne
    dsimp only at hne ⊢
    have ht : (matchedAnswer toLowerCase q geminiAnswer).truthy = true := by
      rcases hm with hm | hm
      · exact absurd hm hne
      · exact hm
    split
    · rfl
    · simp [Answer.orElse, ht]
  · dsimp only
    split
    · intro hne
      exact absurd rfl hne
    · intro hne
      rcases hm with hm | hm
      · refine ⟨hm, ?_⟩
        simp [Answer.orElse, hm, Answer.truthy]
      · exact absurd (by simp [Answer.orElse, hm]) hne
  · intro hagree
    dsimp only at hagree ⊢
    subst hagree
    rcases hg with hg | hg
    · rcases hm with hm | hm
      · simp [hg, hm, Answer.orElse, Answer.truthy]
      · simp only [Answer.orElse, hm, if_true, ite_self]
    · simp [hg]

theorem choice_final_prefers_gemini_witness :
    ∃ r, reconcile toLowerCaseAscii
        { question := "Colours".toList, type := .multi_ans,
          options := [.str "Red".toList, .str "Green".toList, .str "Blue".toList] }
        (some "Red, Green".toList) (some "green, red".toList) = .ok r ∧
      r.gptMatchedAnswer = .arr [.str "Red".toList, .str "Green".toList] ∧
      r.geminiMatchedAnswer = .arr [.str "Green".toList, .str "Red".toList] ∧
      r.answersMatch = true ∧
      r.finalAnswer = .arr [.str "Green".toList, .str "Red".toList] := by
  obtain ⟨r, hr, hg, hm, hfinal, _, _⟩ := choice_final_prefers_gemini toLowerCaseAscii
    { question := "Colours".toList, type := .multi_ans,
      options := [.str "Red".toList, .str "Green".toList, .str "Blue".toList] }
    (some "Red, Green".toList) (some "green, red".toList) (by decide)
  have hm2 : r.geminiMatchedAnswer = .arr [.str "Green".toList, .str "Red".toList] :=
    hm.trans (by decide)
  refine ⟨r, hr, hg.trans (by decide), hm2, ?_, ?_⟩
  · have hr2 : reconcile toLowerCaseAscii
        { question := "Colours".toList, type := .multi_ans,
          options := [.str "Red".toList, .str "Green".toList, .str "Blue".toList] }
        (some "Red, Green".toList) (some "green, red".toList) =
        .ok { finalAnswer := .arr [.str "Green".toList, .str "Red".toList],
              gptMatchedAnswer := .arr [.str "Red".toList, .str "Green".toList],
              geminiMatchedAnswer := .arr [.str "Green".toList, .str "Red".toList],
              answersMatch := true } := rfl
    rw [hr2] at hr
    injection hr with hr
    rw [← hr]
  · rw [hfinal (by rw [hm2]; simp), hm2]

/-! ## Theorems: single_ans marking in `scrapeMSForm` -/

/-- C22 (fails on the code): a single_ans question of the second form with the
options London, Berlin and Paris, both providers answering Paris, and the radio
of Paris checked beforehand: the answers agree, and the iteration clicks the
radio of Paris although its checked state is its target state, whatever the
page does on a click.  With the options 10 and 100 and both providers answering
10, on a page that keeps the text of the options, the radio of 100, which is
not the agreed answer, is clicked as well, since its text contains "10". -/
theorem ms_single_agree_clicks_checked_option
    (click : Nat → List ChoiceNode → List ChoiceNode) :
    msQuestionStep toLowerCaseAscii click
        { data := { question := "Capital of France?".toList, type := .single_ans,
                    options := [.str "London".toList, .str "Berlin".toList,
                      .str "Paris".toList] },
          dom := { radios := [{ textContent := "London".toList, checked := false },
                              { textContent := "Berlin".toList, checked := false },
                              { textContent := "Paris".toList, checked := true }],
                   checkboxes := [], input := none, textarea := none },
          gptAnswer := some "paris".toList, geminiAnswer := some "Paris".toList } =
      .ok ({ radios := click 2 [{ textContent := "London".toList, checked := false },
                                { textContent := "Berlin".toList, checked := false },
                                { textContent := "Paris".toList, checked := true }],
             checkboxes := [], input := none, textarea := none },
           [.click 2]) ∧
    (∃ dom, msQuestionStep toLowerCaseAscii toggleChoice
        { data := { question := "5 + 5 = ?".toList, type := .single_ans,
                    options := [.str "10".toList, .str "100".toList] },
          dom := { radios := [{ textContent := "10".toList, checked := false },
                              { textContent := "100".toList, checked := false }],
                   checkboxes := [], input := none, textarea := none },
          gptAnswer := some "10".toList, geminiAnswer := some "10".toList } =
      .ok (dom, [.click 0, .click 1])) := by
  constructor
  · rfl
  · exact ⟨_, rfl⟩

/-! ## Theorems: text answers (lines 765-786 and 1227-1249) -/

/-- The text branch on a non-empty text: the text is assigned, the control
holds what it makes of it, with one input event between the focus and the
blur. -/
theorem fillTextControl_text (sanitize : Str → Str) (s old : Str) (hs : s ≠ []) :
    fillTextControl sanitize (.one (.str s)) (some old) =
      .ok (some (sanitize s), [.focus, .setValue s, .inputEvent, .blur]) := by
  cases s with
  | nil => exact absurd rfl hs
  | cons c cs => rfl

/-- A single-line text field keeps a text without line breaks as it is. -/
theorem stripNewlines_eq_self (s : Str) (h : ∀ c ∈ s, c.toNat ≠ 10 ∧ c.toNat ≠ 13) :
    stripNewlines s = s := by
  unfold stripNewlines
  rw [List.filter_eq_self]
  intro c hc
  obtain ⟨h1, h2⟩ := h c hc
  simp [h1, h2]

/-- A `textarea` keeps a text without carriage returns as it is. -/
theorem normalizeNewlines_eq_self : ∀ (s : Str), (∀ c ∈ s, c.toNat ≠ 13) →
    normalizeNewlines s = s
  | [], _ => rfl
  | c :: rest, h => by
    have hc : c.toNat ≠ 13 := h c (List.mem_cons_self c rest)
    have hrest := normalizeNewlines_eq_self rest fun d hd => h d (List.mem_cons_of_mem c hd)
    simp only [normalizeNewlines, hc, if_false, hrest]

/-- C23 (as stated, refuted): a short_answer question of the first form whose
final answer is the non-empty text made of "line1", a line feed and "line2".
The apply step assigns that text to the text field, and the field, which is
single-line, then holds "line1line2": the value is not exactly the answer. -/
theorem line_break_is_stripped_from_text_input :
    googleApplyAnswer toggleClick
        { question := "Describe".toList, type := .short_answer, options := [] }
        { finalAnswer := .one (.str ("line1".toList ++ [Char.ofNat 10] ++ "line2".toList)),
          gptMatchedAnswer := .null, geminiMatchedAnswer := .null, answersMatch := false }
        { labels := [], textInput := some [], textarea := none } 0 =
      .ok ({ labels := [], textInput := some "line1line2".toList, textarea := none },
           [.focus, .setValue ("line1".toList ++ [Char.ofNat 10] ++ "line2".toList), .inputEvent,
            .blur], 0) ∧
    "line1line2".toList ≠ "line1".toList ++ [Char.ofNat 10] ++ "line2".toList :=
  ⟨rfl, by decide⟩

/-- C23 (amended): for a short_answer or long_answer question whose final
answer is a non-empty text `s`, the apply step of either adapter, on a page
that holds the text control, assigns `s` to the value of the control and
dispatches exactly one input event on it, after a focus and before a blur, and
nothing else.  The control then holds `s` without its line feeds and carriage
returns when it is the single-line field of a short_answer question, and `s`
with its line breaks normalised when it is the `textarea` of a long_answer
question; so it holds exactly `s` when `s` has no line break (no carriage
return, for a `textarea`).  When the final answer is absent (`null`, or the
empty string), the text branch of either adapter leaves the value of the
control as it is and dispatches no event: the apply step of `scrapeGoogleForm`
returns the page unchanged with no effect, and so does the one of
`scrapeMSForm` on the empty string, while on `null` the iteration of
`scrapeMSForm` throws at line 1111, before any effect on the page. -/
theorem text_answer_fills_control (clickG : Nat → List Bool → List Bool)
    (clickM : Nat → List ChoiceNode → List ChoiceNode) (q : QuestionData) (r : Reconciliation)
    (gdom : GoogleQuestionDom) (mdom : MSQuestionDom) (cntr : Nat)
    (htype : q.type = .short_answer ∨ q.type = .long_answer) :
    (∀ s old : Str, s ≠ [] → r.finalAnswer = .one (.str s) →
      (q.type = .short_answer → gdom.textInput = some old →
        googleApplyAnswer clickG q r gdom cntr =
          .ok ({ gdom with textInput := some (stripNewlines s) },
               [.focus, .setValue s, .inputEvent, .blur], cntr)) ∧
      (q.type = .long_answer → gdom.textarea = some old →
        googleApplyAnswer clickG q r gdom cntr =
          .ok ({ gdom with textarea := some (normalizeNewlines s) },
               [.focus, .setValue s, .inputEvent, .blur], cntr)) ∧
      (q.type = .short_answer → mdom.input = some old →
        msApplyAnswer clickM q r mdom =
          .ok ({ mdom with input := some (stripNewlines s) },
               [.focus, .setValue s, .inputEvent, .blur])) ∧
      (q.type = .long_answer → mdom.textarea = some old →
        msApplyAnswer clickM q r mdom =
          .ok ({ mdom with textarea := some (normalizeNewlines s) },
               [.focus, .setValue s, .inputEvent, .blur]))) ∧
    (∀ s : Str, (∀ c ∈ s, c.toNat ≠ 10 ∧ c.toNat ≠ 13) → stripNewlines s = s) ∧
    (∀ s : Str, (∀ c ∈ s, c.toNat ≠ 13) → normalizeNewlines s = s) ∧
    (r.finalAnswer.truthy = false →
      (∀ sanitize control,
        fillTextControl sanitize r.finalAnswer control = .ok (control, [])) ∧
      googleApplyAnswer clickG q r gdom cntr = .ok (gdom, [], cntr) ∧
      (r.finalAnswer = .null → msApplyAnswer clickM q r mdom = .error .nullText) ∧
      (r.finalAnswer ≠ .null → msApplyAnswer clickM q r mdom = .ok (mdom, []))) := by
  refine ⟨?_, stripNewlines_eq_self, normalizeNewlines_eq_self, ?_⟩
  · intro s old hs hfinal
    have hfill := fun sanitize => fillTextControl_text sanitize s old hs
    refine ⟨?_, ?_, ?_, ?_⟩
    · intro ht hc
      simp only [googleApplyAnswer, ht, hfinal, hc, hfill]
    · intro ht hc
      simp only [googleApplyAnswer, ht, hfinal, hc, hfill]
    · intro ht hc
      simp only [msApplyAnswer, ht, hfinal, hc, hfill, responseTextOf]
    · intro ht hc
      simp only [msApplyAnswer, ht, hfinal, hc, hfill, responseTextOf]
  · intro hfalsy
    have hfill : ∀ sanitize control,
        fillTextControl sanitize r.finalAnswer control = .ok (control, []) := by
      intro sanitize control
      simp only [fillTextControl, hfalsy, Bool.false_eq_true, if_false]
    refine ⟨hfill, ?_, ?_, ?_⟩
    · rcases htype with ht | ht
      · simp only [googleApplyAnswer, ht, hfill]
      · simp only [googleApplyAnswer, ht, hfill]
    · intro hnull
      simp only [msApplyAnswer, hnull, responseTextOf]
    · intro hne
      cases hfinal : r.finalAnswer with
      | null => exact absurd hfinal hne
      | arr items =>
        rw [hfinal] at hfalsy
        simp [Answer.truthy] at hfalsy
      | one v =>
        have hfill2 := hfill
        rw [hfinal] at hfill2
        rcases htype with ht | ht
        · simp only [msApplyAnswer, hfinal, responseTextOf, ht, hfill2]
        · simp only [msApplyAnswer, hfinal, responseTextOf, ht, hfill2]

theorem text_answer_fills_control_witness :
    googleApplyAnswer toggleClick
        { question := "6 x 7 = ?".toList, type := .short_answer, options := [] }
        { finalAnswer := .one (.str "42".toList), gptMatchedAnswer := .null,
          geminiMatchedAnswer := .null, answersMatch := false }
        { labels := [], textInput := some [], textarea := none } 0 =
      .ok ({ labels := [], textInput := some "42".toList, textarea := none },
           [.focus, .setValue "42".toList, .inputEvent, .blur], 0) ∧
    msApplyAnswer toggleChoice
        { question := "6 x 7 = ?".toList, type := .short_answer, options := [] }
        { finalAnswer := .one (.str "42".toList), gptMatchedAnswer := .null,
          geminiMatchedAnswer := .null, answersMatch := false }
        { radios := [], checkboxes := [], input := some [], textarea := none } =
      .ok ({ radios := [], checkboxes := [], input := some "42".toList, textarea := none },
           [.focus, .setValue "42".toList, .inputEvent, .blur]) :=
  have h := text_answer_fills_control toggleClick toggleChoice
    { question := "6 x 7 = ?".toList, type := .short_answer, options := [] }
    { finalAnswer := .one (.str "42".toList), gptMatchedAnswer := .null,
      geminiMatchedAnswer := .null, answersMatch := false }
    { labels := [], textInput := some [], textarea := none }
    { radios := [], checkboxes := [], input := some [], textarea := none } 0
    (Or.inl rfl)
  have hvalue : stripNewlines "42".toList = "42".toList := h.2.1 "42".toList (by decide)
  have hset := h.1 "42".toList [] (by decide) rfl
  ⟨(hset.1 rfl rfl).trans (by rw [hvalue]), (hset.2.2.1 rfl rfl).trans (by rw [hvalue])⟩

/-! ## Theorems: the status delivered by the message listener -/

/-- The message of an exception of the loop is not the empty string. -/
theorem message_ne_empty (e : JSError) : e.message ≠ "" := by
  cases e <;> decide

/-- The message returned when a key is missing is not the empty string. -/
theorem missingKeysMessage_ne_empty (settings : Settings) : missingKeysMessage settings ≠ "" := by
  unfold missingKeysMessage
  cases keyMissing settings.openaiApiKey <;> cases keyMissing settings.geminiApiKey <;> decide

/-- The loop of `scrapeGoogleForm` completes when every iteration returns, and
its `try` block then ends with "Script executed". -/
theorem scrapeGoogleFormLoop_completes (toLowerCase : Str → Str)
    (click : Nat → List Bool → List Bool) :
    ∀ (questions : List GooglePageQuestion) (cntr : Nat)
      (done : List (GoogleQuestionDom × List DomEvent)),
      (∀ q ∈ questions, ∀ c, ∃ out, googleQuestionStep toLowerCase click q c = .ok out) →
      (scrapeGoogleFormLoop toLowerCase click questions cntr done).status = "Script executed"
  | [], _, _, _ => rfl
  | q :: rest, cntr, done, h => by
    obtain ⟨out, hout⟩ := h q (List.mem_cons_self q rest) cntr
    obtain ⟨dom, events, cntr1⟩ := out
    unfold scrapeGoogleFormLoop
    rw [hout]
    exact scrapeGoogleFormLoop_completes toLowerCase click rest cntr1 (done ++ [(dom, events)])
      fun p hp => h p (List.mem_cons_of_mem q hp)

/-- When the iterations before a question return and the iteration of that
question throws, the `catch` block of `scrapeGoogleForm` ends with the message
of that exception. -/
theorem scrapeGoogleFormLoop_escapes (toLowerCase : Str → Str)
    (click : Nat → List Bool → List Bool) (q : GooglePageQuestion)
    (post : List GooglePageQuestion) (e : JSError)
    (hq : ∀ c, googleQuestionStep toLowerCase click q c = .error e) :
    ∀ (pre : List GooglePageQuestion) (cntr : Nat)
      (done : List (GoogleQuestionDom × List DomEvent)),
      (∀ p ∈ pre, ∀ c, ∃ out, googleQuestionStep toLowerCase click p c = .ok out) →
      (scrapeGoogleFormLoop toLowerCase click (pre ++ q :: post) cntr done).status = e.message
  | [], cntr, done, _ => by
    rw [List.nil_append]
    unfold scrapeGoogleFormLoop
    rw [hq cntr]
  | p :: pre, cntr, done, h => by
    obtain ⟨out, hout⟩ := h p (List.mem_cons_self p pre) cntr
    obtain ⟨dom, events, cntr1⟩ := out
    rw [List.cons_append]
    unfold scrapeGoogleFormLoop
    rw [hout]
    exact scrapeGoogleFormLoop_escapes toLowerCase click q post e hq pre cntr1
      (done ++ [(dom, events)]) fun p1 hp => h p1 (List.mem_cons_of_mem p hp)

/-- The loop of `scrapeMSForm` completes when every iteration returns, and its
`try` block then ends with "Script executed". -/
theorem scrapeMSFormLoop_completes (toLowerCase : Str → Str)
    (click : Nat → List ChoiceNode → List ChoiceNode) :
    ∀ (questions : List MSQuestion) (done : List (MSQuestionDom × List DomEvent)),
      (∀ q ∈ questions, ∃ out, msQuestionStep toLowerCase click q = .ok out) →
      (scrapeMSFormLoop toLowerCase click questions done).status = "Script executed"
  | [], _, _ => rfl
  | q :: rest, done, h => by
    obtain ⟨out, hout⟩ := h q (List.mem_cons_self q rest)
    unfold scrapeMSFormLoop
    rw [hout]
    exact scrapeMSFormLoop_completes toLowerCase click rest (done ++ [out])
      fun p hp => h p (List.mem_cons_of_mem q hp)

/-- When the iterations before a question return and the iteration of that
question throws, the `catch` block of `scrapeMSForm` ends with the message of
that exception. -/
theorem scrapeMSFormLoop_escapes (toLowerCase : Str → Str)
    (click : Nat → List ChoiceNode → List ChoiceNode) (q : MSQuestion)
    (post : List MSQuestion) (e : JSError)
    (hq : msQuestionStep toLowerCase click q = .error e) :
    ∀ (pre : List MSQuestion) (done : List (MSQuestionDom × List DomEvent)),
      (∀ p ∈ pre, ∃ out, msQuestionStep toLowerCase click p = .ok out) →
      (scrapeMSFormLoop toLowerCase click (pre ++ q :: post) done).status = e.message
  | [], done, _ => by
    rw [List.nil_append]
    unfold scrapeMSFormLoop
    rw [hq]
  | p :: pre, done, h => by
    obtain ⟨out, hout⟩ := h p (List.mem_cons_self p pre)
    rw [List.cons_append]
    unfold scrapeMSFormLoop
    rw [hout]
    exact scrapeMSFormLoop_escapes toLowerCase click q post e hq pre (done ++ [out])
      fun p1 hp => h p1 (List.mem_cons_of_mem p hp)

/-- The string the loop of `scrapeGoogleForm` ends with is not empty. -/
theorem scrapeGoogleFormLoop_status_ne_empty (toLowerCase : Str → Str)
    (click : Nat → List Bool → List Bool) :
    ∀ (questions : List GooglePageQuestion) (cntr : Nat)
      (done : List (GoogleQuestionDom × List DomEvent)),
      (scrapeGoogleFormLoop toLowerCase click questions cntr done).status ≠ ""
  | [], _, _ => by
    unfold scrapeGoogleFormLoop
    dsimp only
    decide
  | q :: rest, cntr, done => by
    unfold scrapeGoogleFormLoop
    cases hstep : googleQuestionStep toLowerCase click q cntr with
    | error e => exact message_ne_empty e
    | ok res =>
      obtain ⟨dom, events, cntr1⟩ := res
      exact scrapeGoogleFormLoop_status_ne_empty toLowerCase click rest cntr1
        (done ++ [(dom, events)])

/-- The string the loop of `scrapeMSForm` ends with is not empty. -/
theorem scrapeMSFormLoop_status_ne_empty (toLowerCase : Str → Str)
    (click : Nat → List ChoiceNode → List ChoiceNode) :
    ∀ (questions : List MSQuestion) (done : List (MSQuestionDom × List DomEvent)),
      (scrapeMSFormLoop toLowerCase click questions done).status ≠ ""
  | [], _ => by
    unfold scrapeMSFormLoop
    dsimp only
    decide
  | q :: rest, done => by
    unfold scrapeMSFormLoop
    cases hstep : msQuestionStep toLowerCase click q with
    | error e => exact message_ne_empty e
    | ok res => exact scrapeMSFormLoop_status_ne_empty toLowerCase click rest (done ++ [res])

/-- On a page that holds the solve button, with both keys set, the status
delivered is the string the loop ends with: "Script executed" when it
completes, the message of the exception that escaped otherwise (lemmas
`scrapeGoogleFormLoop_completes`, `scrapeGoogleFormLoop_escapes` and their
counterparts for `scrapeMSForm`). -/
theorem runScript_status_with_button (toLowerCase : Str → Str)
    (clickLabel : Nat → List Bool → List Bool)
    (clickChoice : Nat → List ChoiceNode → List ChoiceNode)
    (settings : Settings) (button : SolveButton)
    (googleQuestions : List GooglePageQuestion) (msQuestions : List MSPageQuestion)
    (ho : keyMissing settings.openaiApiKey = false)
    (hg : keyMissing settings.geminiApiKey = false) :
    runScriptGform toLowerCase clickLabel settings (some button) googleQuestions =
      (scrapeGoogleFormLoop toLowerCase clickLabel googleQuestions 0 []).status ∧
    runScriptMsform toLowerCase clickChoice settings (some button) msQuestions =
      (scrapeMSFormLoop toLowerCase clickChoice
        (msQuestions.map MSPageQuestion.toQuestion) []).status := by
  have h1 := scrapeGoogleFormLoop_status_ne_empty toLowerCase clickLabel googleQuestions 0 []
  have h2 := scrapeMSFormLoop_status_ne_empty toLowerCase clickChoice
    (msQuestions.map MSPageQuestion.toQuestion) []
  constructor
  · simp only [runScriptGform, scrapeGoogleForm, ho, hg, Bool.or_self, Bool.false_eq_true,
      if_false, Option.map_some', deliveredStatus, h1]
  · simp only [runScriptMsform, scrapeMSForm, ho, hg, Bool.or_self, Bool.false_eq_true,
      if_false, Option.map_some', deliveredStatus, h2]

/-- When a key is missing the status delivered is the missing-key message, with
or without the solve button. -/
theorem runScript_status_missing_key (toLowerCase : Str → Str)
    (clickLabel : Nat → List Bool → List Bool)
    (clickChoice : Nat → List ChoiceNode → List ChoiceNode)
    (settings : Settings) (solveButton : Option SolveButton)
    (googleQuestions : List GooglePageQuestion) (msQuestions : List MSPageQuestion)
    (hmissing : keyMissing settings.openaiApiKey = true ∨
      keyMissing settings.geminiApiKey = true) :
    runScriptGform toLowerCase clickLabel settings solveButton googleQuestions =
      missingKeysMessage settings ∧
    runScriptMsform toLowerCase clickChoice settings solveButton msQuestions =
      missingKeysMessage settings := by
  have hcond : (keyMissing settings.openaiApiKey || keyMissing settings.geminiApiKey) = true := by
    rcases hmissing with h | h <;> simp [h]
  have hne := missingKeysMessage_ne_empty settings
  constructor
  · simp only [runScriptGform, scrapeGoogleForm, hcond, if_true, deliveredStatus, hne, if_false]
  · simp only [runScriptMsform, scrapeMSForm, hcond, if_true, deliveredStatus, hne, if_false]

/-- On a page without the solve button, with both keys set, the status
delivered is the message of the `TypeError` thrown while the button is
re-enabled, whatever the form holds and however the loop ended. -/
theorem runScript_status_without_button (toLowerCase : Str → Str)
    (clickLabel : Nat → List Bool → List Bool)
    (clickChoice : Nat → List ChoiceNode → List ChoiceNode)
    (settings : Settings)
    (googleQuestions : List GooglePageQuestion) (msQuestions : List MSPageQuestion)
    (ho : keyMissing settings.openaiApiKey = false)
    (hg : keyMissing settings.geminiApiKey = false) :
    runScriptGform toLowerCase clickLabel settings none googleQuestions =
      "Cannot set properties of null (setting 'disabled')" ∧
    runScriptMsform toLowerCase clickChoice settings none msQuestions =
      "Cannot set properties of null (setting 'disabled')" := by
  constructor
  · simp only [runScriptGform, scrapeGoogleForm, ho, hg, Bool.or_self, Bool.false_eq_true,
      if_false, Option.map_none', deliveredStatus, JSError.message]
    decide
  · simp only [runScriptMsform, scrapeMSForm, ho, hg, Bool.or_self, Bool.false_eq_true,
      if_false, Option.map_none', deliveredStatus, JSError.message]
    decide

/-- C24 (fails on the code): a page without the solve button, both keys set.
For a form of the first kind with one single_ans question that both providers
answer with Paris, the loop completes, yet the status delivered for
runScript-gform is the message of the `TypeError` thrown while the button is
re-enabled, not "Script executed", which is what the same run delivers on a
page with the button.  For a form of the second kind whose question gets no
answer from either provider, the exception that escapes the loop has the
message "Cannot read properties of null (reading 'text')", which is delivered
on a page with the button, while without the button the status delivered for
runScript-msform is again the message of the second `TypeError`. -/
theorem status_without_solve_button :
    runScriptGform toLowerCaseAscii toggleClick
        { openaiApiKey := some "sk-key".toList, geminiApiKey := some "AIza-key".toList }
        none
        [{ node := { title := some "Capital of France?".toList, radioGroup := true,
                     checkboxGroup := false, dropdown := false,
                     labels := [{ textContent := "Paris".toList, img := none, checked := false }],
                     spans := [], textInput := none, textarea := none },
           gptAnswer := some "Paris".toList, geminiAnswer := some "Paris".toList }] =
      "Cannot set properties of null (setting 'disabled')" ∧
    runScriptGform toLowerCaseAscii toggleClick
        { openaiApiKey := some "sk-key".toList, geminiApiKey := some "AIza-key".toList }
        (some { disabled := false, textContent := "AI Solve" })
        [{ node := { title := some "Capital of France?".toList, radioGroup := true,
                     checkboxGroup := false, dropdown := false,
                     labels := [{ textContent := "Paris".toList, img := none, checked := false }],
                     spans := [], textInput := none, textarea := none },
           gptAnswer := some "Paris".toList, geminiAnswer := some "Paris".toList }] =
      "Script executed" ∧
    runScriptMsform toLowerCaseAscii toggleChoice
        { openaiApiKey := some "sk-key".toList, geminiApiKey := some "AIza-key".toList }
        none
        [{ node := { title := some "Your name".toList, firstImg := none, radios := [],
                     checkboxes := [], singleLineInput := true, input := some [],
                     textarea := none },
           gptAnswer := none, geminiAnswer := none }] =
      "Cannot set properties of null (setting 'disabled')" ∧
    runScriptMsform toLowerCaseAscii toggleChoice
        { openaiApiKey := some "sk-key".toList, geminiApiKey := some "AIza-key".toList }
        (some { disabled := false, textContent := "AI Solve" })
        [{ node := { title := some "Your name".toList, firstImg := none, radios := [],
                     checkboxes := [], singleLineInput := true, input := some [],
                     textarea := none },
           gptAnswer := none, geminiAnswer := none }] =
      "Cannot read properties of null (reading 'text')" := by
  refine ⟨by decide, by decide, by decide, by decide⟩

/-! ## Theorems: how many requests one call makes -/

/-- The loop over the candidates only adds attempts. -/
theorem tryCandidates_attempts_extend {μ : Type}
    (tryModel : Response → μ → ProviderState → ProviderState × Except ApiError TryResult)
    (respond : Nat → μ → Response) :
    ∀ (l : List μ) (n : Nat) (st : ProviderState) (last : Option Str) (attempts : List μ),
      ∃ more, (tryCandidates tryModel respond l n st last attempts).2.1 = attempts ++ more
  | [], _, _, _, attempts => ⟨[], by simp [tryCandidates]⟩
  | x :: xs, n, st, last, attempts => by
    unfold tryCandidates
    split
    · exact ⟨[x], rfl⟩
    · exact ⟨[x], rfl⟩
    · next st1 error _ =>
      obtain ⟨more, hmore⟩ := tryCandidates_attempts_extend tryModel respond xs (n + 1) st1
        (some error) (attempts ++ [x])
      exact ⟨x :: more, by rw [hmore]; simp⟩

/-- After candidates that all return a failure, the next candidate of the list
is attempted, whatever its own attempt gives. -/
theorem tryCandidates_reaches {μ : Type}
    (tryModel : Response → μ → ProviderState → ProviderState × Except ApiError TryResult)
    (cache : μ → ProviderState → ProviderState)
    (htm : ∀ r m s, tryModel r m s = tryModelWith (cache m) r s)
    (respond : Nat → μ → Response) :
    ∀ (pre : List μ) (c : μ) (post : List μ) (n : Nat) (st : ProviderState)
      (last : Option Str) (attempts : List μ),
      (∀ i (h : i < pre.length), ∃ e, attemptResult (respond (n + i) pre[i]) = .ok (.failure e)) →
      ∃ more, (tryCandidates tryModel respond (pre ++ c :: post) n st last attempts).2.1 =
        attempts ++ pre ++ c :: more
  | [], c, post, n, st, last, attempts, _ => by
    simp only [List.nil_append, List.append_nil]
    unfold tryCandidates
    split
    · exact ⟨[], rfl⟩
    · exact ⟨[], rfl⟩
    · next st1 error _ =>
      obtain ⟨more, hmore⟩ := tryCandidates_attempts_extend tryModel respond post (n + 1) st1
        (some error) (attempts ++ [c])
      exact ⟨more, by rw [hmore]; simp⟩
  | x :: xs, c, post, n, st, last, attempts, hpre => by
    obtain ⟨e, he⟩ := hpre 0 (Nat.zero_lt_succ _)
    simp only [Nat.add_zero, List.getElem_cons_zero] at he
    obtain ⟨more, hmore⟩ := tryCandidates_reaches tryModel cache htm respond xs c post (n + 1) st
      (some e) (attempts ++ [x])
      (fun i h => by
        have := hpre (i + 1) (Nat.succ_lt_succ h)
        simp only [List.getElem_cons_succ] at this
        rw [show n + 1 + i = n + (i + 1) by omega]
        exact this)
    refine ⟨more, ?_⟩
    rw [List.cons_append]
    simp only [tryCandidates, htm, tryModelWith_failure _ _ _ e he]
    rw [hmore]
    simp

/-- The attempts of the fallback part of `callGeminiAPI` are those of its loop. -/
theorem geminiFallback_attempts (respond : Nat → ModelConfig → Response)
    (listing : Str → Option (List ListedModel)) (s : ProviderState) (n : Nat)
    (attempts : List ModelConfig) :
    (geminiFallback respond listing s n attempts).attempts =
      (tryCandidates geminiTryModel respond (getAvailableModels listing s).1 n
        (getAvailableModels listing s).2.1 none attempts).2.1 := by
  unfold geminiFallback
  split
  next modelsToTry st1 queried hlist =>
    rw [hlist]
    dsimp only
    split <;> next heq => rw [heq]

/-- The attempts of the fallback part of `callOpenAIAPI` are those of its loop. -/
theorem openAIFallback_attempts (respond : Nat → Str → Response) (listing : Option (List Str))
    (s : ProviderState) (n : Nat) (attempts : List Str) :
    (openAIFallback respond listing s n attempts).attempts =
      (tryCandidates openAITryModel respond (getAvailableOpenAIModels listing) n s none
        attempts).2.1 := by
  unfold openAIFallback
  split <;> next heq => rw [heq]

/-- C28: the candidate list iterated after the cached model returned a failure
is not filtered against that model.  When the cached model `M` of
`callGeminiAPI` (of `callOpenAIAPI`) returns a failure and `M` occurs in the
candidate list, with every candidate before it returning a failure, `M` is
attempted a second time in the same call; and when every candidate returns a
failure, the attempts of the call are `M` followed by the whole list, one more
than the length of the list. -/
theorem cached_model_is_attempted_twice (respondG : Nat → ModelConfig → Response)
    (listingG : Str → Option (List ListedModel)) (respondO : Nat → Str → Response)
    (listingO : Option (List Str)) (st : ProviderState) (cachedG : ModelConfig) (cachedO : Str)
    (eG eO : Str)
    (hG : st.cachedWorkingModel = some cachedG) (hO : st.cachedOpenAIModel = some cachedO)
    (hne : cachedO ≠ [])
    (hfailG : attemptResult (respondG 0 cachedG) = .ok (.failure eG))
    (hfailO : attemptResult (respondO 0 cachedO) = .ok (.failure eO)) :
    (∀ pre post, geminiCandidates listingG st = pre ++ cachedG :: post →
      (∀ i (h : i < pre.length), ∃ e,
        attemptResult (respondG (1 + i) pre[i]) = .ok (.failure e)) →
      ∃ more, (callGeminiAPI respondG listingG st).attempts =
        cachedG :: (pre ++ cachedG :: more)) ∧
    ((∀ i (h : i < (geminiCandidates listingG st).length), ∃ e,
        attemptResult (respondG (1 + i) (geminiCandidates listingG st)[i]) =
          .ok (.failure e)) →
      (callGeminiAPI respondG listingG st).attempts = cachedG :: geminiCandidates listingG st ∧
      (callGeminiAPI respondG listingG st).attempts.length =
        (geminiCandidates listingG st).length + 1) ∧
    (∀ pre post, getAvailableOpenAIModels listingO = pre ++ cachedO :: post →
      (∀ i (h : i < pre.length), ∃ e,
        attemptResult (respondO (1 + i) pre[i]) = .ok (.failure e)) →
      ∃ more, (callOpenAIAPI respondO listingO st).attempts =
        cachedO :: (pre ++ cachedO :: more)) ∧
    ((∀ i (h : i < (getAvailableOpenAIModels listingO).length), ∃ e,
        attemptResult (respondO (1 + i) (getAvailableOpenAIModels listingO)[i]) =
          .ok (.failure e)) →
      (callOpenAIAPI respondO listingO st).attempts =
        cachedO :: getAvailableOpenAIModels listingO ∧
      (callOpenAIAPI respondO listingO st).attempts.length =
        (getAvailableOpenAIModels listingO).length + 1) := by
  have hcallG := callGeminiAPI_cached_failure respondG listingG st cachedG eG hG hfailG
  have hcallO := callOpenAIAPI_cached_failure respondO listingO st cachedO eO hO hne hfailO
  refine ⟨?_, ?_, ?_, ?_⟩
  · intro pre post hlist hpre
    have hlist2 : (getAvailableModels listingG { st with cachedWorkingModel := none }).1 =
        pre ++ cachedG :: post := hlist
    obtain ⟨more, hmore⟩ := tryCandidates_reaches geminiTryModel cacheGeminiModel
      (fun _ _ _ => rfl) respondG pre cachedG post 1
      (getAvailableModels listingG { st with cachedWorkingModel := none }).2.1 none [cachedG]
      hpre
    refine ⟨more, ?_⟩
    rw [hcallG, geminiFallback_attempts, hlist2, hmore]
    simp
  · intro hall
    have h := (geminiFallback_all_fail respondG listingG { st with cachedWorkingModel := none } 1
      [cachedG] hall).2.2.1
    rw [hcallG, h]
    constructor
    · rfl
    · simp [geminiCandidates]
  · intro pre post hlist hpre
    obtain ⟨more, hmore⟩ := tryCandidates_reaches openAITryModel cacheOpenAIModel
      (fun _ _ _ => rfl) respondO pre cachedO post 1 { st with cachedOpenAIModel := none } none
      [cachedO] hpre
    refine ⟨more, ?_⟩
    rw [hcallO, openAIFallback_attempts, hlist, hmore]
    simp
  · intro hall
    have h := (openAIFallback_all_fail respondO listingO { st with cachedOpenAIModel := none } 1
      [cachedO] hall).2.1
    rw [hcallO, h]
    constructor
    · rfl
    · simp

theorem cached_model_is_attempted_twice_witness :
    (callGeminiAPI (fun _ _ => .http false (.value (some "quota".toList) none))
      (fun _ => none)
      { cachedWorkingModel :=
          some { name := "gemini-1.5-flash".toList, version := "v1".toList, fullName := none },
        availableModels := none,
        cachedOpenAIModel := some "gpt-4o".toList }).attempts =
      [{ name := "gemini-1.5-flash".toList, version := "v1".toList, fullName := none },
       { name := "gemini-1.5-flash".toList, version := "v1".toList, fullName := none },
       { name := "gemini-1.5-pro".toList, version := "v1".toList, fullName := none }] ∧
    (callOpenAIAPI (fun _ _ => .http false (.value (some "quota".toList) none)) none
      { cachedWorkingModel :=
          some { name := "gemini-1.5-flash".toList, version := "v1".toList, fullName := none },
        availableModels := none,
        cachedOpenAIModel := some "gpt-4o".toList }).attempts.length =
      (getAvailableOpenAIModels none).length + 1 := by
  have hG := (cached_model_is_attempted_twice
    (fun _ _ => .http false (.value (some "quota".toList) none)) (fun _ => none)
    (fun _ _ => .http false (.value (some "quota".toList) none)) none
    { cachedWorkingModel :=
        some { name := "gemini-1.5-flash".toList, version := "v1".toList, fullName := none },
      availableModels := none,
      cachedOpenAIModel := some "gpt-4o".toList }
    { name := "gemini-1.5-flash".toList, version := "v1".toList, fullName := none }
    "gpt-4o".toList "quota".toList "quota".toList rfl rfl (by decide) rfl rfl).2.1
    (fun i _ => ⟨"quota".toList, rfl⟩)
  have hO := (cached_model_is_attempted_twice
    (fun _ _ => .http false (.value (some "quota".toList) none)) (fun _ => none)
    (fun _ _ => .http false (.value (some "quota".toList) none)) none
    { cachedWorkingModel :=
        some { name := "gemini-1.5-flash".toList, version := "v1".toList, fullName := none },
      availableModels := none,
      cachedOpenAIModel := some "gpt-4o".toList }
    { name := "gemini-1.5-flash".toList, version := "v1".toList, fullName := none }
    "gpt-4o".toList "quota".toList "quota".toList rfl rfl (by decide) rfl rfl).2.2.2
    (fun i _ => ⟨"quota".toList, rfl⟩)
  exact ⟨hG.1.trans (by decide), hO.2⟩

/-! ## Theorems: the working-model cache and attempts without an answer -/

/-- An attempt whose response is rejected, is not ok, or is ok with a body that
is not JSON, leaves the state, and so the cache, as it was. -/
theorem tryModelWith_keeps_state (cache : ProviderState → ProviderState) (body : Body)
    (st : ProviderState) :
    (tryModelWith cache .rejected st).1 = st ∧
    (tryModelWith cache (.http false body) st).1 = st ∧
    (tryModelWith cache (.http true .notJson) st).1 = st := by
  refine ⟨rfl, ?_, rfl⟩
  cases body <;> rfl

/-- C29 (fails on the code): `tryModel` called for gemini-1.5-flash while the
cache holds gemini-1.5-pro, answered by a response with status 200 whose body
has no candidates: the invocation throws and yields no answer, yet
`cachedWorkingModel` is gemini-1.5-flash afterwards, not what it was before.
Likewise `cachedOpenAIModel` goes from gpt-4 to gpt-4o, also when the body is
the JSON value `null`. -/
theorem malformed_success_replaces_cache :
    geminiTryModel (.http true (.value none none))
        { name := "gemini-1.5-flash".toList, version := "v1".toList, fullName := none }
        { cachedWorkingModel :=
            some { name := "gemini-1.5-pro".toList, version := "v1".toList, fullName := none },
          availableModels := none, cachedOpenAIModel := some "gpt-4".toList } =
      ({ cachedWorkingModel :=
           some { name := "gemini-1.5-flash".toList, version := "v1".toList, fullName := none },
         availableModels := none, cachedOpenAIModel := some "gpt-4".toList },
       .error .typeError) ∧
    openAITryModel (.http true (.value none none)) "gpt-4o".toList
        { cachedWorkingModel := none, availableModels := none,
          cachedOpenAIModel := some "gpt-4".toList } =
      ({ cachedWorkingModel := none, availableModels := none,
         cachedOpenAIModel := some "gpt-4o".toList },
       .error .typeError) ∧
    (openAITryModel (.http true .jsonNull) "gpt-4o".toList
        { cachedWorkingModel := none, availableModels := none,
          cachedOpenAIModel := some "gpt-4".toList }).1.cachedOpenAIModel =
      some "gpt-4o".toList :=
  ⟨rfl, rfl, rfl⟩

/-- C26 (fails on the code): `callGeminiAPI` called with empty caches and no
listing available, every request answered by a response with status 200 whose
body has no candidates.  The first candidate, gemini-1.5-flash, is attempted,
the call throws a `TypeError`, and `cachedWorkingModel` then holds
gemini-1.5-flash, whose only attempt failed; the next call attempts that model
first.  Likewise `callOpenAIAPI` ends with gpt-4o in `cachedOpenAIModel`. -/
theorem cache_holds_model_whose_attempt_failed :
    (callGeminiAPI (fun _ _ => .http true (.value none none)) (fun _ => none)
      { cachedWorkingModel := none, availableModels := none, cachedOpenAIModel := none }).result =
      .error .typeError ∧
    (callGeminiAPI (fun _ _ => .http true (.value none none)) (fun _ => none)
      { cachedWorkingModel := none, availableModels := none, cachedOpenAIModel := none }).attempts =
      [{ name := "gemini-1.5-flash".toList, version := "v1".toList, fullName := none }] ∧
    (callGeminiAPI (fun _ _ => .http true (.value none none)) (fun _ => none)
      { cachedWorkingModel := none, availableModels := none,
        cachedOpenAIModel := none }).state.cachedWorkingModel =
      some { name := "gemini-1.5-flash".toList, version := "v1".toList, fullName := none } ∧
    (callGeminiAPI (fun _ _ => .http true (.value none none)) (fun _ => none)
      (callGeminiAPI (fun _ _ => .http true (.value none none)) (fun _ => none)
        { cachedWorkingModel := none, availableModels := none,
          cachedOpenAIModel := none }).state).attempts =
      [{ name := "gemini-1.5-flash".toList, version := "v1".toList, fullName := none }] ∧
    (callOpenAIAPI (fun _ _ => .http true (.value none none)) none
      { cachedWorkingModel := none, availableModels := none, cachedOpenAIModel := none }).result =
      .error .typeError ∧
    (callOpenAIAPI (fun _ _ => .http true (.value none none)) none
      { cachedWorkingModel := none, availableModels := none,
        cachedOpenAIModel := none }).state.cachedOpenAIModel = some "gpt-4o".toList :=
  ⟨rfl, rfl, rfl, rfl, rfl, rfl⟩

/-- The value `tryModel` returns or throws does not depend on the cache. -/
theorem tryModelWith_snd (cache : ProviderState → ProviderState) (response : Response)
    (st : ProviderState) : (tryModelWith cache response st).2 = attemptResult response := by
  unfold attemptResult
  cases response with
  | rejected => rfl
  | http ok body =>
    cases ok <;> cases body with
    | notJson => rfl
    | jsonNull => rfl
    | value errorMessage answerText => cases answerText <;> rfl

/-- When the loop over the candidates returns an answer, the last model
attempted is a candidate, and the state is the one its `tryModel` left when it
cached that model. -/
theorem tryCandidates_returned_inv {μ : Type}
    (tryModel : Response → μ → ProviderState → ProviderState × Except ApiError TryResult)
    (cache : μ → ProviderState → ProviderState)
    (htm : ∀ r m s, tryModel r m s = tryModelWith (cache m) r s)
    (respond : Nat → μ → Response) :
    ∀ (l : List μ) (n : Nat) (st : ProviderState) (last : Option Str) (attempts : List μ)
      (st2 : ProviderState) (tried : List μ) (a : Str),
      tryCandidates tryModel respond l n st last attempts = (st2, tried, .returned a) →
      ∃ pre c, tried = attempts ++ pre ++ [c] ∧ st2 = cache c st ∧ c ∈ l
  | [], n, st, last, attempts, st2, tried, a, h => by
    simp [tryCandidates] at h
  | x :: xs, n, st, last, attempts, st2, tried, a, h => by
    unfold tryCandidates at h
    rw [htm] at h
    have hsnd := tryModelWith_snd (cache x) (respond n x) st
    cases hres : attemptResult (respond n x) with
    | error e =>
      rw [hres] at hsnd
      generalize tryModelWith (cache x) (respond n x) st = p at h hsnd
      obtain ⟨s1, res⟩ := p
      simp only at hsnd
      subst hsnd
      simp at h
    | ok res =>
      cases res with
      | success a1 =>
        rw [tryModelWith_success _ _ _ a1 hres] at h
        simp only [Prod.mk.injEq, LoopEnd.returned.injEq] at h
        obtain ⟨h1, h2, _⟩ := h
        exact ⟨[], x, by rw [← h2]; simp, h1.symm, List.mem_cons_self x xs⟩
      | failure e1 =>
        rw [tryModelWith_failure _ _ _ e1 hres] at h
        simp only at h
        obtain ⟨pre, c, h1, h2, h3⟩ := tryCandidates_returned_inv tryModel cache htm respond xs
          (n + 1) st (some e1) (attempts ++ [x]) st2 tried a h
        exact ⟨x :: pre, c, by rw [h1]; simp, h2, List.mem_cons_of_mem x h3⟩

/-- After the assignment of lines 124-128 the cache holds a model of the name
and version of the model just tried. -/
theorem cacheGeminiModel_spec (m : ModelConfig) (s : ProviderState) :
    ∃ c, (cacheGeminiModel m s).cachedWorkingModel = some c ∧ c.name = m.name ∧
      c.version = m.version := by
  unfold cacheGeminiModel
  cases hc : s.cachedWorkingModel with
  | none => exact ⟨m, rfl, rfl, rfl⟩
  | some cached =>
    dsimp only
    split
    · exact ⟨m, rfl, rfl, rfl⟩
    · next hsame =>
      refine ⟨cached, hc, ?_, ?_⟩
      · by_contra hne
        exact hsame (Or.inl hne)
      · by_contra hne
        exact hsame (Or.inr hne)

/-- After the assignment of lines 283-287 the cache holds the name of the model
just tried. -/
theorem cacheOpenAIModel_spec (m : Str) (s : ProviderState) :
    (cacheOpenAIModel m s).cachedOpenAIModel = some m := by
  unfold cacheOpenAIModel
  split
  · rfl
  · next h =>
    simp only [Bool.or_eq_true, Bool.not_eq_true', decide_eq_true_eq, not_or,
      Bool.not_eq_false, Decidable.not_not] at h
    exact h.2

/-- When the fallback part of `callGeminiAPI` returns an answer, the cache then
holds a model of the name and version of the last model attempted. -/
theorem geminiFallback_answer (respond : Nat → ModelConfig → Response)
    (listing : Str → Option (List ListedModel)) (s : ProviderState) (n : Nat)
    (attempts : List ModelConfig) (a : Str)
    (h : (geminiFallback respond listing s n attempts).result = .ok a) :
    ∃ m c, (geminiFallback respond listing s n attempts).attempts.getLast? = some m ∧
      (geminiFallback respond listing s n attempts).state.cachedWorkingModel = some c ∧
      c.name = m.name ∧ c.version = m.version := by
  unfold geminiFallback at h ⊢
  generalize getAvailableModels listing s = g at h ⊢
  obtain ⟨L, s1, q⟩ := g
  dsimp only at h ⊢
  generalize ht : tryCandidates geminiTryModel respond L n s1 none attempts = t at h ⊢
  obtain ⟨s2, tried, fin⟩ := t
  cases fin with
  | returned answer =>
    obtain ⟨pre, c, h1, h2, _⟩ := tryCandidates_returned_inv geminiTryModel cacheGeminiModel
      (fun _ _ _ => rfl) respond L n s1 none attempts s2 tried answer ht
    obtain ⟨c1, hc1, hname, hversion⟩ := cacheGeminiModel_spec c s1
    refine ⟨c, c1, ?_, ?_, hname, hversion⟩
    · dsimp only
      rw [h1]
      simp
    · dsimp only
      rw [h2]
      exact hc1
  | exhausted lastError => simp at h
  | thrown e => simp at h

/-- When `callGeminiAPI` returns an answer, `cachedWorkingModel` then holds a
model of the name and version of the last model attempted, the one whose
attempt produced the answer. -/
theorem callGeminiAPI_answer (respond : Nat → ModelConfig → Response)
    (listing : Str → Option (List ListedModel)) (st : ProviderState) (a : Str)
    (h : (callGeminiAPI respond listing st).result = .ok a) :
    ∃ m c, (callGeminiAPI respond listing st).attempts.getLast? = some m ∧
      (callGeminiAPI respond listing st).state.cachedWorkingModel = some c ∧
      c.name = m.name ∧ c.version = m.version := by
  cases hc : st.cachedWorkingModel with
  | none =>
    rw [callGeminiAPI_without_cache respond listing st hc] at h ⊢
    exact geminiFallback_answer respond listing _ 0 [] a h
  | some cached =>
    cases hres : attemptResult (respond 0 cached) with
    | error e =>
      have hsnd := tryModelWith_snd (cacheGeminiModel cached) (respond 0 cached) st
      rw [hres] at hsnd
      unfold callGeminiAPI at h
      rw [hc] at h
      simp only [geminiTryModel] at h
      generalize tryModelWith (cacheGeminiModel cached) (respond 0 cached) st = p at h hsnd
      obtain ⟨s1, res⟩ := p
      simp only at hsnd
      subst hsnd
      simp at h
    | ok res =>
      cases res with
      | success a1 =>
        obtain ⟨c1, hc1, hname, hversion⟩ := cacheGeminiModel_spec cached st
        refine ⟨cached, c1, ?_, ?_, hname, hversion⟩
        · unfold callGeminiAPI
          rw [hc]
          simp only [geminiTryModel, tryModelWith_success _ _ _ a1 hres]
          rfl
        · unfold callGeminiAPI
          rw [hc]
          simp only [geminiTryModel, tryModelWith_success _ _ _ a1 hres]
          exact hc1
      | failure e1 =>
        rw [callGeminiAPI_cached_failure respond listing st cached e1 hc hres] at h ⊢
        exact geminiFallback_answer respond listing _ 1 [cached] a h

/-- When the fallback part of `callOpenAIAPI` returns an answer, the cache then
holds the last model attempted. -/
theorem openAIFallback_answer (respond : Nat → Str → Response) (listing : Option (List Str))
    (s : ProviderState) (n : Nat) (attempts : List Str) (a : Str)
    (h : (openAIFallback respond listing s n attempts).result = .ok a) :
    ∃ m, (openAIFallback respond listing s n attempts).attempts.getLast? = some m ∧
      (openAIFallback respond listing s n attempts).state.cachedOpenAIModel = some m := by
  unfold openAIFallback at h ⊢
  generalize ht : tryCandidates openAITryModel respond (getAvailableOpenAIModels listing) n s
    none attempts = t at h ⊢
  obtain ⟨s2, tried, fin⟩ := t
  cases fin with
  | returned answer =>
    obtain ⟨pre, c, h1, h2, _⟩ := tryCandidates_returned_inv openAITryModel cacheOpenAIModel
      (fun _ _ _ => rfl) respond _ n s none attempts s2 tried answer ht
    refine ⟨c, ?_, ?_⟩
    · dsimp only
      rw [h1]
      simp
    · dsimp only
      rw [h2]
      exact cacheOpenAIModel_spec c s
  | exhausted lastError => simp at h
  | thrown e => simp at h

/-- When `callOpenAIAPI` returns an answer, `cachedOpenAIModel` then holds the
last model attempted, the one whose attempt produced the answer. -/
theorem callOpenAIAPI_answer (respond : Nat → Str → Response) (listing : Option (List Str))
    (st : ProviderState) (a : Str)
    (h : (callOpenAIAPI respond listing st).result = .ok a) :
    ∃ m, (callOpenAIAPI respond listing st).attempts.getLast? = some m ∧
      (callOpenAIAPI respond listing st).state.cachedOpenAIModel = some m := by
  cases ht : truthyStr st.cachedOpenAIModel with
  | false =>
    rw [callOpenAIAPI_without_cache respond listing st ht] at h ⊢
    exact openAIFallback_answer respond listing _ 0 [] a h
  | true =>
    cases hc : st.cachedOpenAIModel with
    | none =>
      rw [hc] at ht
      exact absurd ht (by decide)
    | some cached =>
      have hne : cached ≠ [] := by
        intro hnil
        rw [hc, hnil] at ht
        exact absurd ht (by decide)
      cases hres : attemptResult (respond 0 cached) with
      | error e =>
        have hsnd := tryModelWith_snd (cacheOpenAIModel cached) (respond 0 cached) st
        rw [hres] at hsnd
        unfold callOpenAIAPI at h
        rw [ht, hc] at h
        simp only [if_true, openAITryModel] at h
        generalize tryModelWith (cacheOpenAIModel cached) (respond 0 cached) st = p at h hsnd
        obtain ⟨s1, res⟩ := p
        simp only at hsnd
        subst hsnd
        simp at h
      | ok res =>
        cases res with
        | success a1 =>
          refine ⟨cached, ?_, ?_⟩
          · unfold callOpenAIAPI
            rw [ht, hc]
            simp only [if_true, openAITryModel, tryModelWith_success _ _ _ a1 hres]
            rfl
          · unfold callOpenAIAPI
            rw [ht, hc]
            simp only [if_true, openAITryModel, tryModelWith_success _ _ _ a1 hres]
            exact cacheOpenAIModel_spec cached st
        | failure e1 =>
          rw [callOpenAIAPI_cached_failure respond listing st cached e1 hc hne hres] at h ⊢
          exact openAIFallback_answer respond listing _ 1 [cached] a h

/-! ## Theorems: empty parts of a multi-choice answer -/

/-- Every string includes the empty string. -/
theorem includes_nil (s : Str) : includes s [] = true := by
  cases s <;> simp [includes, startsWith]

/-- The empty answer is matched to the first option when that option's label is
not empty and no label is blank: the exact step finds at most an empty label,
which does not count as found, and the substring step stops at the first
option. -/
theorem matchExactOption_nil (toLowerCase : Str → Str) (first : Str) (rest : List Str)
    (hlower : toLowerCase [] = []) (hfirst : first ≠ [])
    (hblank : ∀ t ∈ first :: rest, t ≠ [] → trim (toLowerCase t) ≠ []) :
    matchExactOption toLowerCase [] (first :: rest) = first := by
  have htrim : trim (toLowerCase []) = [] := by rw [hlower]; rfl
  have hsub : (first :: rest).find? (fun opt =>
      includes (toLowerCase opt) (toLowerCase []) ||
      includes (toLowerCase []) (toLowerCase opt)) = some first := by
    simp [List.find?, hlower, includes_nil]
  unfold matchExactOption
  simp only [List.length_cons, Nat.add_one_ne_zero, if_false, htrim, hsub]
  cases hfind : (first :: rest).find? (fun opt => decide (trim (toLowerCase opt) = [])) with
  | none =>
    cases first with
    | nil => exact absurd rfl hfirst
    | cons c cs => rfl
  | some found =>
    cases found with
    | nil =>
      cases first with
      | nil => exact absurd rfl hfirst
      | cons c cs => rfl
    | cons d ds =>
      exfalso
      have hmem := List.mem_of_find?_eq_some hfind
      have hp := List.find?_some hfind
      simp only [decide_eq_true_eq] at hp
      exact hblank (d :: ds) hmem (by simp) hp

/-- Outside the labels an extraction can produce: with the options "A" and " "
(a blank label, which no extraction produces since both trim every label),
`matchExactOption` on the empty string returns the blank label, which the exact
step finds first, and the empty part of the answer "a,,b" is bound to the blank
option. -/
theorem empty_part_bound_to_blank_option :
    matchExactOption toLowerCaseAscii [] ["A".toList, " ".toList] = " ".toList ∧
    matchAnswerToOptions toLowerCaseAscii [.str "A".toList, .str " ".toList] "a,,b".toList true =
      .arr [.str "A".toList, .str " ".toList, .str "b".toList] := by
  constructor <;> decide

/-- The multi-choice branch of `matchAnswerToOptions` on an option list whose
first label is a non-empty string and none of whose labels is blank (non-empty,
but empty once lower-cased and trimmed), for a lower-casing function that maps
the empty string to itself: `matchExactOption` on the empty string returns the
first option label, no part of a non-empty answer is dropped, and the matched
answer has the first option at the place of every empty part and the bound
entry of the part at every other place. -/
theorem empty_part_takes_first_option (toLowerCase : Str → Str) (first : FormOption)
    (rest : List FormOption) (answer : Str)
    (hlower : toLowerCase [] = []) (hfirst : optionText first ≠ [])
    (hblank : ∀ o ∈ first :: rest, optionText o ≠ [] →
      trim (toLowerCase (optionText o)) ≠ [])
    (hans : answer ≠ []) :
    matchExactOption toLowerCase [] ((first :: rest).map optionText) = optionText first ∧
    matchAnswerToOptions toLowerCase (first :: rest) answer true =
      .arr (((splitComma answer).map trim).map fun part =>
        if part = [] then first else boundEntry toLowerCase (first :: rest) part) ∧
    (((splitComma answer).map trim).map fun part =>
        if part = [] then first else boundEntry toLowerCase (first :: rest) part).length =
      (splitComma answer).length := by
  have hnil : matchExactOption toLowerCase [] ((first :: rest).map optionText) =
      optionText first := by
    rw [List.map_cons]
    apply matchExactOption_nil toLowerCase _ _ hlower hfirst
    intro t ht hne
    rw [← List.map_cons, List.mem_map] at ht
    obtain ⟨o, ho, rfl⟩ := ht
    exact hblank o ho hne
  have hmatched : ∀ part,
      matchExactOption toLowerCase part ((first :: rest).map optionText) ≠ [] := by
    intro part
    by_cases hp : part = []
    · rw [hp, hnil]
      exact hfirst
    · exact matchExactOption_ne_nil toLowerCase part _ hp
  refine ⟨hnil, ?_, by simp⟩
  have hcond : (answer.isEmpty || (first :: rest).isEmpty) = false := by
    cases answer with
    | nil => exact absurd rfl hans
    | cons c cs => rfl
  unfold matchAnswerToOptions
  simp only [hcond, Bool.false_eq_true, if_false, if_true]
  congr 1
  have hfilter : List.filter (fun m => !m.isEmpty)
      (List.map (fun part => matchExactOption toLowerCase part
          (List.map optionText (first :: rest)))
        (List.map trim (splitComma answer))) =
      List.map (fun part => matchExactOption toLowerCase part
          (List.map optionText (first :: rest)))
        (List.map trim (splitComma answer)) := by
    rw [List.filter_eq_self]
    intro m hm
    rw [List.mem_map] at hm
    obtain ⟨part, _, rfl⟩ := hm
    have := hmatched part
    cases hm : matchExactOption toLowerCase part (List.map optionText (first :: rest)) with
    | nil => exact absurd hm this
    | cons c cs => rfl
  rw [hfilter, List.map_map]
  apply List.map_congr_left
  intro part _
  by_cases hp : part = []
  · simp only [Function.comp, hp, if_true]
    rw [hnil, optionOrText_find _ _ hfirst]
    simp [List.find?]
  · simp only [Function.comp, hp, if_false]
    exact entry_eq_boundEntry toLowerCase (first :: rest) part hp

/-! ## Theorems: `answersMatch` on multi-choice answers -/

/-- C30 (fails on the code): a multi_ans question with the options apple and
cherry, GPT answering "apple, Banana" and Gemini "apple, banana".  The matched
answers are [apple, Banana] and [apple, banana], equal as multisets of labels
compared case-insensitively, yet `answersMatch` is false: the array is sorted
before it is lower-cased, so the normal forms are "banana,apple" and
"apple,banana".  In the other direction the normal form of the one label "a,b"
is that of the two labels "a" and "b". -/
theorem answersMatch_separates_equal_multisets :
    reconcile toLowerCaseAscii
        { question := "Pick the fruits".toList, type := .multi_ans,
          options := [.str "apple".toList, .str "cherry".toList] }
        (some "apple, Banana".toList) (some "apple, banana".toList) =
      .ok { finalAnswer := .arr [.str "apple".toList, .str "banana".toList],
            gptMatchedAnswer := .arr [.str "apple".toList, .str "Banana".toList],
            geminiMatchedAnswer := .arr [.str "apple".toList, .str "banana".toList],
            answersMatch := false } ∧
    ["apple".toList, "Banana".toList].map toLowerCaseAscii =
      ["apple".toList, "banana".toList].map toLowerCaseAscii ∧
    normalizeForComparison (.arr [.str "apple".toList, .str "Banana".toList]) =
      .str "Banana,apple".toList ∧
    normalizeForComparison (.arr [.str "apple".toList, .str "banana".toList]) =
      .str "apple,banana".toList ∧
    normalizeForComparison (.arr [.str "a,b".toList]) =
      normalizeForComparison (.arr [.str "a".toList, .str "b".toList]) :=
  ⟨rfl, by decide, by decide, by decide, by decide⟩

/-! ## Theorems: empty parts, on the options of an extracted question -/

theorem trimStart_eq_nil_iff : ∀ s : Str, trimStart s = [] ↔ s.all isWhiteSpace = true
  | [] => by simp [trimStart]
  | c :: cs => by
    unfold trimStart
    by_cases h : isWhiteSpace c = true
    · simp [h, trimStart_eq_nil_iff cs]
    · simp [h]

theorem all_trimStart : ∀ s : Str, (trimStart s).all isWhiteSpace = s.all isWhiteSpace
  | [] => rfl
  | c :: cs => by
    unfold trimStart
    by_cases h : isWhiteSpace c = true
    · simp [h, all_trimStart cs]
    · simp [h]

theorem all_trim (s : Str) : (trim s).all isWhiteSpace = s.all isWhiteSpace := by
  unfold trim
  rw [List.all_reverse, all_trimStart, List.all_reverse, all_trimStart]

/-- A string trims to the empty string exactly when it is made of white space. -/
theorem trim_eq_nil_iff (s : Str) : trim s = [] ↔ s.all isWhiteSpace = true := by
  unfold trim
  rw [List.reverse_eq_nil_iff, trimStart_eq_nil_iff, List.all_reverse, all_trimStart]

/-- A trimmed string that is not empty is not blank. -/
theorem trim_trim_ne_nil (x : Str) (h : trim x ≠ []) : trim (trim x) ≠ [] := by
  rw [Ne, trim_eq_nil_iff, all_trim, ← trim_eq_nil_iff]
  exact h

/-- ASCII lower-casing maps white space to white space and the other
characters to other characters. -/
theorem isWhiteSpace_lower (c : Char) :
    isWhiteSpace (if 65 ≤ c.toNat ∧ c.toNat ≤ 90 then Char.ofNat (c.toNat + 32) else c) =
      isWhiteSpace c := by
  by_cases h : 65 ≤ c.toNat ∧ c.toNat ≤ 90
  · rw [if_pos h]
    have hc : c = Char.ofNat c.toNat := (Char.ofNat_toNat c).symm
    obtain ⟨h1, h2⟩ := h
    generalize c.toNat = n at hc h1 h2
    subst hc
    interval_cases n <;> decide
  · rw [if_neg h]

/-- ASCII lower-casing does not make a string blank. -/
theorem toLowerCaseAscii_keeps_nonblank (s : Str) (h : trim s ≠ []) :
    trim (toLowerCaseAscii s) ≠ [] := by
  rw [Ne, trim_eq_nil_iff] at h ⊢
  unfold toLowerCaseAscii
  rw [List.all_map]
  have hcomp : (isWhiteSpace ∘ fun c =>
      if 65 ≤ c.toNat ∧ c.toNat ≤ 90 then Char.ofNat (c.toNat + 32) else c) = isWhiteSpace := by
    funext c
    exact isWhiteSpace_lower c
  rw [hcomp]
  exact h

/-- The options of a dropdown are trimmed span texts. -/
theorem mem_dropdownOptions : ∀ (spans : List Str) (add : Bool) (t : Str),
    t ∈ dropdownOptions add spans → ∃ x, t = trim x
  | [], _, t, h => by simp [dropdownOptions] at h
  | span :: rest, add, t, h => by
    unfold dropdownOptions at h
    split at h
    · exact mem_dropdownOptions rest true t h
    · split at h
      · exact mem_dropdownOptions rest add t h
      · rcases List.mem_cons.mp h with h1 | h1
        · exact ⟨span, h1⟩
        · exact mem_dropdownOptions rest add t h1

/-- Every option label of a question of the first form is a trimmed text. -/
theorem google_labels_trimmed (node : GoogleQuestionNode) :
    ∀ o ∈ (extractGoogleQuestion node).options, ∃ x, optionText o = trim x := by
  intro o ho
  have hlabel : ∀ l : LabelNode, optionText (labelOption l) = trim l.textContent := by
    intro l
    unfold labelOption
    dsimp only
    split
    · split <;> rfl
    · rfl
  unfold extractGoogleQuestion at ho
  dsimp only at ho
  split at ho
  · obtain ⟨l, _, rfl⟩ := List.mem_map.mp ho
    exact ⟨_, hlabel l⟩
  · split at ho
    · obtain ⟨l, _, rfl⟩ := List.mem_map.mp ho
      exact ⟨_, hlabel l⟩
    · split at ho
      · obtain ⟨t, ht, rfl⟩ := List.mem_map.mp ho
        exact mem_dropdownOptions _ _ t ht
      · split at ho
        · simp at ho
        · split at ho <;> simp at ho

/-- Every option label of a question of the second form is a trimmed text. -/
theorem ms_labels_trimmed (node : MSQuestionNode) :
    ∀ o ∈ (extractMSQuestion node).options, ∃ x, optionText o = trim x := by
  intro o ho
  have hlabel : ∀ e : MSChoiceElement,
      optionText (msOption node.firstImg e) = trim e.value := by
    intro e
    unfold msOption
    dsimp only
    split
    · split <;> rfl
    · rfl
  unfold extractMSQuestion at ho
  dsimp only at ho
  split at ho
  · obtain ⟨e, _, rfl⟩ := List.mem_map.mp ho
    exact ⟨_, hlabel e⟩
  · split at ho
    · obtain ⟨e, _, rfl⟩ := List.mem_map.mp ho
      exact ⟨_, hlabel e⟩
    · simp at ho

/-- C27: in the multi-choice branch of `matchAnswerToOptions`, on the options
of a question as either extraction produces them, an empty comma-separated part
of a non-empty answer (as in "a,,b" or "a,") is not dropped: when the first
option label is a non-empty string, `matchExactOption` on the empty string
returns that first label, and the matched answer holds the first option at the
place of every empty part (and the bound entry of the part at every other
place), so it has one entry for each part.  The lower-casing function is
assumed to map the empty string to itself and to make no string blank, as
`toLowerCase` does. -/
theorem empty_part_is_bound_to_first_option (toLowerCase : Str → Str) (q : QuestionData)
    (first : FormOption) (rest : List FormOption) (answer : Str)
    (hlower : toLowerCase [] = [])
    (hkeep : ∀ s : Str, trim s ≠ [] → trim (toLowerCase s) ≠ [])
    (hq : (∃ node : GoogleQuestionNode, q = extractGoogleQuestion node) ∨
      (∃ node : MSQuestionNode, q = extractMSQuestion node))
    (hopts : q.options = first :: rest) (hfirst : optionText first ≠ [])
    (hans : answer ≠ []) :
    matchExactOption toLowerCase [] (q.options.map optionText) = optionText first ∧
    matchAnswerToOptions toLowerCase q.options answer true =
      .arr (((splitComma answer).map trim).map fun part =>
        if part = [] then first else boundEntry toLowerCase q.options part) ∧
    (((splitComma answer).map trim).map fun part =>
        if part = [] then first else boundEntry toLowerCase q.options part).length =
      (splitComma answer).length := by
  have htrimmed : ∀ o ∈ q.options, ∃ x, optionText o = trim x := by
    rcases hq with ⟨node, rfl⟩ | ⟨node, rfl⟩
    · exact google_labels_trimmed node
    · exact ms_labels_trimmed node
  have hblank : ∀ o ∈ first :: rest, optionText o ≠ [] →
      trim (toLowerCase (optionText o)) ≠ [] := by
    intro o ho hne
    obtain ⟨x, hx⟩ := htrimmed o (by rw [hopts]; exact ho)
    rw [hx] at hne ⊢
    exact hkeep (trim x) (trim_trim_ne_nil x hne)
  rw [hopts]
  exact empty_part_takes_first_option toLowerCase first rest answer hlower hfirst hblank hans

theorem empty_part_is_bound_to_first_option_witness :
    matchAnswerToOptions toLowerCaseAscii
        (extractGoogleQuestion
          { title := some "Colours".toList, radioGroup := false, checkboxGroup := true,
            dropdown := false,
            labels := [{ textContent := " Red ".toList, img := none, checked := false },
                       { textContent := "Green".toList, img := none, checked := false },
                       { textContent := "Blue".toList, img := none, checked := false }],
            spans := [], textInput := none, textarea := none }).options
        "green,,blue,".toList true =
      .arr [.str "Green".toList, .str "Red".toList, .str "Blue".toList, .str "Red".toList] :=
  (empty_part_is_bound_to_first_option toLowerCaseAscii
    (extractGoogleQuestion
      { title := some "Colours".toList, radioGroup := false, checkboxGroup := true,
        dropdown := false,
        labels := [{ textContent := " Red ".toList, img := none, checked := false },
                   { textContent := "Green".toList, img := none, checked := false },
                   { textContent := "Blue".toList, img := none, checked := false }],
        spans := [], textInput := none, textarea := none })
    (.str "Red".toList) [.str "Green".toList, .str "Blue".toList] "green,,blue,".toList rfl
    toLowerCaseAscii_keeps_nonblank (Or.inl ⟨_, rfl⟩) (by decide) (by decide)
    (by decide)).2.1.trans (by decide)

end FormSolver
